import Mathlib

/-!
# AkmSensor (libsensors/AkmSensor.cpp): enable, setDelay, update_delay, readEvents

A shallow embedding of the AKM sensor multiplexer.  The C++ object becomes a record
`AkmSensor`; every member function becomes a function from the old record to a result
and the new record.  Calls that leave the process (the vendor backend and the delay
ioctl) are appended to the `calls` field, and their results come from an `Env`, which
may answer differently depending on the calls made so far.

Numbers: `uint32_t` masks and `uint64_t` delays are natural numbers, `int` values are
integers.  A `float` value is the rational number it stands for, and every `float`
operation yields its exact result rounded by `Config.roundFloat`.
-/

namespace AkmSensor

/-! ## Constants -/

/-- Modelled from the spec: the enum of AkmSensor.h (not among the sources); the logical
sensor ids are bit indices 0..3 in the order Accelerometer, MagneticField, Orientation,
SignificantMotion. -/
def Accelerometer : Nat := 0

/-- Modelled from the spec: second logical sensor id of the AkmSensor.h enum. -/
def MagneticField : Nat := 1

/-- Modelled from the spec: third logical sensor id of the AkmSensor.h enum. -/
def Orientation : Nat := 2

/-- Modelled from the spec: fourth logical sensor id of the AkmSensor.h enum. -/
def SignificantMotion : Nat := 3

/-- Modelled from the spec: the enum terminator of AkmSensor.h; there are exactly four
logical sensors. -/
def numSensors : Nat := 4

/-- Android hardware/sensors.h: SENSOR_TYPE_ACCELEROMETER. -/
def SENSOR_TYPE_ACCELEROMETER : Nat := 1

/-- Android hardware/sensors.h: SENSOR_TYPE_MAGNETIC_FIELD. -/
def SENSOR_TYPE_MAGNETIC_FIELD : Nat := 2

/-- Android hardware/sensors.h: SENSOR_TYPE_ORIENTATION. -/
def SENSOR_TYPE_ORIENTATION : Nat := 3

/-- Android hardware/sensors.h: SENSOR_TYPE_TEMPERATURE. -/
def SENSOR_TYPE_TEMPERATURE : Nat := 7

/-- Android hardware/sensors.h: SENSOR_TYPE_SIGNIFICANT_MOTION. -/
def SENSOR_TYPE_SIGNIFICANT_MOTION : Nat := 17

/-- Android hardware/sensors.h: SENSOR_STATUS_ACCURACY_HIGH. -/
def SENSOR_STATUS_ACCURACY_HIGH : Int := 3

/-- The errno value EINVAL. -/
def EINVAL : Int := 22

/-- The errno value ENODEV. -/
def ENODEV : Int := 19

/-- The errno value ENOENT. -/
def ENOENT : Int := 2

/-- Linux input.h: the event class of a synchronization record. -/
def EV_SYN : Int := 0

/-- Linux input.h: the event class of an axis update. -/
def EV_REL : Int := 2

/-- The constants that the source takes from headers which are not among the sources
(sensors.h and ak8973b.h of libsensors, AkmSensor.h): the four external handles, the ten
axis codes, the calibration factors (values of type `float`), the status mask, the size of
an event record, and whether the member `mMotionValue` is declared as an `int` (otherwise
as a `float`).

`roundFloat` is the rounding of the `float` arithmetic of the target: a `float` is
modelled by the rational number it stands for, and every `float` operation yields the
exact result rounded by `roundFloat`.  Infinities and NaN are not modelled. -/
structure Config where
  ID_A : Int
  ID_M : Int
  ID_O : Int
  ID_SM : Int
  EVENT_TYPE_ACCEL_X : Int
  EVENT_TYPE_ACCEL_Y : Int
  EVENT_TYPE_ACCEL_Z : Int
  EVENT_TYPE_MAGV_X : Int
  EVENT_TYPE_MAGV_Y : Int
  EVENT_TYPE_MAGV_Z : Int
  EVENT_TYPE_YAW : Int
  EVENT_TYPE_PITCH : Int
  EVENT_TYPE_ROLL : Int
  EVENT_TYPE_ORIENT_STATUS : Int
  CONVERT_A_X : ℚ
  CONVERT_A_Y : ℚ
  CONVERT_A_Z : ℚ
  CONVERT_M_X : ℚ
  CONVERT_M_Y : ℚ
  CONVERT_M_Z : ℚ
  CONVERT_O_A : ℚ
  CONVERT_O_P : ℚ
  CONVERT_O_R : ℚ
  SENSOR_STATE_MASK : Int
  sizeof_sensors_event_t : Int
  motionValueIsInt : Bool
  roundFloat : ℚ → ℚ

/-- The case labels of one C++ switch are pairwise different (the compiler rejects a
duplicate label): the four handles among themselves. -/
def Config.handlesDistinct (cfg : Config) : Prop :=
  [cfg.ID_A, cfg.ID_M, cfg.ID_O, cfg.ID_SM].Nodup

instance (cfg : Config) : Decidable cfg.handlesDistinct := by
  unfold Config.handlesDistinct; infer_instance

/-! ## Data model -/

/-- The part of `sensors_event_t` the source touches.  `data0..data2` are the first three
floats of the payload union (x, y, z / azimuth, pitch, roll / data[0]); `status` is the
accuracy byte of the vector payloads. -/
structure sensors_event_t where
  version : Int
  sensor : Int
  type : Int
  timestamp : Int
  data0 : ℚ
  data1 : ℚ
  data2 : ℚ
  status : Int

/-- The record `memset` leaves behind: all fields zero. -/
def sensors_event_t.zero : sensors_event_t :=
  { version := 0, sensor := 0, type := 0, timestamp := 0,
    data0 := 0, data1 := 0, data2 := 0, status := 0 }

/-- The `struct timeval` of an input record. -/
structure timeval where
  tv_sec : Int
  tv_usec : Int

/-- A raw record of the kernel input stream. -/
structure input_event where
  time : timeval
  type : Int
  code : Int
  value : Int

/-- A call that leaves the process: the two mutating vendor backend functions, and the
delay ioctl on the control device. -/
inductive Call where
  | akm_enable_sensor (sensor_type : Nat)
  | akm_disable_sensor (sensor_type : Nat)
  | ioctl_set_delay (delay : Int)
deriving DecidableEq, Repr

/-- The world outside the object.  Each mutating function gets the calls made so far, so
that its answer may change over time.  `ioctl_set_delay` answers with the return value of
`ioctl` and the `errno` it leaves; `ioctl_EVIOCGABS` answers with the return value and
the `absinfo.value` it fills in. -/
structure Env where
  akm_is_sensor_enabled : Nat → Int
  akm_enable_sensor : List Call → Nat → Int
  akm_disable_sensor : List Call → Nat → Int
  ioctl_set_delay : List Call → Int → Int × Int
  ioctl_EVIOCGABS : Int → Int × Int

end AkmSensor

/-- The member variables of the C++ class `AkmSensor`, the queue of the input reader, and
the calls made so far.  `mDelays i` is the `uint64_t` cell that the expression
`mDelays[i]` designates; the array proper is `mDelays 0 .. mDelays 3`. -/
structure AkmSensor where
  mEnabled : Nat
  mPendingMask : Nat
  mAccRefCount : Int
  mMotionValue : ℚ
  mPendingEvents : Nat → AkmSensor.sensors_event_t
  mDelays : Int → Nat
  mInputReader : List AkmSensor.input_event
  calls : List AkmSensor.Call

namespace AkmSensor

/-! ## Machine arithmetic -/

/-- The conversion `uint32_t(x)` of an `int`. -/
def uint32_t (x : Int) : Nat := (x % 4294967296).toNat

/-- The complement `~x` of a 32-bit value, as it enters a `uint32_t` operation. -/
def not32 (x : Nat) : Nat := 4294967295 - x % 4294967296

/-- The conversion `uint64_t(x)` of an `int64_t`. -/
def uint64_t (x : Int) : Nat := (x % 18446744073709551616).toNat

/-- The conversion `int64_t(x)` of a `uint64_t`. -/
def int64_t (x : Nat) : Int :=
  if x % 18446744073709551616 < 9223372036854775808 then (x % 18446744073709551616 : Nat)
  else ((x % 18446744073709551616 : Nat) : Int) - 18446744073709551616

/-- The conversion of an integer to `short`. -/
def toShort (x : Int) : Int := (x + 32768) % 65536 - 32768

/-- The conversion of a `float` to `int`: the fractional part is discarded.  In C++ the
conversion is defined only when the result fits an `int`. -/
def truncToInt (q : ℚ) : Int := if 0 ≤ q then ⌊q⌋ else ⌈q⌉

/-- The conversion of an `int` to `float`. -/
def intToFloat (cfg : Config) (v : Int) : ℚ := cfg.roundFloat v

/-- The product of two `float` values. -/
def floatMul (cfg : Config) (a b : ℚ) : ℚ := cfg.roundFloat (a * b)

/-- The difference of two `float` values. -/
def floatSub (cfg : Config) (a b : ℚ) : ℚ := cfg.roundFloat (a - b)

/-- Modelled from the spec: the function `timevalToNano` of SensorBase.h, which is not
among the sources; the time of a record is converted to nanoseconds. -/
def timevalToNano (t : timeval) : Int := t.tv_sec * 1000000000 + t.tv_usec * 1000

/-! ## enable -/

/-- The first switch of `enable`: the logical sensor of a handle, or -1. -/
def enable_what (cfg : Config) (handle : Int) : Int :=
  if handle = cfg.ID_A then (Accelerometer : Int)
  else if handle = cfg.ID_M then (MagneticField : Int)
  else if handle = cfg.ID_O then (Orientation : Int)
  else if handle = cfg.ID_SM then (SignificantMotion : Int)
  else -1

/-- The second switch of `enable`: the physical kind behind a logical sensor.  The
variable is not initialised in the source; the value 0 stands for that and is not
reached for a logical sensor below `numSensors`. -/
def enable_sensor_type (what : Nat) : Nat :=
  if what = SignificantMotion then SENSOR_TYPE_ACCELEROMETER
  else if what = Accelerometer then SENSOR_TYPE_ACCELEROMETER
  else if what = MagneticField then SENSOR_TYPE_MAGNETIC_FIELD
  else if what = Orientation then SENSOR_TYPE_ORIENTATION
  else 0

/-- Lines 183-199 of `enable`: the backend call for the physical kind `sensor_type`,
left out where the reference count of the accelerometer makes it unnecessary; the value
of `err` and the calls made so far. -/
def enable_err (env : Env) (s : AkmSensor) (en : Int) (sensor_type : Nat) : Int × List Call :=
  if en ≠ 0 then
    if sensor_type = SENSOR_TYPE_ACCELEROMETER ∧ s.mAccRefCount > 0 then (0, s.calls)
    else (env.akm_enable_sensor s.calls sensor_type,
          s.calls ++ [Call.akm_enable_sensor sensor_type])
  else
    if sensor_type = SENSOR_TYPE_ACCELEROMETER ∧ s.mAccRefCount > 1 then (0, s.calls)
    else (env.akm_disable_sensor s.calls sensor_type,
          s.calls ++ [Call.akm_disable_sensor sensor_type])

/-- Lines 203-207 of `enable`, the block under `if (!err)`: the reference count moves by
one for the accelerometer kind, and bit `what` of `mEnabled` becomes `flags`. -/
def enable_commit (s : AkmSensor) (en : Int) (what : Nat) (sensor_type : Nat) (flags : Nat)
    (calls : List Call) : AkmSensor :=
  { s with
    calls := calls
    mAccRefCount :=
      if sensor_type = SENSOR_TYPE_ACCELEROMETER then
        (if en ≠ 0 then s.mAccRefCount + 1 else s.mAccRefCount - 1)
      else s.mAccRefCount
    mEnabled := (s.mEnabled &&& not32 (1 <<< what)) ||| (flags <<< what) }

/-- The member function `AkmSensor::enable(handle, en)`: the returned `int` and the
object afterwards. -/
def enable (cfg : Config) (env : Env) (s : AkmSensor) (handle : Int) (en : Int) :
    Int × AkmSensor :=
  let what : Int := enable_what cfg handle
  if uint32_t what ≥ numSensors then (-EINVAL, s)
  else
    let w : Nat := what.toNat
    let newState : Nat := if en ≠ 0 then 1 else 0
    if (newState <<< w) ≠ (s.mEnabled &&& (1 <<< w)) then
      let sensor_type : Nat := enable_sensor_type w
      let flags : Nat := newState
      let r : Int × List Call := enable_err env s en sensor_type
      let err : Int := r.1
      if err = 0 then (err, enable_commit s en w sensor_type flags r.2)
      else (err, { s with calls := r.2 })
    else (0, s)

/-! ## setDelay and update_delay -/

/-- The loop of `update_delay`: the minimum of `wanted` and the delays of the enabled
sensors `i, i+1, ..` below `numSensors` (`n` is `numSensors - i`). -/
def update_delay_loop (s : AkmSensor) : Nat → Nat → Nat → Nat
  | 0, _, wanted => wanted
  | n + 1, i, wanted =>
    if s.mEnabled &&& (1 <<< i) ≠ 0 then
      let ns : Nat := s.mDelays (i : Int)
      update_delay_loop s n (i + 1) (if wanted < ns then wanted else ns)
    else update_delay_loop s n (i + 1) wanted

/-- The value `update_delay` hands to the delay ioctl. -/
def update_delay_value (s : AkmSensor) : Int :=
  toShort (Int.tdiv (int64_t (update_delay_loop s numSensors 0 18446744073709551615)) 1000000)

/-- The member function `AkmSensor::update_delay()`. -/
def update_delay (env : Env) (s : AkmSensor) : Int × AkmSensor :=
  if s.mEnabled ≠ 0 then
    let delay : Int := update_delay_value s
    let r : Int × Int := env.ioctl_set_delay s.calls delay
    let s1 : AkmSensor := { s with calls := s.calls ++ [Call.ioctl_set_delay delay] }
    if r.1 ≠ 0 then (-r.2, s1) else (0, s1)
  else (0, s)

/-- The switch of `setDelay`, for a handle other than ID_SM: the physical kind of the
handle, or the initial value 0 of `sensor_type`. -/
def setDelay_sensor_type (cfg : Config) (handle : Int) : Nat :=
  if handle = cfg.ID_A then SENSOR_TYPE_ACCELEROMETER
  else if handle = cfg.ID_M then SENSOR_TYPE_MAGNETIC_FIELD
  else if handle = cfg.ID_O then SENSOR_TYPE_ORIENTATION
  else 0

/-- The member function `AkmSensor::setDelay(handle, ns)`.  The local `what` keeps its
initial value -1 up to the store into `mDelays`. -/
def setDelay (cfg : Config) (env : Env) (s : AkmSensor) (handle : Int) (ns : Int) :
    Int × AkmSensor :=
  let what : Int := -1
  if ns < 0 then (-EINVAL, s)
  else if handle = cfg.ID_SM then (0, s)
  else if setDelay_sensor_type cfg handle = 0 then (-EINVAL, s)
  else update_delay env { s with mDelays := Function.update s.mDelays what (uint64_t ns) }

/-! ## processEvent -/

/-- The store `mPendingEvents[j] = e`. -/
def setEvent (s : AkmSensor) (j : Nat) (e : sensors_event_t) : AkmSensor :=
  { s with mPendingEvents := Function.update s.mPendingEvents j e }

/-- The status byte of an orientation status record: `uint8_t(value & SENSOR_STATE_MASK)`,
with 4 replaced by 0. -/
def orientStatus (cfg : Config) (value : Int) : Int :=
  let status : Int := (Int.land value cfg.SENSOR_STATE_MASK) % 256
  if status = 4 then 0 else status

/-- The two statements of every case of `processEvent`: `mPendingMask |= 1<<j`, and the
store of one field into `mPendingEvents[j]`, which becomes `e`. -/
def axisUpdate (s : AkmSensor) (j : Nat) (e : sensors_event_t) : AkmSensor :=
  setEvent { s with mPendingMask := s.mPendingMask ||| (1 <<< j) } j e

/-- The left operand of `mMotionValue - acceleration.z` as a `float`: an `int` member is
converted to `float` first. -/
def motionBaseline (cfg : Config) (s : AkmSensor) : ℚ :=
  if cfg.motionValueIsInt then cfg.roundFloat s.mMotionValue else s.mMotionValue

/-- Lines 338-344 of `processEvent`, the motion heuristic run after the store of the
accelerometer z value: the `float` difference to `mMotionValue` is cut to an `int`,
`mMotionValue` takes the z value, and a difference above 1 or below -1 makes
SignificantMotion pending with `data[0] = 1`. -/
def motionHeuristic (cfg : Config) (s1 : AkmSensor) : AkmSensor :=
  let z : ℚ := (s1.mPendingEvents Accelerometer).data2
  let motionValueDiff : Int := truncToInt (floatSub cfg (motionBaseline cfg s1) z)
  let s2 : AkmSensor :=
    { s1 with mMotionValue := if cfg.motionValueIsInt then (truncToInt z : ℚ) else z }
  if motionValueDiff > 1 ∨ motionValueDiff < -1 then
    axisUpdate s2 SignificantMotion { s2.mPendingEvents SignificantMotion with data0 := 1 }
  else s2

/-- The member function `AkmSensor::processEvent(code, value)`. -/
def processEvent (cfg : Config) (s : AkmSensor) (code : Int) (value : Int) : AkmSensor :=
  if code = cfg.EVENT_TYPE_ACCEL_X then
    axisUpdate s Accelerometer
      { s.mPendingEvents Accelerometer with
        data0 := floatMul cfg (intToFloat cfg value) cfg.CONVERT_A_X }
  else if code = cfg.EVENT_TYPE_ACCEL_Y then
    axisUpdate s Accelerometer
      { s.mPendingEvents Accelerometer with
        data1 := floatMul cfg (intToFloat cfg value) cfg.CONVERT_A_Y }
  else if code = cfg.EVENT_TYPE_ACCEL_Z then
    motionHeuristic cfg
      (axisUpdate s Accelerometer
        { s.mPendingEvents Accelerometer with
        data2 := floatMul cfg (intToFloat cfg value) cfg.CONVERT_A_Z })
  else if code = cfg.EVENT_TYPE_MAGV_X then
    axisUpdate s MagneticField
      { s.mPendingEvents MagneticField with
        data0 := floatMul cfg (intToFloat cfg value) cfg.CONVERT_M_X }
  else if code = cfg.EVENT_TYPE_MAGV_Y then
    axisUpdate s MagneticField
      { s.mPendingEvents MagneticField with
        data1 := floatMul cfg (intToFloat cfg value) cfg.CONVERT_M_Y }
  else if code = cfg.EVENT_TYPE_MAGV_Z then
    axisUpdate s MagneticField
      { s.mPendingEvents MagneticField with
        data2 := floatMul cfg (intToFloat cfg value) cfg.CONVERT_M_Z }
  else if code = cfg.EVENT_TYPE_YAW then
    axisUpdate s Orientation
      { s.mPendingEvents Orientation with
        data0 := floatMul cfg (intToFloat cfg value) cfg.CONVERT_O_A }
  else if code = cfg.EVENT_TYPE_PITCH then
    axisUpdate s Orientation
      { s.mPendingEvents Orientation with
        data1 := floatMul cfg (intToFloat cfg value) cfg.CONVERT_O_P }
  else if code = cfg.EVENT_TYPE_ROLL then
    axisUpdate s Orientation
      { s.mPendingEvents Orientation with
        data2 := floatMul cfg (intToFloat cfg value) cfg.CONVERT_O_R }
  else if code = cfg.EVENT_TYPE_ORIENT_STATUS then
    axisUpdate s Orientation
      { s.mPendingEvents Orientation with status := orientStatus cfg value }
  else s

/-! ## readEvents -/

/-- What the loops of `readEvents` carry along: the object, the remaining capacity
`count`, the counter `numEventReceived`, and the records written to `data` so far. -/
structure ReadState where
  obj : AkmSensor
  count : Int
  numEventReceived : Int
  data : List sensors_event_t

/-- Lines 297-298 of `readEvents`: sensor `j` loses its pending bit and its pending
record gets the time stamp. -/
def stampPending (s : AkmSensor) (time : Int) (j : Nat) : AkmSensor :=
  setEvent { s with mPendingMask := s.mPendingMask &&& not32 (1 <<< j) } j
    { s.mPendingEvents j with timestamp := time }

/-- The body of the inner loop of `readEvents` for the sensor `j` (lines 296-309): a
pending sensor loses its pending bit and gets the time stamp; if it is enabled as well,
its record is written to `data`, and SignificantMotion is disabled again. -/
def flushRound (cfg : Config) (env : Env) (time : Int) (j : Nat) (r : ReadState) : ReadState :=
  if r.obj.mPendingMask &&& (1 <<< j) ≠ 0 then
    let s1 : AkmSensor := stampPending r.obj time j
    if s1.mEnabled &&& (1 <<< j) ≠ 0 then
      { obj := if j = SignificantMotion then (enable cfg env s1 cfg.ID_SM 0).2 else s1
        count := r.count - 1
        numEventReceived := r.numEventReceived + 1
        data := r.data ++ [s1.mPendingEvents j] }
    else { r with obj := s1 }
  else r

/-- The inner loop of `readEvents` at a synchronization record with time `time`,
`for (j ; count && mPendingMask && j<numSensors ; j++)`, entered at `j` with
`n = numSensors - j` rounds to go. -/
def flushLoop (cfg : Config) (env : Env) (time : Int) : Nat → Nat → ReadState → ReadState
  | 0, _, r => r
  | n + 1, j, r =>
    if r.count ≠ 0 ∧ r.obj.mPendingMask ≠ 0 then
      flushLoop cfg env time n (j + 1) (flushRound cfg env time j r)
    else r

/-- Modelled from the spec: `InputEventCircularReader::fill` of InputEventReader.cpp, which
is not among the sources.  The reader is a first-in first-out queue of raw records; a
successful `fill` appends the records `fill.2` read from the device to it (a failed one
has `fill.1 < 0` and is handled in `readEvents` before the queue is touched). -/
def fillQueue (queue : List input_event) (fill : Int × List input_event) : List input_event :=
  queue ++ fill.2

/-- The outer loop of `readEvents`, `while (count && mInputReader.readEvent(&event))`,
over the queue of the input reader: `readEvent` looks at the oldest record and `next`
drops it.
The result is `none` where the C++ loop does not end: a synchronization record after
whose flush capacity is left and `mPendingMask` is still not zero is looked at again and
again without any change. -/
def readLoop (cfg : Config) (env : Env) : List input_event → ReadState → Option ReadState
  | [], r => some { r with obj := { r.obj with mInputReader := [] } }
  | event :: rest, r =>
    if r.count = 0 then some { r with obj := { r.obj with mInputReader := event :: rest } }
    else if event.type = EV_REL then
      readLoop cfg env rest { r with obj := processEvent cfg r.obj event.code event.value }
    else if event.type = EV_SYN then
      let r1 : ReadState := flushLoop cfg env (timevalToNano event.time) numSensors 0 r
      if r1.obj.mPendingMask = 0 then readLoop cfg env rest r1
      else if r1.count = 0 then
        some { r1 with obj := { r1.obj with mInputReader := event :: rest } }
      else none
    else readLoop cfg env rest r

/-- The member function `AkmSensor::readEvents(data, count)`: the returned `int`, the
records written to `data`, and the object afterwards; `none` where the call does not
return.  `fill` is the outcome of `mInputReader.fill(data_fd)`: its return value and the
records it has read. -/
def readEvents (cfg : Config) (env : Env) (s : AkmSensor) (count : Int)
    (fill : Int × List input_event) : Option (Int × List sensors_event_t × AkmSensor) :=
  if count < 1 then some (-EINVAL, [], s)
  else if fill.1 < 0 then some (fill.1, [], s)
  else
    match readLoop cfg env (fillQueue s.mInputReader fill)
        { obj := s, count := count, numEventReceived := 0, data := [] } with
    | some r => some (r.numEventReceived, r.data, r.obj)
    | none => none

/-! ## Construction -/

/-- One `if (!ioctl(data_fd, EVIOCGABS(code), &absinfo)) field = f(absinfo.value)` of
the constructor. -/
def absValue (env : Env) (code : Int) (f : Int → ℚ) (old : ℚ) : ℚ :=
  if (env.ioctl_EVIOCGABS code).1 = 0 then f (env.ioctl_EVIOCGABS code).2 else old

/-- The constructor `AkmSensor::AkmSensor()`.  `env` holds the backend functions that
`loadAKMLibrary` has resolved (those of libakm.so, or the stubs), `mDelays0` is the
content of the memory of `mDelays`, which the constructor does not initialise. -/
def construct (cfg : Config) (env : Env) (mDelays0 : Int → Nat) : AkmSensor :=
  let z : sensors_event_t := sensors_event_t.zero
  let evA : sensors_event_t :=
    { z with version := cfg.sizeof_sensors_event_t, sensor := cfg.ID_A,
             type := SENSOR_TYPE_ACCELEROMETER, status := SENSOR_STATUS_ACCURACY_HIGH }
  let evM : sensors_event_t :=
    { z with version := cfg.sizeof_sensors_event_t, sensor := cfg.ID_M,
             type := SENSOR_TYPE_MAGNETIC_FIELD, status := SENSOR_STATUS_ACCURACY_HIGH }
  let evO : sensors_event_t :=
    { z with version := cfg.sizeof_sensors_event_t, sensor := cfg.ID_O,
             type := SENSOR_TYPE_ORIENTATION, status := SENSOR_STATUS_ACCURACY_HIGH }
  let evSM : sensors_event_t :=
    { z with version := cfg.sizeof_sensors_event_t, sensor := cfg.ID_SM,
             type := SENSOR_TYPE_SIGNIFICANT_MOTION }
  let enA : Bool := env.akm_is_sensor_enabled SENSOR_TYPE_ACCELEROMETER ≠ 0
  let enM : Bool := env.akm_is_sensor_enabled SENSOR_TYPE_MAGNETIC_FIELD ≠ 0
  let enO : Bool := env.akm_is_sensor_enabled SENSOR_TYPE_ORIENTATION ≠ 0
  let evA1 : sensors_event_t :=
    if enA then
      { evA with
        data0 := absValue env cfg.EVENT_TYPE_ACCEL_X
          (fun v => floatMul cfg (intToFloat cfg v) cfg.CONVERT_A_X) evA.data0
        data1 := absValue env cfg.EVENT_TYPE_ACCEL_Y
          (fun v => floatMul cfg (intToFloat cfg v) cfg.CONVERT_A_Y) evA.data1
        data2 := absValue env cfg.EVENT_TYPE_ACCEL_Z
          (fun v => floatMul cfg (intToFloat cfg v) cfg.CONVERT_A_Z) evA.data2 }
    else evA
  let evM1 : sensors_event_t :=
    if enM then
      { evM with
        data0 := absValue env cfg.EVENT_TYPE_MAGV_X
          (fun v => floatMul cfg (intToFloat cfg v) cfg.CONVERT_M_X) evM.data0
        data1 := absValue env cfg.EVENT_TYPE_MAGV_Y
          (fun v => floatMul cfg (intToFloat cfg v) cfg.CONVERT_M_Y) evM.data1
        data2 := absValue env cfg.EVENT_TYPE_MAGV_Z
          (fun v => floatMul cfg (intToFloat cfg v) cfg.CONVERT_M_Z) evM.data2 }
    else evM
  let evO1 : sensors_event_t :=
    if enO then
      { evO with
        data0 := absValue env cfg.EVENT_TYPE_YAW (fun v => intToFloat cfg v) evO.data0
        data1 := absValue env cfg.EVENT_TYPE_PITCH (fun v => intToFloat cfg v) evO.data1
        data2 := absValue env cfg.EVENT_TYPE_ROLL (fun v => intToFloat cfg (-v)) evO.data2
        status :=
          if (env.ioctl_EVIOCGABS cfg.EVENT_TYPE_ORIENT_STATUS).1 = 0 then
            (Int.land (env.ioctl_EVIOCGABS cfg.EVENT_TYPE_ORIENT_STATUS).2
              cfg.SENSOR_STATE_MASK) % 256
          else evO.status }
    else evO
  { mEnabled :=
      ((if enA then 1 <<< Accelerometer else 0) ||| (if enM then 1 <<< MagneticField else 0))
        ||| (if enO then 1 <<< Orientation else 0)
    mPendingMask := 0
    mAccRefCount := 0
    mMotionValue := 0
    mPendingEvents := fun j =>
      if j = Accelerometer then evA1 else if j = MagneticField then evM1
      else if j = Orientation then evO1 else if j = SignificantMotion then evSM else z
    mDelays := mDelays0
    mInputReader := []
    calls := [Call.akm_disable_sensor SENSOR_TYPE_TEMPERATURE] }

/-- The stubs that `loadAKMLibrary` installs when libakm.so cannot be loaded:
`stub_is_sensor_enabled` answers 0, `stub_enable_disable_sensor` answers `-ENODEV`.  The
two ioctl answers are not part of the stubs and are passed in. -/
def stubEnv (ioctl_set_delay : List Call → Int → Int × Int)
    (ioctl_EVIOCGABS : Int → Int × Int) : Env :=
  { akm_is_sensor_enabled := fun _ => 0
    akm_enable_sensor := fun _ _ => -ENODEV
    akm_disable_sensor := fun _ _ => -ENODEV
    ioctl_set_delay := ioctl_set_delay
    ioctl_EVIOCGABS := ioctl_EVIOCGABS }

/-! ## Sequences of calls -/

/-- One call on the control surface of the object. -/
inductive Op where
  | enable (handle : Int) (en : Int)
  | setDelay (handle : Int) (ns : Int)
  | readEvents (count : Int) (fill : Int × List input_event)

/-- The object after one call and the records the call has written (none for `enable`
and `setDelay`); `none` where a `readEvents` call does not return. -/
def step (cfg : Config) (env : Env) (s : AkmSensor) : Op → Option (AkmSensor × List sensors_event_t)
  | Op.enable handle en => some ((enable cfg env s handle en).2, [])
  | Op.setDelay handle ns => some ((setDelay cfg env s handle ns).2, [])
  | Op.readEvents count fill =>
    match readEvents cfg env s count fill with
    | some r => some (r.2.2, r.2.1)
    | none => none

/-- The object after a sequence of calls and all records written on the way. -/
def run (cfg : Config) (env : Env) : AkmSensor → List Op → Option (AkmSensor × List sensors_event_t)
  | s, [] => some (s, [])
  | s, op :: ops =>
    match step cfg env s op with
    | some (s1, out1) =>
      match run cfg env s1 ops with
      | some (s2, out2) => some (s2, out1 ++ out2)
      | none => none
    | none => none

/-- The answer of the world outside to a call made after the calls `hist`: the `int` the
backend function returns, or the return value of the ioctl. -/
def Env.answer (env : Env) (hist : List Call) : Call → Int
  | Call.akm_enable_sensor t => env.akm_enable_sensor hist t
  | Call.akm_disable_sensor t => env.akm_disable_sensor hist t
  | Call.ioctl_set_delay d => (env.ioctl_set_delay hist d).1

/-- Whether bit `j` of a mask is set, as the source tests it: `mask & (1<<j)`. -/
def bitSet (mask : Nat) (j : Nat) : Prop := mask &&& (1 <<< j) ≠ 0

instance (mask j : Nat) : Decidable (bitSet mask j) := by
  unfold bitSet; infer_instance

/-- The number of sensors among Accelerometer and SignificantMotion whose bit is set in
the enabled mask. -/
def accelUsers (mEnabled : Nat) : Int :=
  (if bitSet mEnabled Accelerometer then 1 else 0) +
    (if bitSet mEnabled SignificantMotion then 1 else 0)

/-! ## Notions used in the statements -/

/-- The handle that the constructor stores in the `sensor` field of the pending record
of logical sensor `j`. -/
def sensorHandle (cfg : Config) (j : Nat) : Int :=
  if j = Accelerometer then cfg.ID_A
  else if j = MagneticField then cfg.ID_M
  else if j = Orientation then cfg.ID_O
  else cfg.ID_SM

/-- Every pending record carries the handle of its logical sensor, as the constructor
sets it up. -/
def tagged (cfg : Config) (s : AkmSensor) : Prop :=
  ∀ j, j < numSensors → (s.mPendingEvents j).sensor = sensorHandle cfg j

instance (cfg : Config) (s : AkmSensor) : Decidable (tagged cfg s) := by
  unfold tagged; infer_instance

/-- The object after a run of queue records that holds no synchronization record: axis
updates go through `processEvent`, records of other classes are skipped. -/
def processRecords (cfg : Config) (s : AkmSensor) : List input_event → AkmSensor
  | [] => s
  | e :: rest =>
    processRecords cfg (if e.type = EV_REL then processEvent cfg s e.code e.value else s) rest

/-- What a call may not touch when it only buffers or flushes input: the object `s1` has
the enabled mask, the reference count, the calls and the delays of `s`, and the same
handles in its pending records. -/
def SameControl (s s1 : AkmSensor) : Prop :=
  s1.mEnabled = s.mEnabled ∧ s1.calls = s.calls ∧ s1.mAccRefCount = s.mAccRefCount ∧
  s1.mDelays = s.mDelays ∧
  ∀ i, (s1.mPendingEvents i).sensor = (s.mPendingEvents i).sensor

/-- Only logical sensors are pending: no bit of `mPendingMask` from `numSensors` on is
set.  The constructor starts with an empty mask and `processEvent` sets bits below
`numSensors` only. -/
def PendingInRange (s : AkmSensor) : Prop := s.mPendingMask < 2 ^ numSensors

instance (s : AkmSensor) : Decidable (PendingInRange s) := by
  unfold PendingInRange; infer_instance

/-- The logical sensors `j, .., j+n-1` that are both pending and enabled, in increasing
order. -/
def pendingEnabled (s : AkmSensor) (j n : Nat) : List Nat :=
  (List.range' j n).filter
    (fun i => decide (bitSet s.mPendingMask i ∧ bitSet s.mEnabled i))

/-- The pending record of sensor `i` with the time stamp `time`. -/
def stamped (s : AkmSensor) (time : Int) (i : Nat) : sensors_event_t :=
  { s.mPendingEvents i with timestamp := time }

/-! ## Concrete inputs -/

/-- The integer nearest to `q`; of two nearest integers the even one. -/
def roundHalfEven (q : ℚ) : Int :=
  if q - ⌊q⌋ < 1 / 2 then ⌊q⌋
  else if 1 / 2 < q - ⌊q⌋ then ⌊q⌋ + 1
  else if ⌊q⌋ % 2 = 0 then ⌊q⌋ else ⌊q⌋ + 1

/-- The position of the highest binary digit of `n` (0 for `n < 2`), found in at most
`fuel` halvings. -/
def log2Floor : Nat → Nat → Nat
  | 0, _ => 0
  | fuel + 1, n => if n < 2 then 0 else log2Floor fuel (n / 2) + 1

/-- The binary exponent `e` of a positive rational `a` in the IEEE 754 binary32 format:
`2 ^ e ≤ a < 2 ^ (e + 1)`, and -126 for the subnormal numbers below `2 ^ (-126)`. -/
def float32Exponent (a : ℚ) : Int :=
  let k : Int := (log2Floor a.num.natAbs a.num.natAbs : Int) - (log2Floor a.den a.den : Int)
  max (if (2 : ℚ) ^ k ≤ a then k else k - 1) (-126)

/-- The rounding of IEEE 754 binary32 arithmetic in the default mode (to nearest, ties
to even): the multiple of `2 ^ (e - 23)` nearest to `q`, where `e` is the binary exponent
of `|q|`.  The overflow to infinity above the largest `float` is not modelled. -/
def float32 (q : ℚ) : ℚ :=
  if q = 0 then 0
  else roundHalfEven (q / (2 : ℚ) ^ (float32Exponent |q| - 23)) *
    (2 : ℚ) ^ (float32Exponent |q| - 23)

/-- A configuration with the handles 0, 1, 2, 3, ten different axis codes, all
calibration factors 1, and binary32 arithmetic. -/
def exampleConfig : Config :=
  { ID_A := 0, ID_M := 1, ID_O := 2, ID_SM := 3,
    EVENT_TYPE_ACCEL_X := 1, EVENT_TYPE_ACCEL_Y := 0, EVENT_TYPE_ACCEL_Z := 2,
    EVENT_TYPE_MAGV_X := 7, EVENT_TYPE_MAGV_Y := 6, EVENT_TYPE_MAGV_Z := 9,
    EVENT_TYPE_YAW := 3, EVENT_TYPE_PITCH := 4, EVENT_TYPE_ROLL := 5,
    EVENT_TYPE_ORIENT_STATUS := 8,
    CONVERT_A_X := 1, CONVERT_A_Y := 1, CONVERT_A_Z := 1,
    CONVERT_M_X := 1, CONVERT_M_Y := 1, CONVERT_M_Z := 1,
    CONVERT_O_A := 1, CONVERT_O_P := 1, CONVERT_O_R := 1,
    SENSOR_STATE_MASK := 32767, sizeof_sensors_event_t := 104, motionValueIsInt := true,
    roundFloat := float32 }

/-- A world in which no sensor is enabled at construction and every call succeeds. -/
def okEnv : Env :=
  { akm_is_sensor_enabled := fun _ => 0
    akm_enable_sensor := fun _ _ => 0
    akm_disable_sensor := fun _ _ => 0
    ioctl_set_delay := fun _ _ => (0, 0)
    ioctl_EVIOCGABS := fun _ => (0, 0) }

/-- A world in which the hardware reports the accelerometer as enabled at construction
and every call succeeds. -/
def accelOnEnv : Env :=
  { okEnv with
    akm_is_sensor_enabled := fun t => if t = SENSOR_TYPE_ACCELEROMETER then 1 else 0 }

/-- A world with the stub backend, in which the ioctls succeed. -/
def stubOkEnv : Env := stubEnv (fun _ _ => (0, 0)) (fun _ => (0, 0))

/-- The object constructed in the world `okEnv`, with zeroed delay memory. -/
def exampleState : AkmSensor := construct exampleConfig okEnv (fun _ => 0)

/-- Delay memory holding 20 ms, 50 ms, 10 ms and 5 ms for the four logical sensors. -/
def exampleDelays : Int → Nat := fun i =>
  if i = 0 then 20000000 else if i = 1 then 50000000 else if i = 2 then 10000000
  else if i = 3 then 5000000 else 0

/-- The example object with a given enabled mask and reference count and the delays
`exampleDelays`. -/
def delayState (mEnabled : Nat) (mAccRefCount : Int) : AkmSensor :=
  { exampleState with
    mEnabled := mEnabled, mAccRefCount := mAccRefCount, mDelays := exampleDelays }

/-- An axis update record of the example configuration. -/
def relEvent (code value : Int) : input_event :=
  { time := { tv_sec := 5, tv_usec := 7 }, type := EV_REL, code := code, value := value }

/-- A synchronization record with the time 5 s + 7 us. -/
def synEvent : input_event :=
  { time := { tv_sec := 5, tv_usec := 7 }, type := EV_SYN, code := 0, value := 0 }

/-- The example object with a given enabled mask, pending mask and reference count. -/
def maskState (mEnabled mPendingMask : Nat) (mAccRefCount : Int) : AkmSensor :=
  { exampleState with
    mEnabled := mEnabled, mPendingMask := mPendingMask, mAccRefCount := mAccRefCount }

/-- The call `enable(handle, en)` asks for a transition of Accelerometer or of
SignificantMotion: the handle is one of the two and the requested state differs from the
current bit of the sensor. -/
def accelTransition (cfg : Config) (s : AkmSensor) (handle en : Int) : Prop :=
  (enable_what cfg handle = (Accelerometer : Int) ∨
    enable_what cfg handle = (SignificantMotion : Int)) ∧
  ¬ ((en ≠ 0) ↔ bitSet s.mEnabled (enable_what cfg handle).toNat)

instance (cfg : Config) (s : AkmSensor) (handle en : Int) :
    Decidable (accelTransition cfg s handle en) := by
  unfold accelTransition; infer_instance

/-- The example object with the accelerometer enabled and 40 s in every delay cell. -/
def longDelayState : AkmSensor :=
  { exampleState with mEnabled := 1, mAccRefCount := 1, mDelays := fun _ => 40000000000 }

/-- The `float` that `value * CONVERT_A_Z` yields for the raw value `v`: the z value that
`processEvent` stores. -/
def accelZ (cfg : Config) (v : Int) : ℚ := floatMul cfg (intToFloat cfg v) cfg.CONVERT_A_Z

/-- The `float` difference `mMotionValue - acceleration.z` for the object `s` and the z
value `z`. -/
def motionDiff (cfg : Config) (s : AkmSensor) (z : ℚ) : ℚ :=
  floatSub cfg (motionBaseline cfg s) z

/-- The example configuration with the calibration factor 1/2 for the z axis of the
accelerometer. -/
def halfConfig : Config := { exampleConfig with CONVERT_A_Z := 1 / 2 }

/-- The example configuration with the calibration factor `0.01f` for the z axis of the
accelerometer: the binary32 number nearest to 1/100 is `5368709 / 2 ^ 29`. -/
def centiConfig : Config := { exampleConfig with CONVERT_A_Z := 5368709 / 536870912 }

/-- The record is an axis update for the logical sensor `j`: it goes through
`processEvent`, and `processEvent` can make sensor `j` pending with it (for
SignificantMotion this is a z value of the accelerometer that can trigger the motion
heuristic). -/
def updatesSensor (cfg : Config) (j : Nat) (e : input_event) : Prop :=
  e.type = EV_REL ∧
  ∃ s : AkmSensor, ¬ bitSet s.mPendingMask j ∧
    bitSet (processEvent cfg s e.code e.value).mPendingMask j

/-- The call brings in an axis update for the logical sensor `j`. -/
def opUpdatesSensor (cfg : Config) (j : Nat) : Op → Prop
  | Op.readEvents _ fill => ∃ e ∈ fill.2, updatesSensor cfg j e
  | Op.enable _ _ => False
  | Op.setDelay _ _ => False

/-- The logical sensor whose pending record the `switch (code)` of `processEvent` writes
for the axis code `code`, and whose pending bit it sets; `none` for a code without a
case. -/
def codeSensor (cfg : Config) (code : Int) : Option Nat :=
  if code = cfg.EVENT_TYPE_ACCEL_X then some Accelerometer
  else if code = cfg.EVENT_TYPE_ACCEL_Y then some Accelerometer
  else if code = cfg.EVENT_TYPE_ACCEL_Z then some Accelerometer
  else if code = cfg.EVENT_TYPE_MAGV_X then some MagneticField
  else if code = cfg.EVENT_TYPE_MAGV_Y then some MagneticField
  else if code = cfg.EVENT_TYPE_MAGV_Z then some MagneticField
  else if code = cfg.EVENT_TYPE_YAW then some Orientation
  else if code = cfg.EVENT_TYPE_PITCH then some Orientation
  else if code = cfg.EVENT_TYPE_ROLL then some Orientation
  else if code = cfg.EVENT_TYPE_ORIENT_STATUS then some Orientation
  else none

/-- The heuristic trigger of SignificantMotion: the axis update `(code, value)` takes the
case `EVENT_TYPE_ACCEL_Z` of `processEvent`, and the `float` difference between the
baseline of the object `s` and the new z value, cut to an `int`, is above 1 or below
-1. -/
def motionTrigger (cfg : Config) (s : AkmSensor) (code value : Int) : Prop :=
  code ≠ cfg.EVENT_TYPE_ACCEL_X ∧ code ≠ cfg.EVENT_TYPE_ACCEL_Y ∧
  code = cfg.EVENT_TYPE_ACCEL_Z ∧
  (truncToInt (motionDiff cfg s (accelZ cfg value)) > 1 ∨
    truncToInt (motionDiff cfg s (accelZ cfg value)) < -1)

/-- The queue record `e`, met by the object `s`, is an axis update of the logical sensor
`j`, or for SignificantMotion a heuristic trigger. -/
def recordUpdates (cfg : Config) (s : AkmSensor) (e : input_event) (j : Nat) : Prop :=
  e.type = EV_REL ∧
  (codeSensor cfg e.code = some j ∨
    (j = SignificantMotion ∧ motionTrigger cfg s e.code e.value))

/-- One of the queue records `pre`, processed in order from the object `s`, is an axis
update of the logical sensor `j` (or a heuristic trigger) for the object as it is when
that record is met. -/
def updatedIn (cfg : Config) (s : AkmSensor) (pre : List input_event) (j : Nat) : Prop :=
  ∃ pre1 e pre2, pre = pre1 ++ e :: pre2 ∧ recordUpdates cfg (processRecords cfg s pre1) e j

/-! # Theorems -/

/-! ## Bit masks -/

theorem bitSet_iff_testBit (m j : Nat) : bitSet m j ↔ m.testBit j = true := by
  unfold bitSet
  rw [Nat.one_shiftLeft]
  constructor
  · intro h
    obtain ⟨i, hi⟩ := Nat.ne_zero_implies_bit_true h
    rw [Nat.testBit_and, Nat.testBit_two_pow] at hi
    simp only [Bool.and_eq_true, decide_eq_true_eq] at hi
    rw [hi.2]; exact hi.1
  · intro h hz
    have h1 : (m &&& 2 ^ j).testBit j = true := by
      rw [Nat.testBit_and, Nat.testBit_two_pow_self, h]; rfl
    rw [hz] at h1
    simp at h1

theorem testBit_not32 (j i : Nat) (hj : j < 32) :
    (not32 (1 <<< j)).testBit i = (decide (i < 32) && !decide (j = i)) := by
  have hp : 2 ^ j < 2 ^ 32 := Nat.pow_lt_pow_right (by decide) hj
  have h1 : not32 (1 <<< j) = 2 ^ 32 - (2 ^ j + 1) := by
    unfold not32
    rw [Nat.one_shiftLeft]
    have : 2 ^ j % 4294967296 = 2 ^ j := Nat.mod_eq_of_lt hp
    rw [this]
    have h2 : (2:Nat) ^ 32 = 4294967296 := by norm_num
    omega
  rw [h1, Nat.testBit_two_pow_sub_succ hp, Nat.testBit_two_pow]

theorem bitSet_clear (m j i : Nat) (hj : j < 32) :
    bitSet (m &&& not32 (1 <<< j)) i ↔ bitSet m i ∧ i < 32 ∧ i ≠ j := by
  rw [bitSet_iff_testBit, bitSet_iff_testBit, Nat.testBit_and, testBit_not32 j i hj]
  simp only [Bool.and_eq_true, decide_eq_true_eq, Bool.not_eq_true', decide_eq_false_iff_not]
  constructor
  · rintro ⟨a, b, c⟩; exact ⟨a, b, fun h => c h.symm⟩
  · rintro ⟨a, b, c⟩; exact ⟨a, b, fun h => c h.symm⟩

theorem bitSet_set (m j i : Nat) : bitSet (m ||| (1 <<< j)) i ↔ bitSet m i ∨ i = j := by
  rw [bitSet_iff_testBit, bitSet_iff_testBit, Nat.testBit_or, Nat.one_shiftLeft,
    Nat.testBit_two_pow]
  simp only [Bool.or_eq_true, decide_eq_true_eq]
  constructor
  · rintro (a | b); exact Or.inl a; exact Or.inr b.symm
  · rintro (a | b); exact Or.inl a; exact Or.inr b.symm

theorem bitSet_zero_shift (m j i : Nat) : bitSet (m ||| (0 <<< j)) i ↔ bitSet m i := by
  simp [Nat.zero_shiftLeft]

theorem and_bit_eq_iff (m w : Nat) : m &&& (1 <<< w) = 1 <<< w ↔ bitSet m w := by
  constructor
  · intro h
    unfold bitSet
    rw [h, Nat.one_shiftLeft]
    exact Nat.pos_iff_ne_zero.mp (Nat.two_pow_pos w)
  · intro h
    rw [bitSet_iff_testBit] at h
    apply Nat.eq_of_testBit_eq
    intro i
    rw [Nat.testBit_and, Nat.one_shiftLeft, Nat.testBit_two_pow]
    by_cases hi : w = i
    · subst hi; simp [h]
    · simp [hi]

theorem bitSet_zero (j : Nat) : ¬ bitSet 0 j := by
  unfold bitSet; simp

theorem bitSet_lt (m j : Nat) (h : bitSet m j) : 2 ^ j ≤ m := by
  rw [bitSet_iff_testBit] at h
  exact Nat.testBit_implies_ge h

theorem enable_cond_iff (m w : Nat) (en : Int) :
    ((if en ≠ 0 then 1 else 0 : Nat) <<< w ≠ m &&& (1 <<< w)) ↔
      ¬ ((en ≠ 0) ↔ bitSet m w) := by
  by_cases he : en = 0
  · simp only [he, ne_eq, not_true_eq_false, if_false, Nat.zero_shiftLeft, false_iff,
      not_not]
    unfold bitSet
    exact ⟨fun h => fun h2 => h h2.symm, fun h => fun h2 => h h2.symm⟩
  · simp only [ne_eq, he, not_false_eq_true, if_true, true_iff]
    rw [← and_bit_eq_iff]
    exact ⟨fun h => fun h2 => h h2.symm, fun h => fun h2 => h h2.symm⟩

theorem enable_what_A (cfg : Config) : enable_what cfg cfg.ID_A = 0 := by
  simp [enable_what, Accelerometer]

theorem enable_what_M (cfg : Config) (hd : cfg.handlesDistinct) :
    enable_what cfg cfg.ID_M = 1 := by
  unfold Config.handlesDistinct at hd
  simp only [List.nodup_cons, List.mem_cons, List.mem_singleton, not_or, List.not_mem_nil,
    not_false_eq_true, List.nodup_nil, and_true] at hd
  obtain ⟨⟨h1, h2, h3⟩, ⟨h4, h5⟩, h6⟩ := hd
  simp [enable_what, MagneticField, Ne.symm h1]

theorem enable_what_O (cfg : Config) (hd : cfg.handlesDistinct) :
    enable_what cfg cfg.ID_O = 2 := by
  unfold Config.handlesDistinct at hd
  simp only [List.nodup_cons, List.mem_cons, List.mem_singleton, not_or, List.not_mem_nil,
    not_false_eq_true, List.nodup_nil, and_true] at hd
  obtain ⟨⟨h1, h2, h3⟩, ⟨h4, h5⟩, h6⟩ := hd
  simp [enable_what, Orientation, Ne.symm h2, Ne.symm h4]

theorem enable_what_SM (cfg : Config) (hd : cfg.handlesDistinct) :
    enable_what cfg cfg.ID_SM = 3 := by
  unfold Config.handlesDistinct at hd
  simp only [List.nodup_cons, List.mem_cons, List.mem_singleton, not_or, List.not_mem_nil,
    not_false_eq_true, List.nodup_nil, and_true] at hd
  obtain ⟨⟨h1, h2, h3⟩, ⟨h4, h5⟩, h6⟩ := hd
  simp [enable_what, SignificantMotion, Ne.symm h3, Ne.symm h5, Ne.symm h6]

/-- The value of `enable` for a handle of logical sensor `w`. -/
theorem enable_eq (cfg : Config) (env : Env) (s : AkmSensor) (handle en : Int) (w : Nat)
    (hw : enable_what cfg handle = (w : Int)) (hlt : w < 4) :
    enable cfg env s handle en =
      if ((en ≠ 0) ↔ bitSet s.mEnabled w) then (0, s)
      else if (enable_err env s en (enable_sensor_type w)).1 = 0 then
        (0, enable_commit s en w (enable_sensor_type w) (if en ≠ 0 then 1 else 0)
          (enable_err env s en (enable_sensor_type w)).2)
      else ((enable_err env s en (enable_sensor_type w)).1,
        { s with calls := (enable_err env s en (enable_sensor_type w)).2 }) := by
  have hu : ¬ (uint32_t (w : Int) ≥ numSensors) := by
    unfold uint32_t numSensors
    have : ((w : Int) % 4294967296).toNat = w := by omega
    rw [this]; omega
  unfold enable
  simp only [hw, hu, if_false, Int.toNat_ofNat, enable_cond_iff]
  by_cases hc : ((en ≠ 0) ↔ bitSet s.mEnabled w)
  · simp only [hc, not_true_eq_false, if_false, if_true]
  · simp only [hc, not_false_eq_true, if_true, if_false]
    split
    · rename_i h0; rw [h0]
    · rfl

theorem enable_what_cases (cfg : Config) (handle : Int) :
    enable_what cfg handle = -1 ∨ ∃ w : Nat, w < 4 ∧ enable_what cfg handle = (w : Int) := by
  unfold enable_what
  split
  · exact Or.inr ⟨0, by decide, rfl⟩
  · split
    · exact Or.inr ⟨1, by decide, rfl⟩
    · split
      · exact Or.inr ⟨2, by decide, rfl⟩
      · split
        · exact Or.inr ⟨3, by decide, rfl⟩
        · exact Or.inl rfl

theorem enable_invalid (cfg : Config) (env : Env) (s : AkmSensor) (handle en : Int)
    (hw : enable_what cfg handle = -1) : enable cfg env s handle en = (-EINVAL, s) := by
  unfold enable
  simp only [hw]
  have : uint32_t (-1) ≥ numSensors := by decide
  simp only [this, if_true]

theorem enable_what_other (cfg : Config) (handle : Int) (hA : handle ≠ cfg.ID_A)
    (hM : handle ≠ cfg.ID_M) (hO : handle ≠ cfg.ID_O) (hSM : handle ≠ cfg.ID_SM) :
    enable_what cfg handle = -1 := by
  simp [enable_what, hA, hM, hO, hSM]

/-! ## Claims C1, C2, C5, C6, C7: enable -/

/-- Claim C1: from a state with no sensor enabled and reference count 0, with a backend
whose calls succeed, enabling Accelerometer and then SignificantMotion makes exactly one
backend enable call; from there, disabling either of the two makes no backend call and
leaves the bit of the other one set, and disabling the other one afterwards makes exactly
one backend disable call. -/
theorem enable_accel_refcount_calls (cfg : Config) (env : Env) (s : AkmSensor)
    (hd : cfg.handlesDistinct) (h0 : s.mEnabled = 0) (hr : s.mAccRefCount = 0)
    (hen : ∀ c t, env.akm_enable_sensor c t = 0)
    (hdis : ∀ c t, env.akm_disable_sensor c t = 0) :
    let s2 := (enable cfg env (enable cfg env s cfg.ID_A 1).2 cfg.ID_SM 1).2
    s2.calls = s.calls ++ [Call.akm_enable_sensor SENSOR_TYPE_ACCELEROMETER] ∧
    ((enable cfg env s2 cfg.ID_A 0).2.calls = s2.calls ∧
      bitSet (enable cfg env s2 cfg.ID_A 0).2.mEnabled SignificantMotion ∧
      (enable cfg env (enable cfg env s2 cfg.ID_A 0).2 cfg.ID_SM 0).2.calls =
        s2.calls ++ [Call.akm_disable_sensor SENSOR_TYPE_ACCELEROMETER]) ∧
    ((enable cfg env s2 cfg.ID_SM 0).2.calls = s2.calls ∧
      bitSet (enable cfg env s2 cfg.ID_SM 0).2.mEnabled Accelerometer ∧
      (enable cfg env (enable cfg env s2 cfg.ID_SM 0).2 cfg.ID_A 0).2.calls =
        s2.calls ++ [Call.akm_disable_sensor SENSOR_TYPE_ACCELEROMETER]) := by
  have hA := enable_what_A cfg
  have hSM := enable_what_SM cfg hd
  have e1 : enable cfg env s cfg.ID_A 1 =
      (0, { s with calls := s.calls ++ [Call.akm_enable_sensor SENSOR_TYPE_ACCELEROMETER],
                   mAccRefCount := 1, mEnabled := 1 }) := by
    rw [enable_eq cfg env s cfg.ID_A 1 0 hA (by decide)]
    simp [h0, hr, hen, bitSet, enable_sensor_type, SignificantMotion, Accelerometer,
      SENSOR_TYPE_ACCELEROMETER, not32, enable_err, enable_commit]
  have e2 : enable cfg env
      { s with calls := s.calls ++ [Call.akm_enable_sensor SENSOR_TYPE_ACCELEROMETER],
               mAccRefCount := 1, mEnabled := 1 } cfg.ID_SM 1 =
      (0, { s with calls := s.calls ++ [Call.akm_enable_sensor SENSOR_TYPE_ACCELEROMETER],
                   mAccRefCount := 2, mEnabled := 9 }) := by
    rw [enable_eq cfg env _ cfg.ID_SM 1 3 hSM (by decide)]
    simp [bitSet, enable_sensor_type, SignificantMotion, Accelerometer,
      SENSOR_TYPE_ACCELEROMETER, not32, enable_err, enable_commit]
  have e3a : enable cfg env
      { s with calls := s.calls ++ [Call.akm_enable_sensor SENSOR_TYPE_ACCELEROMETER],
               mAccRefCount := 2, mEnabled := 9 } cfg.ID_A 0 =
      (0, { s with calls := s.calls ++ [Call.akm_enable_sensor SENSOR_TYPE_ACCELEROMETER],
                   mAccRefCount := 1, mEnabled := 8 }) := by
    rw [enable_eq cfg env _ cfg.ID_A 0 0 hA (by decide)]
    simp [bitSet, enable_sensor_type, SignificantMotion, Accelerometer,
      SENSOR_TYPE_ACCELEROMETER, not32, enable_err, enable_commit]
    decide
  have e3b : enable cfg env
      { s with calls := s.calls ++ [Call.akm_enable_sensor SENSOR_TYPE_ACCELEROMETER],
               mAccRefCount := 2, mEnabled := 9 } cfg.ID_SM 0 =
      (0, { s with calls := s.calls ++ [Call.akm_enable_sensor SENSOR_TYPE_ACCELEROMETER],
                   mAccRefCount := 1, mEnabled := 1 }) := by
    rw [enable_eq cfg env _ cfg.ID_SM 0 3 hSM (by decide)]
    simp [bitSet, enable_sensor_type, SignificantMotion, Accelerometer,
      SENSOR_TYPE_ACCELEROMETER, not32, enable_err, enable_commit]
    decide
  have e4a : (enable cfg env
      { s with calls := s.calls ++ [Call.akm_enable_sensor SENSOR_TYPE_ACCELEROMETER],
               mAccRefCount := 1, mEnabled := 8 } cfg.ID_SM 0).2.calls =
      (s.calls ++ [Call.akm_enable_sensor SENSOR_TYPE_ACCELEROMETER]) ++
        [Call.akm_disable_sensor SENSOR_TYPE_ACCELEROMETER] := by
    rw [enable_eq cfg env _ cfg.ID_SM 0 3 hSM (by decide)]
    simp [bitSet, enable_sensor_type, SignificantMotion, Accelerometer,
      SENSOR_TYPE_ACCELEROMETER, not32, hdis, enable_err, enable_commit]
  have e4b : (enable cfg env
      { s with calls := s.calls ++ [Call.akm_enable_sensor SENSOR_TYPE_ACCELEROMETER],
               mAccRefCount := 1, mEnabled := 1 } cfg.ID_A 0).2.calls =
      (s.calls ++ [Call.akm_enable_sensor SENSOR_TYPE_ACCELEROMETER]) ++
        [Call.akm_disable_sensor SENSOR_TYPE_ACCELEROMETER] := by
    rw [enable_eq cfg env _ cfg.ID_A 0 0 hA (by decide)]
    simp [bitSet, enable_sensor_type, SignificantMotion, Accelerometer,
      SENSOR_TYPE_ACCELEROMETER, not32, hdis, enable_err, enable_commit]
  simp only [e1, e2, e3a, e3b, e4a, e4b, true_and, and_true]
  exact ⟨by decide, by decide⟩

/-- Witness of claim C1 in the world `okEnv`, from the freshly constructed object. -/
theorem enable_accel_refcount_calls_witness :
    exampleConfig.handlesDistinct ∧ exampleState.mEnabled = 0 ∧
    exampleState.mAccRefCount = 0 ∧
    (∀ c t, okEnv.akm_enable_sensor c t = 0) ∧ (∀ c t, okEnv.akm_disable_sensor c t = 0) ∧
    (let s2 := (enable exampleConfig okEnv
        (enable exampleConfig okEnv exampleState exampleConfig.ID_A 1).2
        exampleConfig.ID_SM 1).2
    s2.calls = exampleState.calls ++ [Call.akm_enable_sensor SENSOR_TYPE_ACCELEROMETER] ∧
    ((enable exampleConfig okEnv s2 exampleConfig.ID_A 0).2.calls = s2.calls ∧
      bitSet (enable exampleConfig okEnv s2 exampleConfig.ID_A 0).2.mEnabled
        SignificantMotion ∧
      (enable exampleConfig okEnv (enable exampleConfig okEnv s2 exampleConfig.ID_A 0).2
          exampleConfig.ID_SM 0).2.calls =
        s2.calls ++ [Call.akm_disable_sensor SENSOR_TYPE_ACCELEROMETER]) ∧
    ((enable exampleConfig okEnv s2 exampleConfig.ID_SM 0).2.calls = s2.calls ∧
      bitSet (enable exampleConfig okEnv s2 exampleConfig.ID_SM 0).2.mEnabled
        Accelerometer ∧
      (enable exampleConfig okEnv (enable exampleConfig okEnv s2 exampleConfig.ID_SM 0).2
          exampleConfig.ID_A 0).2.calls =
        s2.calls ++ [Call.akm_disable_sensor SENSOR_TYPE_ACCELEROMETER])) :=
  ⟨by decide, rfl, rfl, fun _ _ => rfl, fun _ _ => rfl,
    enable_accel_refcount_calls exampleConfig okEnv exampleState (by decide) rfl rfl
      (fun _ _ => rfl) (fun _ _ => rfl)⟩

/-- Claim C2, evaluated on the code: when the hardware reports the accelerometer as
enabled, the constructed object has the Accelerometer bit set and the reference count 0,
which is not the number of enabled sensors among Accelerometer and SignificantMotion;
disabling the accelerometer then succeeds and leaves the reference count at -1. -/
theorem construct_accel_reported_refcount :
    bitSet (construct exampleConfig accelOnEnv (fun _ => 0)).mEnabled Accelerometer ∧
    (construct exampleConfig accelOnEnv (fun _ => 0)).mAccRefCount = 0 ∧
    accelUsers (construct exampleConfig accelOnEnv (fun _ => 0)).mEnabled = 1 ∧
    (enable exampleConfig accelOnEnv (construct exampleConfig accelOnEnv (fun _ => 0))
      exampleConfig.ID_A 0).1 = 0 ∧
    (enable exampleConfig accelOnEnv (construct exampleConfig accelOnEnv (fun _ => 0))
      exampleConfig.ID_A 0).2.mAccRefCount = -1 := by
  refine ⟨by decide, rfl, by decide, by decide, by decide⟩

/-- Claim C5: when the backend call that `enable(handle, en)` makes fails with the error
`e`, `enable` returns `e` and leaves the enabled mask and the reference count as they
were. -/
theorem enable_backend_failure (cfg : Config) (env : Env) (s : AkmSensor) (handle en : Int)
    (c : Call) (e : Int) (hcall : (enable cfg env s handle en).2.calls = s.calls ++ [c])
    (hans : env.answer s.calls c = e) (he : e ≠ 0) :
    (enable cfg env s handle en).1 = e ∧
      (enable cfg env s handle en).2.mEnabled = s.mEnabled ∧
      (enable cfg env s handle en).2.mAccRefCount = s.mAccRefCount := by
  rcases enable_what_cases cfg handle with hw | ⟨w, hlt, hw⟩
  · rw [enable_invalid cfg env s handle en hw] at hcall
    simp at hcall
  · rw [enable_eq cfg env s handle en w hw hlt] at hcall ⊢
    by_cases hc : ((en ≠ 0) ↔ bitSet s.mEnabled w)
    · simp [hc] at hcall
    · simp only [hc, if_false] at hcall ⊢
      have hr : (enable_err env s en (enable_sensor_type w)).2 = s.calls ++ [c] := by
        split at hcall
        · exact hcall
        · exact hcall
      have herr : (enable_err env s en (enable_sensor_type w)).1 = e := by
        unfold enable_err at hr ⊢
        by_cases hen : en ≠ 0
        · simp only [if_pos hen] at hr ⊢
          split at hr
          · simp at hr
          · rename_i hk
            simp only [if_neg hk]
            have hc2 : c = Call.akm_enable_sensor (enable_sensor_type w) := by
              simpa using hr.symm
            subst hc2
            exact hans
        · simp only [if_neg hen] at hr ⊢
          split at hr
          · simp at hr
          · rename_i hk
            simp only [if_neg hk]
            have hc2 : c = Call.akm_disable_sensor (enable_sensor_type w) := by
              simpa using hr.symm
            subst hc2
            exact hans
      rw [herr]
      simp only [if_neg he, and_self]

/-- Witness of claim C5: with the stub backend, enabling the magnetic field sensor makes
one backend call, which fails with `-ENODEV`. -/
theorem enable_backend_failure_witness :
    (enable exampleConfig stubOkEnv exampleState exampleConfig.ID_M 1).2.calls =
      exampleState.calls ++ [Call.akm_enable_sensor SENSOR_TYPE_MAGNETIC_FIELD] ∧
    stubOkEnv.answer exampleState.calls (Call.akm_enable_sensor SENSOR_TYPE_MAGNETIC_FIELD)
      = -ENODEV ∧
    -ENODEV ≠ 0 ∧
    ((enable exampleConfig stubOkEnv exampleState exampleConfig.ID_M 1).1 = -ENODEV ∧
      (enable exampleConfig stubOkEnv exampleState exampleConfig.ID_M 1).2.mEnabled =
        exampleState.mEnabled ∧
      (enable exampleConfig stubOkEnv exampleState exampleConfig.ID_M 1).2.mAccRefCount =
        exampleState.mAccRefCount) :=
  ⟨by decide, rfl, by decide,
    enable_backend_failure exampleConfig stubOkEnv exampleState exampleConfig.ID_M 1
      (Call.akm_enable_sensor SENSOR_TYPE_MAGNETIC_FIELD) (-ENODEV) (by decide) rfl
      (by decide)⟩

/-- Claim C6: for a recognized handle, `enable` with a requested state equal to the
current bit of the sensor returns 0 and leaves the whole object, the list of calls
included, as it was. -/
theorem enable_same_state (cfg : Config) (env : Env) (s : AkmSensor) (handle en : Int)
    (w : Nat) (hlt : w < numSensors) (hw : enable_what cfg handle = (w : Int))
    (hsame : (en ≠ 0) ↔ bitSet s.mEnabled w) :
    enable cfg env s handle en = (0, s) := by
  rw [enable_eq cfg env s handle en w hw hlt]
  simp only [hsame, if_true]

/-- Witness of claim C6: disabling the accelerometer of the freshly constructed object,
which is not enabled. -/
theorem enable_same_state_witness :
    Accelerometer < numSensors ∧
    enable_what exampleConfig exampleConfig.ID_A = (Accelerometer : Int) ∧
    (((0 : Int) ≠ 0) ↔ bitSet exampleState.mEnabled Accelerometer) ∧
    enable exampleConfig stubOkEnv exampleState exampleConfig.ID_A 0 = (0, exampleState) :=
  ⟨by decide, by decide, by decide,
    enable_same_state exampleConfig stubOkEnv exampleState exampleConfig.ID_A 0
      Accelerometer (by decide) (by decide) (by decide)⟩

/-- Claim C7: for a handle that is none of ID_A, ID_M, ID_O, ID_SM, both `enable` and
`setDelay` return `-EINVAL` and leave the whole object, the list of calls included, as it
was. -/
theorem unknown_handle_invalid (cfg : Config) (env : Env) (s : AkmSensor)
    (handle en ns : Int) (hA : handle ≠ cfg.ID_A) (hM : handle ≠ cfg.ID_M)
    (hO : handle ≠ cfg.ID_O) (hSM : handle ≠ cfg.ID_SM) :
    enable cfg env s handle en = (-EINVAL, s) ∧
      setDelay cfg env s handle ns = (-EINVAL, s) := by
  refine ⟨enable_invalid cfg env s handle en (enable_what_other cfg handle hA hM hO hSM), ?_⟩
  unfold setDelay
  by_cases hns : ns < 0
  · simp only [hns, if_true]
  · simp only [hns, if_false, hA, hM, hO, hSM, setDelay_sensor_type, if_true]

/-- Witness of claim C7: the handle 17 in the example configuration. -/
theorem unknown_handle_invalid_witness :
    (17 : Int) ≠ exampleConfig.ID_A ∧ (17 : Int) ≠ exampleConfig.ID_M ∧
    (17 : Int) ≠ exampleConfig.ID_O ∧ (17 : Int) ≠ exampleConfig.ID_SM ∧
    (enable exampleConfig okEnv exampleState 17 1 = (-EINVAL, exampleState) ∧
      setDelay exampleConfig okEnv exampleState 17 20000000 = (-EINVAL, exampleState)) :=
  ⟨by decide, by decide, by decide, by decide,
    unknown_handle_invalid exampleConfig okEnv exampleState 17 1 20000000
      (by decide) (by decide) (by decide) (by decide)⟩

/-! ## update_delay -/

theorem update_delay_loop_spec (s : AkmSensor) (n : Nat) :
    ∀ (j wanted : Nat),
      update_delay_loop s n j wanted ≤ wanted ∧
      (∀ i, j ≤ i → i < j + n → bitSet s.mEnabled i →
        update_delay_loop s n j wanted ≤ s.mDelays (i : Int)) ∧
      (update_delay_loop s n j wanted = wanted ∨
        ∃ i, j ≤ i ∧ i < j + n ∧ bitSet s.mEnabled i ∧
          update_delay_loop s n j wanted = s.mDelays (i : Int)) := by
  induction n with
  | zero =>
    intro j wanted
    refine ⟨Nat.le_refl _, ?_, Or.inl rfl⟩
    intro i h1 h2; omega
  | succ n ih =>
    intro j wanted
    unfold update_delay_loop
    by_cases hb : s.mEnabled &&& (1 <<< j) ≠ 0
    · simp only [if_pos hb]
      obtain ⟨h1, h2, h3⟩ :=
        ih (j + 1) (if wanted < s.mDelays (j : Int) then wanted else s.mDelays (j : Int))
      have hmin1 : (if wanted < s.mDelays (j : Int) then wanted else s.mDelays (j : Int))
          ≤ wanted := by split <;> omega
      have hmin2 : (if wanted < s.mDelays (j : Int) then wanted else s.mDelays (j : Int))
          ≤ s.mDelays (j : Int) := by split <;> omega
      refine ⟨Nat.le_trans h1 hmin1, ?_, ?_⟩
      · intro i hi1 hi2 hbi
        by_cases hij : i = j
        · subst hij; exact Nat.le_trans h1 hmin2
        · exact h2 i (by omega) (by omega) hbi
      · rcases h3 with h3 | ⟨i, hi1, hi2, hbi, hi3⟩
        · by_cases hlt : wanted < s.mDelays (j : Int)
          · left; rw [h3]; simp only [hlt, if_true]
          · right
            refine ⟨j, Nat.le_refl _, by omega, hb, ?_⟩
            rw [h3]; simp only [hlt, if_false]
        · right; exact ⟨i, by omega, by omega, hbi, hi3⟩
    · simp only [if_neg hb]
      obtain ⟨h1, h2, h3⟩ := ih (j + 1) wanted
      refine ⟨h1, ?_, ?_⟩
      · intro i hi1 hi2 hbi
        by_cases hij : i = j
        · subst hij; exact absurd hbi hb
        · exact h2 i (by omega) (by omega) hbi
      · rcases h3 with h3 | ⟨i, hi1, hi2, hbi, hi3⟩
        · left; exact h3
        · right; exact ⟨i, by omega, by omega, hbi, hi3⟩

theorem toShort_small (x : Int) (h0 : 0 ≤ x) (h1 : x ≤ 32767) : toShort x = x := by
  unfold toShort; omega

theorem int64_t_small (x : Nat) (h : x < 9223372036854775808) : int64_t x = (x : Int) := by
  unfold int64_t
  have h1 : x % 18446744073709551616 = x := Nat.mod_eq_of_lt (by omega)
  rw [h1]; simp only [h, if_true]

/-- With a sensor enabled and the delays of the enabled sensors below 32768 ms, the value
handed to the ioctl is the least delay of an enabled sensor, in whole milliseconds. -/
theorem update_delay_value_min (s : AkmSensor)
    (hsome : ∃ i, i < numSensors ∧ bitSet s.mEnabled i)
    (hrange : ∀ i, i < numSensors → bitSet s.mEnabled i → s.mDelays (i : Int) < 32768000000) :
    ∃ i, i < numSensors ∧ bitSet s.mEnabled i ∧
      update_delay_value s = ((s.mDelays (i : Int) / 1000000 : Nat) : Int) ∧
      ∀ k, k < numSensors → bitSet s.mEnabled k → s.mDelays (i : Int) ≤ s.mDelays (k : Int) := by
  obtain ⟨h1, h2, h3⟩ := update_delay_loop_spec s numSensors 0 18446744073709551615
  obtain ⟨i0, hi0, hb0⟩ := hsome
  have hle := h2 i0 (Nat.zero_le _) (by omega) hb0
  have hr0 := hrange i0 hi0 hb0
  rcases h3 with h3 | ⟨i, _, hi2, hbi, hi3⟩
  · omega
  · refine ⟨i, by omega, hbi, ?_, ?_⟩
    · unfold update_delay_value
      rw [hi3]
      have hri := hrange i (by omega) hbi
      rw [int64_t_small _ (by omega)]
      have hd : Int.tdiv (s.mDelays (i : Int) : Int) 1000000
          = ((s.mDelays (i : Int) / 1000000 : Nat) : Int) := by
        rw [Int.tdiv_eq_ediv (by omega) (by omega)]
        norm_cast
      rw [hd]
      apply toShort_small
      · omega
      · have : s.mDelays (i : Int) / 1000000 ≤ 32767 := by omega
        omega
    · intro k hk hbk
      rw [← hi3]
      exact h2 k (Nat.zero_le _) (by omega) hbk

theorem update_delay_eq (env : Env) (s : AkmSensor) (h : s.mEnabled ≠ 0) :
    update_delay env s =
      ((if (env.ioctl_set_delay s.calls (update_delay_value s)).1 ≠ 0
          then -(env.ioctl_set_delay s.calls (update_delay_value s)).2 else 0),
        { s with calls := s.calls ++ [Call.ioctl_set_delay (update_delay_value s)] }) := by
  unfold update_delay
  simp only [h, ne_eq, not_false_eq_true, if_true]
  split <;> rfl

theorem mEnabled_ne_zero_of_bitSet (m i : Nat) (h : bitSet m i) : m ≠ 0 := by
  intro h0; rw [h0] at h; exact bitSet_zero i h

/-! ## What enable leaves alone -/

theorem enable_frame (cfg : Config) (env : Env) (s : AkmSensor) (handle en : Int) :
    (enable cfg env s handle en).2.mPendingMask = s.mPendingMask ∧
    (enable cfg env s handle en).2.mPendingEvents = s.mPendingEvents ∧
    (enable cfg env s handle en).2.mDelays = s.mDelays ∧
    (enable cfg env s handle en).2.mInputReader = s.mInputReader ∧
    (enable cfg env s handle en).2.mMotionValue = s.mMotionValue := by
  rcases enable_what_cases cfg handle with hw | ⟨w, hlt, hw⟩
  · rw [enable_invalid cfg env s handle en hw]; simp
  · rw [enable_eq cfg env s handle en w hw hlt]
    split
    · simp
    · split <;> simp [enable_commit]

theorem enable_err_calls (env : Env) (s : AkmSensor) (en : Int) (t : Nat) :
    ((enable_err env s en t).2 = s.calls ∧ (enable_err env s en t).1 = 0) ∨
    ((enable_err env s en t).2 = s.calls ++ [Call.akm_enable_sensor t] ∧ en ≠ 0 ∧
      (enable_err env s en t).1 = env.akm_enable_sensor s.calls t) ∨
    ((enable_err env s en t).2 = s.calls ++ [Call.akm_disable_sensor t] ∧ en = 0 ∧
      (enable_err env s en t).1 = env.akm_disable_sensor s.calls t) := by
  unfold enable_err
  by_cases hen : en ≠ 0
  · simp only [if_pos hen]
    split
    · left; exact ⟨rfl, rfl⟩
    · right; left; exact ⟨rfl, hen, rfl⟩
  · simp only [if_neg hen]
    split
    · left; exact ⟨rfl, rfl⟩
    · right; right; exact ⟨rfl, not_not.mp hen, rfl⟩

theorem enable_calls (cfg : Config) (env : Env) (s : AkmSensor) (handle en : Int) :
    (enable cfg env s handle en).2.calls = s.calls ∨
    (∃ t, (enable cfg env s handle en).2.calls = s.calls ++ [Call.akm_enable_sensor t]) ∨
    (∃ t, (enable cfg env s handle en).2.calls = s.calls ++ [Call.akm_disable_sensor t]) := by
  rcases enable_what_cases cfg handle with hw | ⟨w, hlt, hw⟩
  · rw [enable_invalid cfg env s handle en hw]; left; rfl
  · rw [enable_eq cfg env s handle en w hw hlt]
    by_cases hc : ((en ≠ 0) ↔ bitSet s.mEnabled w)
    · left; simp only [hc, if_true]
    · simp only [hc, if_false]
      have key : (if (enable_err env s en (enable_sensor_type w)).1 = 0 then
          ((0 : Int), enable_commit s en w (enable_sensor_type w) (if en ≠ 0 then 1 else 0)
            (enable_err env s en (enable_sensor_type w)).2)
          else ((enable_err env s en (enable_sensor_type w)).1,
            { s with calls := (enable_err env s en (enable_sensor_type w)).2 })).2.calls =
          (enable_err env s en (enable_sensor_type w)).2 := by
        split <;> simp [enable_commit]
      rw [key]
      rcases enable_err_calls env s en (enable_sensor_type w) with h | h | h
      · left; exact h.1
      · right; left; exact ⟨_, h.1⟩
      · right; right; exact ⟨_, h.1⟩

/-! ## Claims C8, C9, C10: setDelay and update_delay -/

/-- The store of `setDelay` goes to the cell `mDelays[-1]`: every cell of non-negative
index, in particular the table `mDelays[0..3]`, is as it was before the call. -/
theorem setDelay_table_unchanged (cfg : Config) (env : Env) (s : AkmSensor)
    (handle ns : Int) (i : Int) (hi : 0 ≤ i) :
    (setDelay cfg env s handle ns).2.mDelays i = s.mDelays i := by
  have hu : ∀ s1 : AkmSensor, (update_delay env s1).2.mDelays = s1.mDelays := by
    intro s1; unfold update_delay; split
    · simp only []; split <;> rfl
    · rfl
  unfold setDelay
  simp only []
  split
  · rfl
  · split
    · rfl
    · split
      · rfl
      · rw [hu]
        simp only []
        rw [Function.update_noteq]
        omega

/-- Claim C8, evaluated on the code: with the accelerometer entry at 20 ms,
`setDelay(ID_A, 30 ms)` returns 0, the accelerometer entry is still 20 ms, and the value
has gone to the cell `mDelays[-1]`; the same happens for ID_M and ID_O. -/
theorem setDelay_misses_table_entry :
    (setDelay exampleConfig okEnv (delayState 7 1) exampleConfig.ID_A 30000000).1 = 0 ∧
    (setDelay exampleConfig okEnv (delayState 7 1) exampleConfig.ID_A 30000000).2.mDelays
      (Accelerometer : Int) = 20000000 ∧
    (setDelay exampleConfig okEnv (delayState 7 1) exampleConfig.ID_A 30000000).2.mDelays
      (-1) = 30000000 ∧
    (setDelay exampleConfig okEnv (delayState 7 1) exampleConfig.ID_M 30000000).2.mDelays
      (MagneticField : Int) = 50000000 ∧
    (setDelay exampleConfig okEnv (delayState 7 1) exampleConfig.ID_O 30000000).2.mDelays
      (Orientation : Int) = 10000000 := by
  refine ⟨by decide, by decide, by decide, by decide, by decide⟩

/-- Claim C9, evaluated on the code: with Accelerometer (20 ms) and SignificantMotion
enabled and the SignificantMotion cell holding 5 ms, all entries being below 32768 ms,
`update_delay` hands 5 to the device, not the 20 ms of the only enabled sensor other
than SignificantMotion; with Accelerometer and MagneticField enabled (20 ms and 50 ms) it
hands over 20. -/
theorem update_delay_reads_significant_motion :
    bitSet (delayState 9 2).mEnabled Accelerometer ∧
    ¬ bitSet (delayState 9 2).mEnabled MagneticField ∧
    ¬ bitSet (delayState 9 2).mEnabled Orientation ∧
    bitSet (delayState 9 2).mEnabled SignificantMotion ∧
    (∀ i : Nat, i < numSensors → (delayState 9 2).mDelays (i : Int) < 32768000000) ∧
    (delayState 9 2).mDelays (Accelerometer : Int) = 20000000 ∧
    (update_delay okEnv (delayState 9 2)).2.calls =
      (delayState 9 2).calls ++ [Call.ioctl_set_delay 5] ∧
    (update_delay okEnv (delayState 3 1)).2.calls =
      (delayState 3 1).calls ++ [Call.ioctl_set_delay 20] := by
  refine ⟨by decide, by decide, by decide, by decide, ?_, by decide, by decide, by decide⟩
  intro i hi
  have : i = 0 ∨ i = 1 ∨ i = 2 ∨ i = 3 := by unfold numSensors at hi; omega
  rcases this with h | h | h | h <;> subst h <;> decide

/-- Counterexample to claim C10 as stated: with only Accelerometer enabled, enabling
Orientation succeeds and sets its bit, and the only call made is the backend enable
call; no delay ioctl is issued. -/
theorem enable_issues_no_delay_call :
    ¬ bitSet (delayState 1 1).mEnabled Orientation ∧
    (enable exampleConfig okEnv (delayState 1 1) exampleConfig.ID_O 1).1 = 0 ∧
    bitSet (enable exampleConfig okEnv (delayState 1 1) exampleConfig.ID_O 1).2.mEnabled
      Orientation ∧
    (enable exampleConfig okEnv (delayState 1 1) exampleConfig.ID_O 1).2.calls =
      (delayState 1 1).calls ++ [Call.akm_enable_sensor SENSOR_TYPE_ORIENTATION] ∧
    ¬ ∃ d, Call.ioctl_set_delay d ∈
      (enable exampleConfig okEnv (delayState 1 1) exampleConfig.ID_O 1).2.calls := by
  refine ⟨by decide, by decide, by decide, by decide, ?_⟩
  rintro ⟨d, hd⟩
  have hc : (enable exampleConfig okEnv (delayState 1 1) exampleConfig.ID_O 1).2.calls =
      [Call.akm_disable_sensor SENSOR_TYPE_TEMPERATURE,
        Call.akm_enable_sensor SENSOR_TYPE_ORIENTATION] := by decide
  rw [hc] at hd
  simp at hd

/-- Claim C10 as amended: no `enable` call issues a delay ioctl, whatever the object, the
handle, the requested state and the answers of the backend: the calls it adds to those
made before are at most one, a backend enable or disable call, and the delay table stays
as it is. -/
theorem enable_makes_no_delay_call (cfg : Config) (env : Env) (s : AkmSensor)
    (handle en : Int) :
    (∃ extra : List Call, (enable cfg env s handle en).2.calls = s.calls ++ extra ∧
      extra.length ≤ 1 ∧ ∀ c ∈ extra, ∀ d, c ≠ Call.ioctl_set_delay d) ∧
    (enable cfg env s handle en).2.mDelays = s.mDelays := by
  refine ⟨?_, (enable_frame cfg env s handle en).2.2.1⟩
  rcases enable_calls cfg env s handle en with h | ⟨t, h⟩ | ⟨t, h⟩
  · exact ⟨[], by rw [h, List.append_nil], by simp, by simp⟩
  · refine ⟨[Call.akm_enable_sensor t], h, by simp, ?_⟩
    intro c hc d
    rw [List.mem_singleton] at hc
    rw [hc]
    exact fun hh => Call.noConfusion hh
  · refine ⟨[Call.akm_disable_sensor t], h, by simp, ?_⟩
    intro c hc d
    rw [List.mem_singleton] at hc
    rw [hc]
    exact fun hh => Call.noConfusion hh

/-- Witness of claim C10 as amended: Accelerometer at 20 ms and Orientation at 10 ms are
enabled; disabling Orientation succeeds, leaves Accelerometer enabled, and the only call
made is the backend disable call. -/
theorem enable_makes_no_delay_call_witness :
    ((∃ extra : List Call,
        (enable exampleConfig okEnv (delayState 5 1) exampleConfig.ID_O 0).2.calls =
          (delayState 5 1).calls ++ extra ∧
        extra.length ≤ 1 ∧ ∀ c ∈ extra, ∀ d, c ≠ Call.ioctl_set_delay d) ∧
      (enable exampleConfig okEnv (delayState 5 1) exampleConfig.ID_O 0).2.mDelays =
        (delayState 5 1).mDelays) ∧
    bitSet (delayState 5 1).mEnabled Orientation ∧
    (enable exampleConfig okEnv (delayState 5 1) exampleConfig.ID_O 0).1 = 0 ∧
    ¬ bitSet (enable exampleConfig okEnv (delayState 5 1) exampleConfig.ID_O 0).2.mEnabled
      Orientation ∧
    bitSet (enable exampleConfig okEnv (delayState 5 1) exampleConfig.ID_O 0).2.mEnabled
      Accelerometer ∧
    (enable exampleConfig okEnv (delayState 5 1) exampleConfig.ID_O 0).2.calls =
      (delayState 5 1).calls ++ [Call.akm_disable_sensor SENSOR_TYPE_ORIENTATION] :=
  ⟨enable_makes_no_delay_call exampleConfig okEnv (delayState 5 1) exampleConfig.ID_O 0,
    by decide, by decide, by decide, by decide, by decide⟩

/-! ## One round of the flush -/

theorem stampPending_frame (s : AkmSensor) (time : Int) (j : Nat) :
    (stampPending s time j).mEnabled = s.mEnabled ∧
    (stampPending s time j).calls = s.calls ∧
    (stampPending s time j).mAccRefCount = s.mAccRefCount ∧
    (stampPending s time j).mDelays = s.mDelays ∧
    (stampPending s time j).mMotionValue = s.mMotionValue ∧
    (stampPending s time j).mInputReader = s.mInputReader :=
  ⟨rfl, rfl, rfl, rfl, rfl, rfl⟩

theorem stampPending_event (s : AkmSensor) (time : Int) (j i : Nat) :
    (stampPending s time j).mPendingEvents i =
      if i = j then stamped s time j else s.mPendingEvents i := by
  unfold stampPending setEvent stamped
  by_cases h : i = j
  · subst h; simp
  · simp [h, Function.update_noteq]

theorem stampPending_sensor (s : AkmSensor) (time : Int) (j i : Nat) :
    ((stampPending s time j).mPendingEvents i).sensor = (s.mPendingEvents i).sensor := by
  rw [stampPending_event]
  by_cases h : i = j
  · subst h; simp [stamped]
  · simp [h]

theorem stampPending_mask (s : AkmSensor) (time : Int) (j i : Nat) (hj : j < 32) :
    bitSet (stampPending s time j).mPendingMask i ↔
      bitSet s.mPendingMask i ∧ i < 32 ∧ i ≠ j := by
  unfold stampPending setEvent
  exact bitSet_clear s.mPendingMask j i hj

/-- What one round of the flush does, for a sensor index below 32. -/
theorem flushRound_spec (cfg : Config) (env : Env) (time : Int) (j : Nat) (r : ReadState)
    (hj : j < 32) :
    (flushRound cfg env time j r).data = r.data ++
      (if bitSet r.obj.mPendingMask j ∧ bitSet r.obj.mEnabled j
        then [stamped r.obj time j] else []) ∧
    (flushRound cfg env time j r).count = r.count -
      (if bitSet r.obj.mPendingMask j ∧ bitSet r.obj.mEnabled j then 1 else 0) ∧
    (flushRound cfg env time j r).numEventReceived = r.numEventReceived +
      (if bitSet r.obj.mPendingMask j ∧ bitSet r.obj.mEnabled j then 1 else 0) ∧
    (∀ i, bitSet (flushRound cfg env time j r).obj.mPendingMask i →
      bitSet r.obj.mPendingMask i ∧ i ≠ j) ∧
    (∀ i, i < 32 → i ≠ j → bitSet r.obj.mPendingMask i →
      bitSet (flushRound cfg env time j r).obj.mPendingMask i) ∧
    (∀ i, i ≠ j → (flushRound cfg env time j r).obj.mPendingEvents i =
      r.obj.mPendingEvents i) ∧
    (∀ i, ((flushRound cfg env time j r).obj.mPendingEvents i).sensor =
      (r.obj.mPendingEvents i).sensor) ∧
    (flushRound cfg env time j r).obj.mDelays = r.obj.mDelays ∧
    (flushRound cfg env time j r).obj.mMotionValue = r.obj.mMotionValue ∧
    (flushRound cfg env time j r).obj.mInputReader = r.obj.mInputReader := by
  by_cases hp : bitSet r.obj.mPendingMask j
  · by_cases he : bitSet r.obj.mEnabled j
    · have heq : flushRound cfg env time j r =
          { obj := if j = SignificantMotion
              then (enable cfg env (stampPending r.obj time j) cfg.ID_SM 0).2
              else stampPending r.obj time j
            count := r.count - 1
            numEventReceived := r.numEventReceived + 1
            data := r.data ++ [(stampPending r.obj time j).mPendingEvents j] } := by
        have hp1 : r.obj.mPendingMask &&& (1 <<< j) ≠ 0 := hp
        have he1 : (stampPending r.obj time j).mEnabled &&& (1 <<< j) ≠ 0 := he
        unfold flushRound
        simp only [if_pos hp1, if_pos he1]
      have hfr := enable_frame cfg env (stampPending r.obj time j) cfg.ID_SM 0
      have hobj : ∀ (x : AkmSensor),
          (x = (enable cfg env (stampPending r.obj time j) cfg.ID_SM 0).2 ∨
            x = stampPending r.obj time j) →
          x.mPendingMask = (stampPending r.obj time j).mPendingMask ∧
          x.mPendingEvents = (stampPending r.obj time j).mPendingEvents ∧
          x.mDelays = r.obj.mDelays ∧ x.mMotionValue = r.obj.mMotionValue ∧
          x.mInputReader = r.obj.mInputReader := by
        intro x hx
        rcases hx with hx | hx
        · subst hx; exact ⟨hfr.1, hfr.2.1, hfr.2.2.1, hfr.2.2.2.2, hfr.2.2.2.1⟩
        · subst hx; exact ⟨rfl, rfl, rfl, rfl, rfl⟩
      have hx := hobj (if j = SignificantMotion
          then (enable cfg env (stampPending r.obj time j) cfg.ID_SM 0).2
          else stampPending r.obj time j) (by split; exact Or.inl rfl; exact Or.inr rfl)
      obtain ⟨hx1, hx2, hx3, hx4, hx5⟩ := hx
      have hpe : bitSet r.obj.mPendingMask j ∧ bitSet r.obj.mEnabled j := ⟨hp, he⟩
      rw [heq, if_pos hpe, if_pos hpe]
      refine ⟨?_, rfl, rfl, ?_, ?_, ?_, ?_, hx3, hx4, hx5⟩
      · show r.data ++ [(stampPending r.obj time j).mPendingEvents j] = _
        rw [stampPending_event, if_pos rfl]
      · intro i hi
        have hi2 : bitSet (stampPending r.obj time j).mPendingMask i := by
          rw [← hx1]; exact hi
        rw [stampPending_mask _ _ _ _ hj] at hi2
        exact ⟨hi2.1, hi2.2.2⟩
      · intro i hi hij hb
        show bitSet (if j = SignificantMotion
          then (enable cfg env (stampPending r.obj time j) cfg.ID_SM 0).2
          else stampPending r.obj time j).mPendingMask i
        rw [hx1, stampPending_mask _ _ _ _ hj]
        exact ⟨hb, hi, hij⟩
      · intro i hij
        show (if j = SignificantMotion
          then (enable cfg env (stampPending r.obj time j) cfg.ID_SM 0).2
          else stampPending r.obj time j).mPendingEvents i = _
        rw [hx2, stampPending_event, if_neg hij]
      · intro i
        show ((if j = SignificantMotion
          then (enable cfg env (stampPending r.obj time j) cfg.ID_SM 0).2
          else stampPending r.obj time j).mPendingEvents i).sensor = _
        rw [hx2, stampPending_sensor]
    · have heq : flushRound cfg env time j r = { r with obj := stampPending r.obj time j } := by
        have hp1 : r.obj.mPendingMask &&& (1 <<< j) ≠ 0 := hp
        have he1 : ¬ ((stampPending r.obj time j).mEnabled &&& (1 <<< j) ≠ 0) := he
        unfold flushRound
        simp only [if_pos hp1, if_neg he1]
      have hpe : ¬ (bitSet r.obj.mPendingMask j ∧ bitSet r.obj.mEnabled j) := fun h => he h.2
      rw [heq, if_neg hpe, if_neg hpe]
      refine ⟨(List.append_nil _).symm, (sub_zero _).symm, (add_zero _).symm,
        ?_, ?_, ?_, ?_, rfl, rfl, rfl⟩
      · intro i hi
        have hi2 : bitSet (stampPending r.obj time j).mPendingMask i := hi
        rw [stampPending_mask _ _ _ _ hj] at hi2
        exact ⟨hi2.1, hi2.2.2⟩
      · intro i hi hij hb
        show bitSet (stampPending r.obj time j).mPendingMask i
        rw [stampPending_mask _ _ _ _ hj]
        exact ⟨hb, hi, hij⟩
      · intro i hij
        show (stampPending r.obj time j).mPendingEvents i = _
        rw [stampPending_event, if_neg hij]
      · intro i
        show ((stampPending r.obj time j).mPendingEvents i).sensor = _
        rw [stampPending_sensor]
  · have heq : flushRound cfg env time j r = r := by
      have hp1 : ¬ (r.obj.mPendingMask &&& (1 <<< j) ≠ 0) := hp
      unfold flushRound
      simp only [if_neg hp1]
    have hpe : ¬ (bitSet r.obj.mPendingMask j ∧ bitSet r.obj.mEnabled j) := fun h => hp h.1
    rw [heq, if_neg hpe, if_neg hpe]
    refine ⟨(List.append_nil _).symm, (sub_zero _).symm, (add_zero _).symm,
      ?_, ?_, ?_, ?_, rfl, rfl, rfl⟩
    · intro i hi
      refine ⟨hi, ?_⟩
      intro hij; subst hij; exact hp hi
    · intro i _ _ hb; exact hb
    · intro i _; rfl
    · intro i; rfl

/-- A round for a sensor other than SignificantMotion makes no call and leaves the
enabled mask and the reference count alone. -/
theorem flushRound_other (cfg : Config) (env : Env) (time : Int) (j : Nat) (r : ReadState)
    (hj : j ≠ SignificantMotion) :
    (flushRound cfg env time j r).obj.mEnabled = r.obj.mEnabled ∧
    (flushRound cfg env time j r).obj.calls = r.obj.calls ∧
    (flushRound cfg env time j r).obj.mAccRefCount = r.obj.mAccRefCount := by
  unfold flushRound
  split
  · simp only [if_neg hj]
    split
    · exact ⟨rfl, rfl, rfl⟩
    · exact ⟨rfl, rfl, rfl⟩
  · exact ⟨rfl, rfl, rfl⟩

/-! ## The inner loop of readEvents -/

theorem flushLoop_succ (cfg : Config) (env : Env) (time : Int) (n j : Nat) (r : ReadState) :
    flushLoop cfg env time (n + 1) j r =
      if r.count ≠ 0 ∧ r.obj.mPendingMask ≠ 0 then
        flushLoop cfg env time n (j + 1) (flushRound cfg env time j r)
      else r := rfl

theorem mem_pendingEnabled (s : AkmSensor) (j n i : Nat) :
    i ∈ pendingEnabled s j n ↔
      j ≤ i ∧ i < j + n ∧ bitSet s.mPendingMask i ∧ bitSet s.mEnabled i := by
  unfold pendingEnabled
  simp only [List.mem_filter, List.mem_range'_1, decide_eq_true_eq]
  tauto

theorem pendingEnabled_succ (s : AkmSensor) (j n : Nat) :
    pendingEnabled s j (n + 1) =
      (if bitSet s.mPendingMask j ∧ bitSet s.mEnabled j then [j] else []) ++
        pendingEnabled s (j + 1) n := by
  unfold pendingEnabled
  rw [List.range'_succ, List.filter_cons]
  by_cases h : bitSet s.mPendingMask j ∧ bitSet s.mEnabled j
  · simp [h]
  · simp [h]

theorem pendingEnabled_congr (s1 s2 : AkmSensor) (j n : Nat)
    (h : ∀ i, j ≤ i → i < j + n →
      ((bitSet s1.mPendingMask i ↔ bitSet s2.mPendingMask i) ∧
        (bitSet s1.mEnabled i ↔ bitSet s2.mEnabled i))) :
    pendingEnabled s1 j n = pendingEnabled s2 j n := by
  unfold pendingEnabled
  apply List.filter_congr
  intro i hi
  rw [List.mem_range'_1] at hi
  obtain ⟨h1, h2⟩ := h i hi.1 hi.2
  simp only [h1, h2]

theorem pendingEnabled_of_mask_zero (s : AkmSensor) (j n : Nat) (h : s.mPendingMask = 0) :
    pendingEnabled s j n = [] := by
  unfold pendingEnabled
  rw [List.filter_eq_nil_iff]
  intro i _
  simp only [decide_eq_true_eq, not_and]
  intro hb
  rw [h] at hb
  exact absurd hb (bitSet_zero i)

/-- The records the inner loop writes: those of the first `count` sensors that are both
pending and enabled, in increasing order of the sensor index, each with the time stamp;
`count` and `numEventReceived` move by their number. -/
theorem flushLoop_out (cfg : Config) (env : Env) (time : Int) (n : Nat) :
    ∀ (j : Nat) (r : ReadState), j + n = numSensors → 0 ≤ r.count →
      (flushLoop cfg env time n j r).data = r.data ++
        ((pendingEnabled r.obj j n).take r.count.toNat).map (stamped r.obj time) ∧
      (flushLoop cfg env time n j r).count =
        r.count - (((pendingEnabled r.obj j n).take r.count.toNat).length : Nat) ∧
      (flushLoop cfg env time n j r).numEventReceived =
        r.numEventReceived + (((pendingEnabled r.obj j n).take r.count.toNat).length : Nat) := by
  induction n with
  | zero =>
    intro j r _ _
    simp [flushLoop, pendingEnabled]
  | succ n ih =>
    intro j r hj hc
    unfold numSensors at hj
    rw [flushLoop_succ]
    by_cases hcond : r.count ≠ 0 ∧ r.obj.mPendingMask ≠ 0
    · rw [if_pos hcond]
      obtain ⟨hd, hcnt, hnum, hm1, hm2, hev, _, _, _, _⟩ :=
        flushRound_spec cfg env time j r (by omega)
      have hc1 : 0 < r.count := lt_of_le_of_ne hc (Ne.symm hcond.1)
      have hfc : 0 ≤ (flushRound cfg env time j r).count := by
        rw [hcnt]; split <;> omega
      obtain ⟨ih1, ih2, ih3⟩ := ih (j + 1) (flushRound cfg env time j r)
        (by unfold numSensors; omega) hfc
      have hpe : pendingEnabled (flushRound cfg env time j r).obj (j + 1) n =
          pendingEnabled r.obj (j + 1) n := by
        apply pendingEnabled_congr
        intro i hi1 hi2
        have hj3 : j ≠ SignificantMotion := by unfold SignificantMotion; omega
        refine ⟨⟨fun h => (hm1 i h).1, fun h => hm2 i (by omega) (by omega) h⟩, ?_⟩
        rw [(flushRound_other cfg env time j r hj3).1]
      have hst : ∀ (l : List Nat), (∀ i ∈ l, i ≠ j) →
          l.map (stamped (flushRound cfg env time j r).obj time) =
            l.map (stamped r.obj time) := by
        intro l hl
        apply List.map_congr_left
        intro i hi
        unfold stamped
        rw [hev i (hl i hi)]
      have hne : ∀ k, ∀ i ∈ (pendingEnabled r.obj (j + 1) n).take k, i ≠ j := by
        intro k i hi
        have := (mem_pendingEnabled r.obj (j + 1) n i).mp (List.mem_of_mem_take hi)
        omega
      rw [hpe] at ih1 ih2 ih3
      rw [hst _ (hne _)] at ih1
      rw [ih1, ih2, ih3, hd, hcnt, hnum, pendingEnabled_succ]
      obtain ⟨k, hk⟩ : ∃ k : Nat, r.count = (k : Int) + 1 := ⟨(r.count - 1).toNat, by omega⟩
      by_cases hpe2 : bitSet r.obj.mPendingMask j ∧ bitSet r.obj.mEnabled j
      · simp only [if_pos hpe2, hk]
        have h1 : ((k : Int) + 1 - 1).toNat = k := by omega
        have h2 : ((k : Int) + 1).toNat = k + 1 := by omega
        rw [h1, h2]
        simp only [List.singleton_append, List.take_succ_cons, List.map_cons,
          List.length_cons, List.append_assoc]
        refine ⟨trivial, ?_, ?_⟩
        · push_cast; omega
        · push_cast; omega
      · simp only [if_neg hpe2, List.nil_append, List.append_nil, sub_zero, add_zero,
          and_self]
    · rw [if_neg hcond]
      by_cases h0 : r.count = 0
      · simp [h0]
      · have hm : r.obj.mPendingMask = 0 := by
          by_contra hm; exact hcond ⟨h0, hm⟩
        rw [pendingEnabled_of_mask_zero _ _ _ hm]
        simp

/-- The inner loop only clears pending bits, and when it ends with capacity left, no
sensor from `j` on is pending any more. -/
theorem flushLoop_mask (cfg : Config) (env : Env) (time : Int) (n : Nat) :
    ∀ (j : Nat) (r : ReadState), j + n = numSensors →
      (∀ i, bitSet (flushLoop cfg env time n j r).obj.mPendingMask i →
        bitSet r.obj.mPendingMask i) ∧
      ((flushLoop cfg env time n j r).count = 0 ∨
        ∀ i, j ≤ i → i < numSensors →
          ¬ bitSet (flushLoop cfg env time n j r).obj.mPendingMask i) := by
  induction n with
  | zero =>
    intro j r hj
    refine ⟨fun i h => h, Or.inr ?_⟩
    intro i h1 h2; omega
  | succ n ih =>
    intro j r hj
    unfold numSensors at hj
    rw [flushLoop_succ]
    by_cases hcond : r.count ≠ 0 ∧ r.obj.mPendingMask ≠ 0
    · rw [if_pos hcond]
      obtain ⟨_, _, _, hm1, _, _, _, _, _, _⟩ := flushRound_spec cfg env time j r (by omega)
      obtain ⟨ih1, ih2⟩ := ih (j + 1) (flushRound cfg env time j r)
        (by unfold numSensors; omega)
      refine ⟨fun i h => (hm1 i (ih1 i h)).1, ?_⟩
      rcases ih2 with ih2 | ih2
      · exact Or.inl ih2
      · right
        intro i hi1 hi2 hb
        by_cases hij : i = j
        · exact (hm1 i (ih1 i hb)).2 hij
        · exact ih2 i (by omega) hi2 hb
    · rw [if_neg hcond]
      refine ⟨fun i h => h, ?_⟩
      by_cases h0 : r.count = 0
      · exact Or.inl h0
      · right
        have hm : r.obj.mPendingMask = 0 := by
          by_contra hm; exact hcond ⟨h0, hm⟩
        intro i _ _ hb
        rw [hm] at hb
        exact bitSet_zero i hb

/-- A mask below `2 ^ numSensors` without a pending sensor below `numSensors` is zero. -/
theorem mask_eq_zero (m : Nat) (hlt : m < 2 ^ numSensors)
    (h : ∀ i, i < numSensors → ¬ bitSet m i) : m = 0 := by
  by_contra hne
  obtain ⟨i, hi⟩ := Nat.ne_zero_implies_bit_true hne
  have hb : bitSet m i := (bitSet_iff_testBit m i).mpr hi
  have hi4 : i < numSensors := by
    by_contra hge
    have h1 : 2 ^ numSensors ≤ 2 ^ i := Nat.pow_le_pow_right (by decide) (by omega)
    have h2 := bitSet_lt m i hb
    omega
  exact h i hi4 hb

theorem mask_lt_of_bits (m m1 : Nat) (hlt : m < 2 ^ numSensors)
    (h : ∀ i, bitSet m1 i → bitSet m i) : m1 < 2 ^ numSensors := by
  apply Nat.lt_pow_two_of_testBit
  intro i hi
  by_contra hb
  have hb1 : bitSet m1 i := (bitSet_iff_testBit m1 i).mpr (by simpa using hb)
  have h2 := bitSet_lt m i (h i hb1)
  have h1 : 2 ^ numSensors ≤ 2 ^ i := Nat.pow_le_pow_right (by decide) hi
  omega

/-! ## processEvent and the outer loop of readEvents -/

theorem SameControl.refl (s : AkmSensor) : SameControl s s :=
  ⟨rfl, rfl, rfl, rfl, fun _ => rfl⟩

theorem SameControl.trans {s s1 s2 : AkmSensor} (h1 : SameControl s s1)
    (h2 : SameControl s1 s2) : SameControl s s2 :=
  ⟨h2.1.trans h1.1, h2.2.1.trans h1.2.1, h2.2.2.1.trans h1.2.2.1,
    h2.2.2.2.1.trans h1.2.2.2.1, fun i => (h2.2.2.2.2 i).trans (h1.2.2.2.2 i)⟩

theorem setEvent_sensor (s : AkmSensor) (j : Nat) (e : sensors_event_t)
    (h : e.sensor = (s.mPendingEvents j).sensor) (i : Nat) :
    ((setEvent s j e).mPendingEvents i).sensor = (s.mPendingEvents i).sensor := by
  unfold setEvent
  by_cases hij : i = j
  · subst hij; simp [h]
  · simp [Function.update_noteq hij]

theorem or_bit_lt (m k : Nat) (hm : m < 2 ^ numSensors) (hk : k < numSensors) :
    m ||| (1 <<< k) < 2 ^ numSensors := by
  apply Nat.or_lt_two_pow hm
  rw [Nat.one_shiftLeft]
  exact Nat.pow_lt_pow_right (by decide) hk

theorem axisUpdate_control (s : AkmSensor) (j : Nat) (e : sensors_event_t)
    (h : e.sensor = (s.mPendingEvents j).sensor) : SameControl s (axisUpdate s j e) :=
  ⟨rfl, rfl, rfl, rfl, fun i => setEvent_sensor _ j e h i⟩

theorem axisUpdate_mask_lt (s : AkmSensor) (j : Nat) (e : sensors_event_t)
    (hj : j < numSensors) (h : PendingInRange s) : PendingInRange (axisUpdate s j e) :=
  or_bit_lt _ _ h hj

/-- An axis update leaves the enabled mask, the reference count, the calls and the
delays alone and keeps the handles in the pending records. -/
theorem motionHeuristic_control (cfg : Config) (s : AkmSensor) :
    SameControl s (motionHeuristic cfg s) := by
  unfold motionHeuristic
  simp only []
  split
  · refine SameControl.trans ?_ (axisUpdate_control _ _ _ rfl)
    exact ⟨rfl, rfl, rfl, rfl, fun _ => rfl⟩
  · exact ⟨rfl, rfl, rfl, rfl, fun _ => rfl⟩

theorem motionHeuristic_mask_lt (cfg : Config) (s : AkmSensor)
    (h : PendingInRange s) : PendingInRange (motionHeuristic cfg s) := by
  unfold motionHeuristic
  simp only []
  split
  · exact axisUpdate_mask_lt _ _ _ (by decide) h
  · exact h

theorem processEvent_control (cfg : Config) (s : AkmSensor) (code value : Int) :
    SameControl s (processEvent cfg s code value) := by
  unfold processEvent
  split
  · exact axisUpdate_control s _ _ rfl
  split
  · exact axisUpdate_control s _ _ rfl
  split
  · refine SameControl.trans ?_ (motionHeuristic_control cfg _)
    exact axisUpdate_control s _ _ rfl
  split
  · exact axisUpdate_control s _ _ rfl
  split
  · exact axisUpdate_control s _ _ rfl
  split
  · exact axisUpdate_control s _ _ rfl
  split
  · exact axisUpdate_control s _ _ rfl
  split
  · exact axisUpdate_control s _ _ rfl
  split
  · exact axisUpdate_control s _ _ rfl
  split
  · exact axisUpdate_control s _ _ rfl
  · exact SameControl.refl s

/-- An axis update sets pending bits below `numSensors` only. -/
theorem processEvent_mask_lt (cfg : Config) (s : AkmSensor) (code value : Int)
    (h : PendingInRange s) : PendingInRange (processEvent cfg s code value) := by
  have hA : Accelerometer < numSensors := by decide
  have hM : MagneticField < numSensors := by decide
  have hO : Orientation < numSensors := by decide
  unfold processEvent
  by_cases h0 : code = cfg.EVENT_TYPE_ACCEL_X
  · rw [if_pos h0]; exact axisUpdate_mask_lt s _ _ hA h
  rw [if_neg h0]
  by_cases h1 : code = cfg.EVENT_TYPE_ACCEL_Y
  · rw [if_pos h1]; exact axisUpdate_mask_lt s _ _ hA h
  rw [if_neg h1]
  by_cases h2 : code = cfg.EVENT_TYPE_ACCEL_Z
  · rw [if_pos h2]; exact motionHeuristic_mask_lt cfg _ (axisUpdate_mask_lt s _ _ hA h)
  rw [if_neg h2]
  by_cases h3 : code = cfg.EVENT_TYPE_MAGV_X
  · rw [if_pos h3]; exact axisUpdate_mask_lt s _ _ hM h
  rw [if_neg h3]
  by_cases h4 : code = cfg.EVENT_TYPE_MAGV_Y
  · rw [if_pos h4]; exact axisUpdate_mask_lt s _ _ hM h
  rw [if_neg h4]
  by_cases h5 : code = cfg.EVENT_TYPE_MAGV_Z
  · rw [if_pos h5]; exact axisUpdate_mask_lt s _ _ hM h
  rw [if_neg h5]
  by_cases h6 : code = cfg.EVENT_TYPE_YAW
  · rw [if_pos h6]; exact axisUpdate_mask_lt s _ _ hO h
  rw [if_neg h6]
  by_cases h7 : code = cfg.EVENT_TYPE_PITCH
  · rw [if_pos h7]; exact axisUpdate_mask_lt s _ _ hO h
  rw [if_neg h7]
  by_cases h8 : code = cfg.EVENT_TYPE_ROLL
  · rw [if_pos h8]; exact axisUpdate_mask_lt s _ _ hO h
  rw [if_neg h8]
  by_cases h9 : code = cfg.EVENT_TYPE_ORIENT_STATUS
  · rw [if_pos h9]; exact axisUpdate_mask_lt s _ _ hO h
  rw [if_neg h9]
  exact h

theorem processRecords_control (cfg : Config) (pre : List input_event) :
    ∀ s : AkmSensor, SameControl s (processRecords cfg s pre) := by
  induction pre with
  | nil => intro s; exact SameControl.refl s
  | cons e rest ih =>
    intro s
    unfold processRecords
    split
    · exact SameControl.trans (processEvent_control cfg s e.code e.value) (ih _)
    · exact ih s

theorem processRecords_mask_lt (cfg : Config) (pre : List input_event) :
    ∀ s : AkmSensor, PendingInRange s → PendingInRange (processRecords cfg s pre) := by
  induction pre with
  | nil => intro s h; exact h
  | cons e rest ih =>
    intro s h
    unfold processRecords
    split
    · exact ih _ (processEvent_mask_lt cfg s e.code e.value h)
    · exact ih s h

theorem readLoop_nil (cfg : Config) (env : Env) (r : ReadState) :
    readLoop cfg env [] r = some { r with obj := { r.obj with mInputReader := [] } } := rfl

theorem readLoop_cons (cfg : Config) (env : Env) (event : input_event)
    (rest : List input_event) (r : ReadState) :
    readLoop cfg env (event :: rest) r =
      if r.count = 0 then some { r with obj := { r.obj with mInputReader := event :: rest } }
      else if event.type = EV_REL then
        readLoop cfg env rest { r with obj := processEvent cfg r.obj event.code event.value }
      else if event.type = EV_SYN then
        if (flushLoop cfg env (timevalToNano event.time) numSensors 0 r).obj.mPendingMask = 0
        then readLoop cfg env rest
          (flushLoop cfg env (timevalToNano event.time) numSensors 0 r)
        else if (flushLoop cfg env (timevalToNano event.time) numSensors 0 r).count = 0 then
          some { flushLoop cfg env (timevalToNano event.time) numSensors 0 r with
            obj := { (flushLoop cfg env (timevalToNano event.time) numSensors 0 r).obj with
              mInputReader := event :: rest } }
        else none
      else readLoop cfg env rest r := rfl

/-- The records in front of the first synchronization record only go through
`processEvent`. -/
theorem readLoop_pre (cfg : Config) (env : Env) (pre : List input_event) :
    ∀ (rest : List input_event) (r : ReadState),
      (∀ e ∈ pre, e.type ≠ EV_SYN) → r.count ≠ 0 →
      readLoop cfg env (pre ++ rest) r =
        readLoop cfg env rest { r with obj := processRecords cfg r.obj pre } := by
  induction pre with
  | nil => intro rest r _ _; rfl
  | cons e pre ih =>
    intro rest r hpre hc
    have hne : e.type ≠ EV_SYN := hpre e (List.mem_cons_self _ _)
    have hpre2 : ∀ e ∈ pre, e.type ≠ EV_SYN := fun x hx => hpre x (List.mem_cons_of_mem _ hx)
    rw [List.cons_append, readLoop_cons, if_neg hc]
    unfold processRecords
    by_cases hrel : e.type = EV_REL
    · simp only [if_pos hrel]
      rw [ih rest { r with obj := processEvent cfg r.obj e.code e.value } hpre2 hc]
    · simp only [if_neg hrel, if_neg hne]
      rw [ih rest r hpre2 hc]

/-- A synchronization record at the end of the queue, met with capacity left and no
pending bit from `numSensors` on: the call returns after the inner loop. -/
theorem readLoop_sync (cfg : Config) (env : Env) (sy : input_event) (r : ReadState)
    (hsy : sy.type = EV_SYN) (hc : r.count ≠ 0)
    (hm : PendingInRange r.obj) :
    ∃ q, readLoop cfg env [sy] r =
      some { flushLoop cfg env (timevalToNano sy.time) numSensors 0 r with
        obj := { (flushLoop cfg env (timevalToNano sy.time) numSensors 0 r).obj with
          mInputReader := q } } := by
  have hrel : ¬ sy.type = EV_REL := by rw [hsy]; decide
  rw [readLoop_cons, if_neg hc, if_neg hrel, if_pos hsy]
  obtain ⟨h1, h2⟩ := flushLoop_mask cfg env (timevalToNano sy.time) numSensors 0 r (by simp)
  by_cases hz : (flushLoop cfg env (timevalToNano sy.time) numSensors 0 r).obj.mPendingMask = 0
  · rw [if_pos hz, readLoop_nil]
    exact ⟨[], rfl⟩
  · rw [if_neg hz]
    rcases h2 with h2 | h2
    · rw [if_pos h2]
      exact ⟨[sy], rfl⟩
    · exfalso
      apply hz
      apply mask_eq_zero _ (mask_lt_of_bits _ _ hm h1)
      intro i hi
      exact h2 i (Nat.zero_le _) hi

/-- The shape of a `readEvents` call whose queue holds records without a synchronization
record and then one synchronization record: the call returns what the inner loop has
produced from the object after the axis updates. -/
theorem readEvents_batch (cfg : Config) (env : Env) (s : AkmSensor) (count : Int)
    (fill : Int × List input_event) (pre : List input_event) (sy : input_event)
    (hmask : PendingInRange s) (hfill : 0 ≤ fill.1)
    (hq : s.mInputReader ++ fill.2 = pre ++ [sy])
    (hpre : ∀ e ∈ pre, e.type ≠ EV_SYN) (hsy : sy.type = EV_SYN) (hcount : 1 ≤ count) :
    ∃ q, readEvents cfg env s count fill =
      some ((flushLoop cfg env (timevalToNano sy.time) numSensors 0
          { obj := processRecords cfg s pre, count := count, numEventReceived := 0,
            data := [] }).numEventReceived,
        (flushLoop cfg env (timevalToNano sy.time) numSensors 0
          { obj := processRecords cfg s pre, count := count, numEventReceived := 0,
            data := [] }).data,
        { (flushLoop cfg env (timevalToNano sy.time) numSensors 0
          { obj := processRecords cfg s pre, count := count, numEventReceived := 0,
            data := [] }).obj with mInputReader := q }) := by
  have hc1 : ¬ count < 1 := by omega
  have hf1 : ¬ fill.1 < 0 := by omega
  have hc0 : count ≠ 0 := by omega
  unfold readEvents fillQueue
  rw [if_neg hc1, if_neg hf1, hq, readLoop_pre cfg env pre [sy] _ hpre hc0]
  obtain ⟨q, hq2⟩ := readLoop_sync cfg env sy
    { obj := processRecords cfg s pre, count := count, numEventReceived := 0, data := [] }
    hsy hc0 (processRecords_mask_lt cfg pre s hmask)
  exact ⟨q, by rw [hq2]⟩

/-! ## Which sensors a synchronization record flushes -/

theorem sensorHandle_inj (cfg : Config) (hd : cfg.handlesDistinct) (i j : Nat)
    (hi : i < numSensors) (hj : j < numSensors)
    (h : sensorHandle cfg i = sensorHandle cfg j) : i = j := by
  unfold Config.handlesDistinct at hd
  simp only [List.nodup_cons, List.mem_cons, List.mem_singleton, not_or, List.not_mem_nil,
    not_false_eq_true, List.nodup_nil, and_true] at hd
  obtain ⟨⟨h1, h2, h3⟩, ⟨h4, h5⟩, h6⟩ := hd
  unfold numSensors at hi hj
  have hi' : i = 0 ∨ i = 1 ∨ i = 2 ∨ i = 3 := by omega
  have hj' : j = 0 ∨ j = 1 ∨ j = 2 ∨ j = 3 := by omega
  rcases hi' with rfl | rfl | rfl | rfl <;> rcases hj' with rfl | rfl | rfl | rfl <;>
    simp [sensorHandle, Accelerometer, MagneticField, Orientation] at h <;>
    first | rfl | exact absurd h h1 | exact absurd h h2 | exact absurd h h3
          | exact absurd h h4 | exact absurd h h5 | exact absurd h h6
          | exact absurd h.symm h1 | exact absurd h.symm h2 | exact absurd h.symm h3
          | exact absurd h.symm h4 | exact absurd h.symm h5 | exact absurd h.symm h6

theorem tagged_of_control (cfg : Config) (s s1 : AkmSensor) (h : tagged cfg s)
    (hc : SameControl s s1) : tagged cfg s1 := by
  intro j hj
  rw [hc.2.2.2.2 j]; exact h j hj

theorem stamped_sensor (s : AkmSensor) (time : Int) (i : Nat) :
    (stamped s time i).sensor = (s.mPendingEvents i).sensor := rfl

/-- A `readEvents` call whose queue holds axis updates (and records of unknown classes)
followed by one synchronization record, with capacity for every sensor that is pending
and enabled at that record, returns, and the record of a logical sensor is among the
written ones if and only if its pending bit is set after the axis updates and its enabled
bit is set. -/
theorem readEvents_emits_pending (cfg : Config) (env : Env) (s : AkmSensor) (count : Int)
    (fill : Int × List input_event) (pre : List input_event) (sy : input_event) (j : Nat)
    (hd : cfg.handlesDistinct) (htag : tagged cfg s) (hmask : PendingInRange s)
    (hfill : 0 ≤ fill.1) (hq : s.mInputReader ++ fill.2 = pre ++ [sy])
    (hpre : ∀ e ∈ pre, e.type ≠ EV_SYN) (hsy : sy.type = EV_SYN) (hcount : 1 ≤ count)
    (hcap : ((pendingEnabled (processRecords cfg s pre) 0 numSensors).length : Int) ≤ count)
    (hj : j < numSensors) :
    ∃ n out s1, readEvents cfg env s count fill = some (n, out, s1) ∧
      ((∃ e ∈ out, e.sensor = sensorHandle cfg j) ↔
        (bitSet (processRecords cfg s pre).mPendingMask j ∧ bitSet s.mEnabled j)) := by
  obtain ⟨q, hq2⟩ := readEvents_batch cfg env s count fill pre sy hmask hfill hq hpre hsy hcount
  refine ⟨_, _, _, hq2, ?_⟩
  have hctl := processRecords_control cfg pre s
  have htag2 := tagged_of_control cfg s _ htag hctl
  obtain ⟨hdata, _, _⟩ := flushLoop_out cfg env (timevalToNano sy.time) numSensors 0
    { obj := processRecords cfg s pre, count := count, numEventReceived := 0, data := [] }
    (by simp) (by show (0 : Int) ≤ count; omega)
  rw [hdata]
  simp only [List.nil_append]
  rw [List.take_of_length_le (by show _ ≤ count.toNat; omega)]
  constructor
  · rintro ⟨e, he, hes⟩
    rw [List.mem_map] at he
    obtain ⟨i, hi, rfl⟩ := he
    have hi2 := (mem_pendingEnabled _ 0 numSensors i).mp hi
    rw [stamped_sensor, htag2 i (by omega)] at hes
    have hij := sensorHandle_inj cfg hd i j (by omega) hj hes
    subst hij
    refine ⟨hi2.2.2.1, ?_⟩
    rw [← hctl.1]; exact hi2.2.2.2
  · rintro ⟨hp, he⟩
    refine ⟨stamped (processRecords cfg s pre) (timevalToNano sy.time) j, ?_, ?_⟩
    · rw [List.mem_map]
      refine ⟨j, ?_, rfl⟩
      rw [mem_pendingEnabled]
      refine ⟨Nat.zero_le _, by omega, hp, ?_⟩
      rw [hctl.1]; exact he
    · rw [stamped_sensor, htag2 j hj]

/-! ## SignificantMotion stays off until it is enabled again -/

theorem sensorHandle_SM (cfg : Config) : sensorHandle cfg SignificantMotion = cfg.ID_SM := by
  simp [sensorHandle, SignificantMotion, Accelerometer, MagneticField, Orientation]

/-- A round that does not write the record of SignificantMotion makes no call and leaves
the enabled mask and the reference count alone. -/
theorem flushRound_keep (cfg : Config) (env : Env) (time : Int) (j : Nat) (r : ReadState)
    (hj : j ≠ SignificantMotion ∨ ¬ bitSet r.obj.mEnabled j) :
    (flushRound cfg env time j r).obj.mEnabled = r.obj.mEnabled ∧
    (flushRound cfg env time j r).obj.calls = r.obj.calls ∧
    (flushRound cfg env time j r).obj.mAccRefCount = r.obj.mAccRefCount := by
  rcases hj with hj | hj
  · exact flushRound_other cfg env time j r hj
  · unfold flushRound
    split
    · have he1 : ¬ ((stampPending r.obj time j).mEnabled &&& (1 <<< j) ≠ 0) := hj
      simp only [if_neg he1]
      exact ⟨rfl, rfl, rfl⟩
    · exact ⟨rfl, rfl, rfl⟩

theorem flushRound_smOff (cfg : Config) (env : Env) (time : Int) (j : Nat) (r : ReadState)
    (hd : cfg.handlesDistinct) (hj : j < numSensors) (htag : tagged cfg r.obj)
    (hoff : ¬ bitSet r.obj.mEnabled SignificantMotion) :
    tagged cfg (flushRound cfg env time j r).obj ∧
    ¬ bitSet (flushRound cfg env time j r).obj.mEnabled SignificantMotion ∧
    ∀ e ∈ (flushRound cfg env time j r).data, e ∈ r.data ∨ e.sensor ≠ cfg.ID_SM := by
  obtain ⟨hdata, _, _, _, _, _, hsens, _, _, _⟩ :=
    flushRound_spec cfg env time j r (by unfold numSensors at hj; omega)
  have hkeep := flushRound_keep cfg env time j r (by
    by_cases h3 : j = SignificantMotion
    · right; rw [h3]; exact hoff
    · left; exact h3)
  refine ⟨?_, ?_, ?_⟩
  · intro i hi; rw [hsens i]; exact htag i hi
  · rw [hkeep.1]; exact hoff
  · intro e he
    rw [hdata, List.mem_append] at he
    rcases he with he | he
    · exact Or.inl he
    · right
      split at he
      · rename_i hpe
        simp only [List.mem_singleton] at he
        subst he
        rw [stamped_sensor, htag j hj, ← sensorHandle_SM cfg]
        intro heq
        have := sensorHandle_inj cfg hd j SignificantMotion hj (by decide) heq
        subst this
        exact hoff hpe.2
      · simp at he

theorem flushLoop_smOff (cfg : Config) (env : Env) (time : Int) (hd : cfg.handlesDistinct)
    (n : Nat) :
    ∀ (j : Nat) (r : ReadState), j + n = numSensors → tagged cfg r.obj →
      ¬ bitSet r.obj.mEnabled SignificantMotion →
      tagged cfg (flushLoop cfg env time n j r).obj ∧
      ¬ bitSet (flushLoop cfg env time n j r).obj.mEnabled SignificantMotion ∧
      ∀ e ∈ (flushLoop cfg env time n j r).data, e ∈ r.data ∨ e.sensor ≠ cfg.ID_SM := by
  induction n with
  | zero => intro j r _ htag hoff; exact ⟨htag, hoff, fun e he => Or.inl he⟩
  | succ n ih =>
    intro j r hj htag hoff
    rw [flushLoop_succ]
    split
    · obtain ⟨h1, h2, h3⟩ := flushRound_smOff cfg env time j r hd (by omega) htag hoff
      obtain ⟨i1, i2, i3⟩ := ih (j + 1) (flushRound cfg env time j r) (by omega) h1 h2
      refine ⟨i1, i2, ?_⟩
      intro e he
      rcases i3 e he with h | h
      · exact h3 e h
      · exact Or.inr h
    · exact ⟨htag, hoff, fun e he => Or.inl he⟩

theorem readLoop_smOff (cfg : Config) (env : Env) (hd : cfg.handlesDistinct)
    (q : List input_event) :
    ∀ (r r1 : ReadState), tagged cfg r.obj → ¬ bitSet r.obj.mEnabled SignificantMotion →
      readLoop cfg env q r = some r1 →
      tagged cfg r1.obj ∧ ¬ bitSet r1.obj.mEnabled SignificantMotion ∧
      ∀ e ∈ r1.data, e ∈ r.data ∨ e.sensor ≠ cfg.ID_SM := by
  induction q with
  | nil =>
    intro r r1 htag hoff h
    rw [readLoop_nil] at h
    injection h with h
    subst h
    exact ⟨htag, hoff, fun e he => Or.inl he⟩
  | cons event rest ih =>
    intro r r1 htag hoff h
    rw [readLoop_cons] at h
    split at h
    · injection h with h
      subst h
      exact ⟨htag, hoff, fun e he => Or.inl he⟩
    · split at h
      · have hctl := processEvent_control cfg r.obj event.code event.value
        exact ih { r with obj := processEvent cfg r.obj event.code event.value } r1
          (tagged_of_control cfg _ _ htag hctl)
          (by show ¬ bitSet (processEvent cfg r.obj event.code event.value).mEnabled _
              rw [hctl.1]; exact hoff) h
      · split at h
        · obtain ⟨f1, f2, f3⟩ := flushLoop_smOff cfg env (timevalToNano event.time) hd
            numSensors 0 r (by simp) htag hoff
          split at h
          · obtain ⟨i1, i2, i3⟩ := ih _ r1 f1 f2 h
            refine ⟨i1, i2, ?_⟩
            intro e he
            rcases i3 e he with h' | h'
            · exact f3 e h'
            · exact Or.inr h'
          · split at h
            · injection h with h
              subst h
              exact ⟨f1, f2, f3⟩
            · exact absurd h (by simp)
        · exact ih r r1 htag hoff h

theorem enable_control_events (cfg : Config) (env : Env) (s : AkmSensor) (handle en : Int)
    (htag : tagged cfg s) : tagged cfg (enable cfg env s handle en).2 := by
  intro j hj
  rw [(enable_frame cfg env s handle en).2.1]
  exact htag j hj

theorem enable_what_eq_SM (cfg : Config) (handle : Int)
    (h : enable_what cfg handle = ((3 : Nat) : Int)) : handle = cfg.ID_SM := by
  unfold enable_what at h
  split at h
  · simp [Accelerometer] at h
  · split at h
    · simp [MagneticField] at h
    · split at h
      · simp [Orientation] at h
      · split at h
        · assumption
        · simp at h

/-- The bit of another sensor is not touched by `enable`. -/
theorem enable_other_bit (cfg : Config) (env : Env) (s : AkmSensor) (handle en : Int)
    (w i : Nat) (hw : enable_what cfg handle = (w : Int)) (hlt : w < 4) (hi : i < 32)
    (hiw : i ≠ w) :
    bitSet (enable cfg env s handle en).2.mEnabled i ↔ bitSet s.mEnabled i := by
  rw [enable_eq cfg env s handle en w hw hlt]
  split
  · exact Iff.rfl
  · split
    · show bitSet ((s.mEnabled &&& not32 (1 <<< w)) ||| ((if en ≠ 0 then 1 else 0) <<< w)) i ↔ _
      by_cases hen : en ≠ 0
      · rw [if_pos hen, bitSet_set, bitSet_clear _ _ _ (by omega)]
        constructor
        · rintro (h | h)
          · exact h.1
          · exact absurd h hiw
        · intro h; exact Or.inl ⟨h, hi, hiw⟩
      · rw [if_neg hen, bitSet_zero_shift, bitSet_clear _ _ _ (by omega)]
        constructor
        · intro h; exact h.1
        · intro h; exact ⟨h, hi, hiw⟩
    · exact Iff.rfl

theorem enable_smOff (cfg : Config) (env : Env) (s : AkmSensor) (handle en : Int)
    (hoff : ¬ bitSet s.mEnabled SignificantMotion)
    (hallow : handle = cfg.ID_SM → en = 0) :
    ¬ bitSet (enable cfg env s handle en).2.mEnabled SignificantMotion := by
  rcases enable_what_cases cfg handle with hw | ⟨w, hlt, hw⟩
  · rw [enable_invalid cfg env s handle en hw]; exact hoff
  · by_cases h3 : w = 3
    · subst h3
      have hen := hallow (enable_what_eq_SM cfg handle hw)
      rw [enable_eq cfg env s handle en 3 hw hlt]
      have hsame : (en ≠ 0) ↔ bitSet s.mEnabled 3 := by
        constructor
        · intro h; exact absurd hen h
        · intro h; exact absurd h hoff
      rw [if_pos hsame]; exact hoff
    · rw [enable_other_bit cfg env s handle en w SignificantMotion hw hlt (by decide)
        (by unfold SignificantMotion; omega)]
      exact hoff

theorem setDelay_control (cfg : Config) (env : Env) (s : AkmSensor) (handle ns : Int) :
    (setDelay cfg env s handle ns).2.mEnabled = s.mEnabled ∧
    (setDelay cfg env s handle ns).2.mPendingEvents = s.mPendingEvents := by
  have hu : ∀ s1 : AkmSensor, (update_delay env s1).2.mEnabled = s1.mEnabled ∧
      (update_delay env s1).2.mPendingEvents = s1.mPendingEvents := by
    intro s1; unfold update_delay; split
    · simp only []; split <;> exact ⟨rfl, rfl⟩
    · exact ⟨rfl, rfl⟩
  unfold setDelay
  simp only []
  split
  · exact ⟨rfl, rfl⟩
  · split
    · exact ⟨rfl, rfl⟩
    · split
      · exact ⟨rfl, rfl⟩
      · exact hu _

theorem readEvents_smOff (cfg : Config) (env : Env) (hd : cfg.handlesDistinct)
    (s : AkmSensor) (count : Int) (fill : Int × List input_event)
    (res : Int × List sensors_event_t × AkmSensor)
    (htag : tagged cfg s) (hoff : ¬ bitSet s.mEnabled SignificantMotion)
    (h : readEvents cfg env s count fill = some res) :
    tagged cfg res.2.2 ∧ ¬ bitSet res.2.2.mEnabled SignificantMotion ∧
      ∀ e ∈ res.2.1, e.sensor ≠ cfg.ID_SM := by
  unfold readEvents at h
  by_cases h1 : count < 1
  · rw [if_pos h1] at h
    injection h with h; subst h
    exact ⟨htag, hoff, by simp⟩
  · rw [if_neg h1] at h
    by_cases h2 : fill.1 < 0
    · rw [if_pos h2] at h
      injection h with h; subst h
      exact ⟨htag, hoff, by simp⟩
    · rw [if_neg h2] at h
      cases hre : readLoop cfg env (fillQueue s.mInputReader fill)
          { obj := s, count := count, numEventReceived := 0, data := [] } with
      | none => rw [hre] at h; exact absurd h (by simp)
      | some r2 =>
        rw [hre] at h
        simp only [] at h
        injection h with h; subst h
        obtain ⟨i1, i2, i3⟩ := readLoop_smOff cfg env hd _ _ r2 htag hoff hre
        refine ⟨i1, i2, ?_⟩
        intro e he
        rcases i3 e he with h' | h'
        · simp at h'
        · exact h'

theorem step_smOff (cfg : Config) (env : Env) (hd : cfg.handlesDistinct) (s : AkmSensor)
    (op : Op) (s2 : AkmSensor) (out1 : List sensors_event_t)
    (htag : tagged cfg s) (hoff : ¬ bitSet s.mEnabled SignificantMotion)
    (hallow : ∀ en, op = Op.enable cfg.ID_SM en → en = 0)
    (hs : step cfg env s op = some (s2, out1)) :
    tagged cfg s2 ∧ ¬ bitSet s2.mEnabled SignificantMotion ∧
      ∀ e ∈ out1, e.sensor ≠ cfg.ID_SM := by
  cases op with
  | enable handle en =>
    have hs2 : some ((enable cfg env s handle en).2, ([] : List sensors_event_t)) =
        some (s2, out1) := hs
    injection hs2 with hs2
    injection hs2 with hs1 hs2
    subst hs1; subst hs2
    refine ⟨enable_control_events cfg env s handle en htag, ?_, by simp⟩
    apply enable_smOff cfg env s handle en hoff
    intro hh
    exact hallow en (by rw [hh])
  | setDelay handle ns =>
    have hs2 : some ((setDelay cfg env s handle ns).2, ([] : List sensors_event_t)) =
        some (s2, out1) := hs
    injection hs2 with hs2
    injection hs2 with hs1 hs2
    subst hs1; subst hs2
    obtain ⟨c1, c2⟩ := setDelay_control cfg env s handle ns
    refine ⟨?_, by rw [c1]; exact hoff, by simp⟩
    intro j hj; rw [c2]; exact htag j hj
  | readEvents count fill =>
    cases hre : readEvents cfg env s count fill with
    | none =>
      have hs2 : (match readEvents cfg env s count fill with
        | some r => some (r.2.2, r.2.1)
        | none => none) = some (s2, out1) := hs
      rw [hre] at hs2
      exact absurd hs2 (by simp)
    | some res =>
      have hs2 : (match readEvents cfg env s count fill with
        | some r => some (r.2.2, r.2.1)
        | none => none) = some (s2, out1) := hs
      rw [hre] at hs2
      simp only [] at hs2
      injection hs2 with hs2
      injection hs2 with hs1 hs2
      subst hs1; subst hs2
      exact readEvents_smOff cfg env hd s count fill res htag hoff hre

/-- While SignificantMotion is disabled and no call enables it, no call writes a record
with the handle of SignificantMotion. -/
theorem run_smOff (cfg : Config) (env : Env) (hd : cfg.handlesDistinct) (ops : List Op) :
    ∀ (s s1 : AkmSensor) (outs : List sensors_event_t),
      tagged cfg s → ¬ bitSet s.mEnabled SignificantMotion →
      (∀ op ∈ ops, ∀ en, op = Op.enable cfg.ID_SM en → en = 0) →
      run cfg env s ops = some (s1, outs) →
      ∀ e ∈ outs, e.sensor ≠ cfg.ID_SM := by
  induction ops with
  | nil =>
    intro s s1 outs _ _ _ h
    have h2 : some (s, ([] : List sensors_event_t)) = some (s1, outs) := h
    injection h2 with h2
    injection h2 with _ h2
    subst h2
    intro e he; simp at he
  | cons op ops ih =>
    intro s s1 outs htag hoff hallow h
    have hallow2 : ∀ op ∈ ops, ∀ en, op = Op.enable cfg.ID_SM en → en = 0 :=
      fun o ho => hallow o (List.mem_cons_of_mem _ ho)
    have hrun : run cfg env s (op :: ops) =
        match step cfg env s op with
        | some (s2, out1) =>
          match run cfg env s2 ops with
          | some (s3, out2) => some (s3, out1 ++ out2)
          | none => none
        | none => none := rfl
    rw [hrun] at h
    cases hs : step cfg env s op with
    | none => rw [hs] at h; exact absurd h (by simp)
    | some p =>
      obtain ⟨s2, out1⟩ := p
      rw [hs] at h
      simp only [] at h
      obtain ⟨t1, t2, t3⟩ := step_smOff cfg env hd s op s2 out1 htag hoff
        (hallow op (List.mem_cons_self _ _)) hs
      cases hr : run cfg env s2 ops with
      | none => rw [hr] at h; exact absurd h (by simp)
      | some p2 =>
        obtain ⟨s3, out2⟩ := p2
        rw [hr] at h
        simp only [] at h
        injection h with h
        injection h with _ h2
        subst h2
        intro e he
        rw [List.mem_append] at he
        rcases he with he | he
        · exact t3 e he
        · exact ih s2 s3 out2 t1 t2 hallow2 hr e he

/-! ## Claim C4: the flush that fires SignificantMotion -/

theorem flushLoop_sensor (cfg : Config) (env : Env) (time : Int) (n : Nat) :
    ∀ (j : Nat) (r : ReadState), j + n = numSensors →
      ∀ i, ((flushLoop cfg env time n j r).obj.mPendingEvents i).sensor =
        (r.obj.mPendingEvents i).sensor := by
  induction n with
  | zero => intro j r _ i; rfl
  | succ n ih =>
    intro j r hj i
    unfold numSensors at hj
    rw [flushLoop_succ]
    split
    · rw [ih (j + 1) _ (by unfold numSensors; omega) i]
      exact (flushRound_spec cfg env time j r (by omega)).2.2.2.2.2.2.1 i
    · rfl

theorem pendingEnabled_flushRound (cfg : Config) (env : Env) (time : Int) (j n : Nat)
    (r : ReadState) (hj : j + 1 + n ≤ numSensors) (hn : 0 < n) :
    pendingEnabled (flushRound cfg env time j r).obj (j + 1) n =
      pendingEnabled r.obj (j + 1) n := by
  unfold numSensors at hj
  obtain ⟨_, _, _, hm1, hm2, _, _, _, _, _⟩ := flushRound_spec cfg env time j r (by omega)
  apply pendingEnabled_congr
  intro i hi1 hi2
  have hj3 : j ≠ SignificantMotion := by unfold SignificantMotion; omega
  refine ⟨⟨fun h => (hm1 i h).1, fun h => hm2 i (by omega) (by omega) h⟩, ?_⟩
  rw [(flushRound_other cfg env time j r hj3).1]

theorem pendingEnabled_zero (s : AkmSensor) (j : Nat) : pendingEnabled s j 0 = [] := rfl

/-- With SignificantMotion pending and capacity for the sensors before it and one more,
the inner loop gets to the round of SignificantMotion, and the rounds before it make no
call and leave the enabled mask and the reference count alone. -/
theorem flushLoop_reach_SM (cfg : Config) (env : Env) (time : Int) (n : Nat) :
    ∀ (j : Nat) (r : ReadState), j + n = SignificantMotion →
      bitSet r.obj.mPendingMask SignificantMotion →
      ((pendingEnabled r.obj j n).length : Int) < r.count →
      ∃ r2, flushLoop cfg env time (n + 1) j r =
          flushRound cfg env time SignificantMotion r2 ∧
        r2.obj.mEnabled = r.obj.mEnabled ∧ r2.obj.calls = r.obj.calls ∧
        r2.obj.mAccRefCount = r.obj.mAccRefCount ∧
        bitSet r2.obj.mPendingMask SignificantMotion := by
  induction n with
  | zero =>
    intro j r hj hp hc
    have hj3 : j = SignificantMotion := by omega
    subst hj3
    rw [pendingEnabled_zero] at hc
    have hcond : r.count ≠ 0 ∧ r.obj.mPendingMask ≠ 0 := by
      refine ⟨?_, mEnabled_ne_zero_of_bitSet _ _ hp⟩
      simp only [List.length_nil, Nat.cast_zero] at hc
      omega
    rw [flushLoop_succ, if_pos hcond]
    exact ⟨r, rfl, rfl, rfl, rfl, hp⟩
  | succ n ih =>
    intro j r hj hp hc
    unfold SignificantMotion at hj
    have hcond : r.count ≠ 0 ∧ r.obj.mPendingMask ≠ 0 := by
      refine ⟨?_, mEnabled_ne_zero_of_bitSet _ _ hp⟩
      have : (0 : Int) ≤ ((pendingEnabled r.obj j (n + 1)).length : Int) := by positivity
      omega
    rw [flushLoop_succ, if_pos hcond]
    obtain ⟨_, hcnt, _, _, hm2, _, _, _, _, _⟩ := flushRound_spec cfg env time j r (by omega)
    have hj3 : j ≠ SignificantMotion := by unfold SignificantMotion; omega
    have hkeep := flushRound_other cfg env time j r hj3
    have hp2 : bitSet (flushRound cfg env time j r).obj.mPendingMask SignificantMotion :=
      hm2 SignificantMotion (by decide) (Ne.symm hj3) hp
    have hc2 : ((pendingEnabled (flushRound cfg env time j r).obj (j + 1) n).length : Int) <
        (flushRound cfg env time j r).count := by
      have hpe : pendingEnabled (flushRound cfg env time j r).obj (j + 1) n =
          pendingEnabled r.obj (j + 1) n := by
        by_cases hn : n = 0
        · subst hn; rfl
        · exact pendingEnabled_flushRound cfg env time j n r (by unfold numSensors; omega)
            (by omega)
      rw [hpe, hcnt]
      rw [pendingEnabled_succ] at hc
      split
      · rename_i hpe2
        rw [if_pos hpe2] at hc
        simp only [List.singleton_append, List.length_cons, Nat.cast_add, Nat.cast_one] at hc
        omega
      · rename_i hpe2
        rw [if_neg hpe2] at hc
        simp only [List.nil_append] at hc
        omega
    obtain ⟨r2, h1, h2, h3, h4, h5⟩ := ih (j + 1) (flushRound cfg env time j r)
      (by unfold SignificantMotion; omega) hp2 hc2
    exact ⟨r2, h1, h2.trans hkeep.1, h3.trans hkeep.2.1, h4.trans hkeep.2.2, h5⟩

theorem flushRound_SM_obj (cfg : Config) (env : Env) (time : Int) (r : ReadState)
    (hp : bitSet r.obj.mPendingMask SignificantMotion)
    (he : bitSet r.obj.mEnabled SignificantMotion) :
    (flushRound cfg env time SignificantMotion r).obj =
      (enable cfg env (stampPending r.obj time SignificantMotion) cfg.ID_SM 0).2 := by
  have hp1 : r.obj.mPendingMask &&& (1 <<< SignificantMotion) ≠ 0 := hp
  have he1 : (stampPending r.obj time SignificantMotion).mEnabled &&&
      (1 <<< SignificantMotion) ≠ 0 := he
  unfold flushRound
  simp only [if_pos hp1, if_pos he1, if_true]

/-- Disabling SignificantMotion when it is enabled, the reference count is the number of
enabled users of the accelerometer and the backend disable call succeeds. -/
theorem enable_SM_off (cfg : Config) (env : Env) (s : AkmSensor) (hd : cfg.handlesDistinct)
    (he : bitSet s.mEnabled SignificantMotion) (href : s.mAccRefCount = accelUsers s.mEnabled)
    (hdis : ∀ c t, env.akm_disable_sensor c t = 0) :
    ¬ bitSet (enable cfg env s cfg.ID_SM 0).2.mEnabled SignificantMotion ∧
    (bitSet s.mEnabled Accelerometer → (enable cfg env s cfg.ID_SM 0).2.calls = s.calls) ∧
    (¬ bitSet s.mEnabled Accelerometer → (enable cfg env s cfg.ID_SM 0).2.calls =
      s.calls ++ [Call.akm_disable_sensor SENSOR_TYPE_ACCELEROMETER]) := by
  have hne : ¬ (((0 : Int) ≠ 0) ↔ bitSet s.mEnabled 3) := by
    intro h; exact absurd (h.mpr he) (by simp)
  have hty : enable_sensor_type 3 = SENSOR_TYPE_ACCELEROMETER := by decide
  rw [enable_eq cfg env s cfg.ID_SM 0 3 (enable_what_SM cfg hd) (by decide), if_neg hne, hty]
  unfold accelUsers at href
  rw [if_pos he] at href
  have herr0 : (enable_err env s 0 SENSOR_TYPE_ACCELEROMETER).1 = 0 := by
    unfold enable_err
    simp only [ne_eq, not_true_eq_false, if_false]
    split
    · rfl
    · exact hdis _ _
  rw [if_pos herr0]
  refine ⟨?_, ?_, ?_⟩
  · show ¬ bitSet ((s.mEnabled &&& not32 (1 <<< 3)) ||| ((if (0 : Int) ≠ 0 then 1 else 0) <<< 3))
      SignificantMotion
    simp only [ne_eq, not_true_eq_false, if_false]
    rw [bitSet_zero_shift, bitSet_clear _ _ _ (by decide)]
    intro h; exact h.2.2 rfl
  · intro hA
    rw [if_pos hA] at href
    show (enable_err env s 0 SENSOR_TYPE_ACCELEROMETER).2 = s.calls
    unfold enable_err
    have hk : s.mAccRefCount > 1 := by omega
    simp only [ne_eq, not_true_eq_false, if_false, true_and, if_pos hk]
  · intro hA
    rw [if_neg hA] at href
    show (enable_err env s 0 SENSOR_TYPE_ACCELEROMETER).2 = _
    unfold enable_err
    have hk : ¬ (s.mAccRefCount > 1) := by omega
    simp only [ne_eq, not_true_eq_false, if_false, true_and, if_neg hk]

theorem pendingEnabled_concat (s : AkmSensor) (j n : Nat) :
    pendingEnabled s j (n + 1) = pendingEnabled s j n ++
      (if bitSet s.mPendingMask (j + n) ∧ bitSet s.mEnabled (j + n) then [j + n] else []) := by
  unfold pendingEnabled
  rw [List.range'_concat, List.filter_append]
  simp only [Nat.one_mul]
  congr 1
  by_cases h : bitSet s.mPendingMask (j + n) ∧ bitSet s.mEnabled (j + n)
  · simp [h]
  · simp [h]

/-- Among the records of a complete flush with SignificantMotion pending and enabled,
exactly one carries the handle of SignificantMotion. -/
theorem flushed_SM_once (cfg : Config) (s : AkmSensor) (time : Int)
    (hd : cfg.handlesDistinct) (htag : tagged cfg s)
    (hp : bitSet s.mPendingMask SignificantMotion) (he : bitSet s.mEnabled SignificantMotion) :
    (((pendingEnabled s 0 numSensors).map (stamped s time)).filter
      (fun e => decide (e.sensor = cfg.ID_SM))).length = 1 := by
  have hsplit : pendingEnabled s 0 numSensors = pendingEnabled s 0 3 ++ [3] := by
    have h := pendingEnabled_concat s 0 3
    have hpe : bitSet s.mPendingMask (0 + 3) ∧ bitSet s.mEnabled (0 + 3) := ⟨hp, he⟩
    rw [if_pos hpe] at h
    exact h
  rw [hsplit, List.map_append, List.filter_append]
  have h1 : ((pendingEnabled s 0 3).map (stamped s time)).filter
      (fun e => decide (e.sensor = cfg.ID_SM)) = [] := by
    rw [List.filter_eq_nil_iff]
    intro e hmem
    rw [List.mem_map] at hmem
    obtain ⟨i, hi, rfl⟩ := hmem
    have hi2 := (mem_pendingEnabled s 0 3 i).mp hi
    simp only [decide_eq_true_eq]
    rw [stamped_sensor, htag i (by unfold numSensors; omega), ← sensorHandle_SM cfg]
    intro heq
    have := sensorHandle_inj cfg hd i SignificantMotion (by unfold numSensors; omega)
      (by decide) heq
    unfold SignificantMotion at this
    omega
  have h2 : (stamped s time 3).sensor = cfg.ID_SM := by
    rw [stamped_sensor, htag 3 (by decide)]; exact sensorHandle_SM cfg
  rw [h1]
  simp [h2]

/-- Claim C4: in a state with SignificantMotion pending and enabled and the reference
count equal to the number of enabled sensors among Accelerometer and SignificantMotion,
with a backend whose disable call succeeds, a `readEvents` call that flushes one
synchronization record (with capacity for all pending and enabled sensors) writes exactly
one record with the handle of SignificantMotion and leaves SignificantMotion disabled; it
makes no call if Accelerometer is enabled and exactly one backend disable call if not;
and no later call writes a SignificantMotion record unless `enable(ID_SM, on)` is called
first. -/
theorem significant_motion_one_shot (cfg : Config) (env : Env) (s : AkmSensor) (count : Int)
    (fill : Int × List input_event) (sy : input_event)
    (hd : cfg.handlesDistinct) (htag : tagged cfg s) (hmask : PendingInRange s)
    (hp : bitSet s.mPendingMask SignificantMotion) (he : bitSet s.mEnabled SignificantMotion)
    (href : s.mAccRefCount = accelUsers s.mEnabled)
    (hdis : ∀ c t, env.akm_disable_sensor c t = 0)
    (hfill : 0 ≤ fill.1) (hq : s.mInputReader ++ fill.2 = [sy]) (hsy : sy.type = EV_SYN)
    (hcap : ((pendingEnabled s 0 numSensors).length : Int) ≤ count) :
    ∃ n out s1, readEvents cfg env s count fill = some (n, out, s1) ∧
      (out.filter (fun e => decide (e.sensor = cfg.ID_SM))).length = 1 ∧
      ¬ bitSet s1.mEnabled SignificantMotion ∧
      (bitSet s.mEnabled Accelerometer → s1.calls = s.calls) ∧
      (¬ bitSet s.mEnabled Accelerometer →
        s1.calls = s.calls ++ [Call.akm_disable_sensor SENSOR_TYPE_ACCELEROMETER]) ∧
      ∀ ops s2 outs, (∀ op ∈ ops, ∀ en, op = Op.enable cfg.ID_SM en → en = 0) →
        run cfg env s1 ops = some (s2, outs) → ∀ e ∈ outs, e.sensor ≠ cfg.ID_SM := by
  have hlen : 1 ≤ (pendingEnabled s 0 numSensors).length := by
    have hmem : SignificantMotion ∈ pendingEnabled s 0 numSensors := by
      rw [mem_pendingEnabled]; exact ⟨Nat.zero_le _, by decide, hp, he⟩
    exact List.length_pos_of_mem hmem
  have hcount : 1 ≤ count := by omega
  obtain ⟨q, hq2⟩ := readEvents_batch cfg env s count fill [] sy hmask hfill
    (by rw [hq]; rfl) (by intro e h; simp at h) hsy hcount
  have hpr : processRecords cfg s [] = s := rfl
  rw [hpr] at hq2
  refine ⟨_, _, _, hq2, ?_, ?_⟩
  · obtain ⟨hdata, _, _⟩ := flushLoop_out cfg env (timevalToNano sy.time) numSensors 0
      { obj := s, count := count, numEventReceived := 0, data := [] }
      (by simp) (by show (0 : Int) ≤ count; omega)
    rw [hdata]
    simp only [List.nil_append]
    rw [List.take_of_length_le (by show _ ≤ count.toNat; omega)]
    exact flushed_SM_once cfg s _ hd htag hp he
  · have hcap3 : ((pendingEnabled s 0 3).length : Int) < count := by
      have h := pendingEnabled_concat s 0 3
      have hpe : bitSet s.mPendingMask (0 + 3) ∧ bitSet s.mEnabled (0 + 3) := ⟨hp, he⟩
      rw [if_pos hpe] at h
      have h4 : pendingEnabled s 0 numSensors = pendingEnabled s 0 3 ++ [0 + 3] := h
      rw [h4] at hcap
      simp only [List.length_append, List.length_singleton, Nat.cast_add, Nat.cast_one] at hcap
      omega
    obtain ⟨r2, hr2, e1, e2, e3, e4⟩ := flushLoop_reach_SM cfg env (timevalToNano sy.time) 3 0
      { obj := s, count := count, numEventReceived := 0, data := [] } (by decide) hp hcap3
    have hfl : flushLoop cfg env (timevalToNano sy.time) numSensors 0
        { obj := s, count := count, numEventReceived := 0, data := [] } =
        flushRound cfg env (timevalToNano sy.time) SignificantMotion r2 := hr2
    have he2 : bitSet r2.obj.mEnabled SignificantMotion := by rw [e1]; exact he
    have hobj := flushRound_SM_obj cfg env (timevalToNano sy.time) r2 e4 he2
    have hsp := stampPending_frame r2.obj (timevalToNano sy.time) SignificantMotion
    obtain ⟨o1, o2, o3⟩ := enable_SM_off cfg env
      (stampPending r2.obj (timevalToNano sy.time) SignificantMotion) hd
      (by rw [hsp.1]; exact he2)
      (by rw [hsp.2.2.1, hsp.1, e3, e1]; exact href) hdis
    rw [hsp.1, e1] at o2 o3
    rw [hsp.2.1, e2] at o2 o3
    rw [hfl]
    refine ⟨?_, ?_, ?_, ?_⟩
    · show ¬ bitSet (flushRound cfg env (timevalToNano sy.time) SignificantMotion r2).obj.mEnabled
        SignificantMotion
      rw [hobj]; exact o1
    · intro hA
      show (flushRound cfg env (timevalToNano sy.time) SignificantMotion r2).obj.calls = _
      rw [hobj]; exact o2 hA
    · intro hA
      show (flushRound cfg env (timevalToNano sy.time) SignificantMotion r2).obj.calls = _
      rw [hobj]; exact o3 hA
    · intro ops s2 outs hallow hrun
      apply run_smOff cfg env hd ops _ s2 outs ?_ ?_ hallow hrun
      · intro j hj
        show ((flushRound cfg env (timevalToNano sy.time) SignificantMotion r2).obj.mPendingEvents
          j).sensor = _
        rw [← hfl, flushLoop_sensor cfg env _ numSensors 0 _ (by simp) j]
        exact htag j hj
      · show ¬ bitSet
          (flushRound cfg env (timevalToNano sy.time) SignificantMotion r2).obj.mEnabled
          SignificantMotion
        rw [hobj]; exact o1

/-- Witness of claim C4: only SignificantMotion enabled and pending, reference count 1,
one synchronization record, capacity 1. -/
theorem significant_motion_one_shot_witness :
    exampleConfig.handlesDistinct ∧ tagged exampleConfig (maskState 8 8 1) ∧
    PendingInRange (maskState 8 8 1) ∧
    bitSet (maskState 8 8 1).mPendingMask SignificantMotion ∧
    bitSet (maskState 8 8 1).mEnabled SignificantMotion ∧
    (maskState 8 8 1).mAccRefCount = accelUsers (maskState 8 8 1).mEnabled ∧
    (∀ c t, okEnv.akm_disable_sensor c t = 0) ∧ (0 : Int) ≤ 1 ∧
    (maskState 8 8 1).mInputReader ++ [synEvent] = [synEvent] ∧ synEvent.type = EV_SYN ∧
    ((pendingEnabled (maskState 8 8 1) 0 numSensors).length : Int) ≤ 1 ∧
    ∃ n out s1, readEvents exampleConfig okEnv (maskState 8 8 1) 1 (1, [synEvent]) =
        some (n, out, s1) ∧
      (out.filter (fun e => decide (e.sensor = exampleConfig.ID_SM))).length = 1 ∧
      ¬ bitSet s1.mEnabled SignificantMotion ∧
      (bitSet (maskState 8 8 1).mEnabled Accelerometer → s1.calls = (maskState 8 8 1).calls) ∧
      (¬ bitSet (maskState 8 8 1).mEnabled Accelerometer →
        s1.calls = (maskState 8 8 1).calls ++
          [Call.akm_disable_sensor SENSOR_TYPE_ACCELEROMETER]) ∧
      ∀ ops s2 outs, (∀ op ∈ ops, ∀ en, op = Op.enable exampleConfig.ID_SM en → en = 0) →
        run exampleConfig okEnv s1 ops = some (s2, outs) →
        ∀ e ∈ outs, e.sensor ≠ exampleConfig.ID_SM :=
  ⟨by decide, by decide, by decide, by decide, by decide, by decide, fun _ _ => rfl,
    by decide, rfl, by decide, by decide,
    significant_motion_one_shot exampleConfig okEnv (maskState 8 8 1) 1 (1, [synEvent])
      synEvent (by decide) (by decide) (by decide) (by decide) (by decide) (by decide)
      (fun _ _ => rfl) (by decide) rfl (by decide) (by decide)⟩

/-! ## Claims C11, C12: setDelay with a negative period, setDelay of SignificantMotion -/

/-- Claim C11: for every handle and every period `ns < 0`, `setDelay` returns `-EINVAL`
and leaves the whole object as it was: no call is made and no cell of `mDelays`
changes. -/
theorem setDelay_negative (cfg : Config) (env : Env) (s : AkmSensor) (handle ns : Int)
    (hns : ns < 0) : setDelay cfg env s handle ns = (-EINVAL, s) := by
  unfold setDelay
  simp only [if_pos hns]

/-- Witness of claim C11: the accelerometer handle with the period -1. -/
theorem setDelay_negative_witness :
    (-1 : Int) < 0 ∧
    setDelay exampleConfig okEnv (delayState 7 1) exampleConfig.ID_A (-1) =
      (-EINVAL, delayState 7 1) :=
  ⟨by decide, setDelay_negative exampleConfig okEnv (delayState 7 1) exampleConfig.ID_A (-1)
    (by decide)⟩

/-- Counterexample to claim C12 as stated: with the period -1 the call for the handle of
SignificantMotion does not return success but `-EINVAL`. -/
theorem setDelay_SM_negative_fails :
    (setDelay exampleConfig okEnv (delayState 7 1) exampleConfig.ID_SM (-1)).1 = -EINVAL ∧
    (setDelay exampleConfig okEnv (delayState 7 1) exampleConfig.ID_SM (-1)).1 ≠ 0 := by
  constructor <;> decide

/-- Claim C12 as amended: for every state and every period `ns ≥ 0`, `setDelay` for the
handle of SignificantMotion returns 0 and leaves the whole object as it was, the list of
calls included. -/
theorem setDelay_SM_noop (cfg : Config) (env : Env) (s : AkmSensor) (ns : Int)
    (hns : 0 ≤ ns) : setDelay cfg env s cfg.ID_SM ns = (0, s) := by
  have h : ¬ ns < 0 := by omega
  unfold setDelay
  simp only [if_neg h, if_true]

/-- Witness of claim C12 as amended: the period 20 ms. -/
theorem setDelay_SM_noop_witness :
    (0 : Int) ≤ 20000000 ∧
    setDelay exampleConfig okEnv (delayState 7 1) exampleConfig.ID_SM 20000000 =
      (0, delayState 7 1) :=
  ⟨by decide, setDelay_SM_noop exampleConfig okEnv (delayState 7 1) 20000000 (by decide)⟩

/-! ## Claim C18: the reference count follows the enabled bits -/

/-- The bits of the enabled mask after the block under `if (!err)`. -/
theorem commit_bit (m w i : Nat) (en : Int) (hw : w < 32) (hi : i < 32) :
    bitSet ((m &&& not32 (1 <<< w)) ||| ((if en ≠ 0 then 1 else 0) <<< w)) i ↔
      (if i = w then en ≠ 0 else bitSet m i) := by
  by_cases hen : en ≠ 0
  · rw [if_pos hen, bitSet_set, bitSet_clear _ _ _ hw]
    by_cases hiw : i = w
    · rw [if_pos hiw]; exact ⟨fun _ => hen, fun _ => Or.inr hiw⟩
    · rw [if_neg hiw]
      constructor
      · rintro (h | h)
        · exact h.1
        · exact absurd h hiw
      · intro h; exact Or.inl ⟨h, hi, hiw⟩
  · rw [if_neg hen, bitSet_zero_shift, bitSet_clear _ _ _ hw]
    by_cases hiw : i = w
    · rw [if_pos hiw]; exact ⟨fun h => absurd hiw h.2.2, fun h => absurd h hen⟩
    · rw [if_neg hiw]; exact ⟨fun h => h.1, fun h => ⟨h, hi, hiw⟩⟩

theorem ite_of_iff {p q : Prop} [Decidable p] [Decidable q] (h : p ↔ q) (a b : Int) :
    (if p then a else b) = (if q then a else b) := by
  by_cases hp : p
  · rw [if_pos hp, if_pos (h.mp hp)]
  · rw [if_neg hp, if_neg (fun hq => hp (h.mpr hq))]

theorem enable_commit_fields (s : AkmSensor) (en : Int) (w t f : Nat) (c : List Call) :
    (enable_commit s en w t f c).mEnabled = (s.mEnabled &&& not32 (1 <<< w)) ||| (f <<< w) ∧
    (enable_commit s en w t f c).mAccRefCount =
      (if t = SENSOR_TYPE_ACCELEROMETER then
        (if en ≠ 0 then s.mAccRefCount + 1 else s.mAccRefCount - 1)
      else s.mAccRefCount) := ⟨rfl, rfl⟩

/-- Claim C18: when the reference count equals the number of enabled sensors among
Accelerometer and SignificantMotion, it does so again after any `enable` call, whatever
the backend answers; the count moves by exactly one (up when enabling, down when
disabling) when a transition of Accelerometer or SignificantMotion succeeds, and stays as
it is in every other case, in particular for MagneticField and Orientation. -/
theorem enable_refcount_invariant (cfg : Config) (env : Env) (s : AkmSensor)
    (handle en : Int) (href : s.mAccRefCount = accelUsers s.mEnabled) :
    (enable cfg env s handle en).2.mAccRefCount =
      accelUsers (enable cfg env s handle en).2.mEnabled ∧
    ((accelTransition cfg s handle en ∧ (enable cfg env s handle en).1 = 0) →
      (enable cfg env s handle en).2.mAccRefCount =
        s.mAccRefCount + (if en ≠ 0 then 1 else -1)) ∧
    (¬ (accelTransition cfg s handle en ∧ (enable cfg env s handle en).1 = 0) →
      (enable cfg env s handle en).2.mAccRefCount = s.mAccRefCount) := by
  rcases enable_what_cases cfg handle with hw | ⟨w, hlt, hw⟩
  · rw [enable_invalid cfg env s handle en hw]
    refine ⟨href, ?_, fun _ => rfl⟩
    rintro ⟨⟨h | h, _⟩, _⟩
    · rw [hw] at h; exact absurd h (by decide)
    · rw [hw] at h; exact absurd h (by decide)
  · have htr : accelTransition cfg s handle en ↔
        ((w = Accelerometer ∨ w = SignificantMotion) ∧
          ¬ ((en ≠ 0) ↔ bitSet s.mEnabled w)) := by
      unfold accelTransition
      rw [hw, Int.toNat_ofNat]
      constructor
      · rintro ⟨h | h, h2⟩
        · exact ⟨Or.inl (by exact_mod_cast h), h2⟩
        · exact ⟨Or.inr (by exact_mod_cast h), h2⟩
      · rintro ⟨h | h, h2⟩
        · exact ⟨Or.inl (by rw [h]), h2⟩
        · exact ⟨Or.inr (by rw [h]), h2⟩
    rw [htr, enable_eq cfg env s handle en w hw hlt]
    by_cases hc : ((en ≠ 0) ↔ bitSet s.mEnabled w)
    · rw [if_pos hc]
      exact ⟨href, fun h => absurd hc h.1.2, fun _ => rfl⟩
    · rw [if_neg hc]
      by_cases herr : (enable_err env s en (enable_sensor_type w)).1 = 0
      · rw [if_pos herr]
        simp only [enable_commit_fields]
        unfold accelUsers at href
        have hw4 : w = 0 ∨ w = 1 ∨ w = 2 ∨ w = 3 := by omega
        rcases hw4 with rfl | rfl | rfl | rfl
        · have ht : enable_sensor_type 0 = SENSOR_TYPE_ACCELEROMETER := by decide
          have hc0 : ¬ ((en ≠ 0) ↔ bitSet s.mEnabled Accelerometer) := hc
          have hbm : bitSet ((s.mEnabled &&& not32 (1 <<< 0)) |||
              ((if en ≠ 0 then 1 else 0) <<< 0)) Accelerometer ↔ en ≠ 0 := by
            have h := commit_bit s.mEnabled 0 Accelerometer en (by omega) (by decide)
            rwa [if_pos (by decide : Accelerometer = 0)] at h
          have hbo : bitSet ((s.mEnabled &&& not32 (1 <<< 0)) |||
              ((if en ≠ 0 then 1 else 0) <<< 0)) SignificantMotion ↔
              bitSet s.mEnabled SignificantMotion := by
            have h := commit_bit s.mEnabled 0 SignificantMotion en (by omega) (by decide)
            rwa [if_neg (by decide : ¬ SignificantMotion = 0)] at h
          unfold accelUsers
          rw [ite_of_iff hbm, ite_of_iff hbo, ht, if_pos rfl]
          refine ⟨?_, fun _ => by split <;> omega,
            fun hn => absurd ⟨⟨Or.inl rfl, hc⟩, trivial⟩ hn⟩
          by_cases hen : en ≠ 0 <;> by_cases h0 : bitSet s.mEnabled Accelerometer <;>
            by_cases h3 : bitSet s.mEnabled SignificantMotion <;>
            simp only [hen, h0, h3, if_true, if_false, not_true_eq_false, not_false_eq_true,
              ne_eq, iff_true, iff_false, true_iff, false_iff] at href hc0 ⊢ <;>
            omega
        · have ht : ¬ enable_sensor_type 1 = SENSOR_TYPE_ACCELEROMETER := by decide
          have hb0 : bitSet ((s.mEnabled &&& not32 (1 <<< 1)) |||
              ((if en ≠ 0 then 1 else 0) <<< 1)) Accelerometer ↔
              bitSet s.mEnabled Accelerometer := by
            have h := commit_bit s.mEnabled 1 Accelerometer en (by omega) (by decide)
            rwa [if_neg (by decide : ¬ Accelerometer = 1)] at h
          have hb3 : bitSet ((s.mEnabled &&& not32 (1 <<< 1)) |||
              ((if en ≠ 0 then 1 else 0) <<< 1)) SignificantMotion ↔
              bitSet s.mEnabled SignificantMotion := by
            have h := commit_bit s.mEnabled 1 SignificantMotion en (by omega) (by decide)
            rwa [if_neg (by decide : ¬ SignificantMotion = 1)] at h
          unfold accelUsers
          rw [ite_of_iff hb0, ite_of_iff hb3, if_neg ht]
          refine ⟨href, ?_, fun _ => rfl⟩
          rintro ⟨⟨h | h, _⟩, _⟩
          · exact absurd h (by decide)
          · exact absurd h (by decide)
        · have ht : ¬ enable_sensor_type 2 = SENSOR_TYPE_ACCELEROMETER := by decide
          have hb0 : bitSet ((s.mEnabled &&& not32 (1 <<< 2)) |||
              ((if en ≠ 0 then 1 else 0) <<< 2)) Accelerometer ↔
              bitSet s.mEnabled Accelerometer := by
            have h := commit_bit s.mEnabled 2 Accelerometer en (by omega) (by decide)
            rwa [if_neg (by decide : ¬ Accelerometer = 2)] at h
          have hb3 : bitSet ((s.mEnabled &&& not32 (1 <<< 2)) |||
              ((if en ≠ 0 then 1 else 0) <<< 2)) SignificantMotion ↔
              bitSet s.mEnabled SignificantMotion := by
            have h := commit_bit s.mEnabled 2 SignificantMotion en (by omega) (by decide)
            rwa [if_neg (by decide : ¬ SignificantMotion = 2)] at h
          unfold accelUsers
          rw [ite_of_iff hb0, ite_of_iff hb3, if_neg ht]
          refine ⟨href, ?_, fun _ => rfl⟩
          rintro ⟨⟨h | h, _⟩, _⟩
          · exact absurd h (by decide)
          · exact absurd h (by decide)
        · have ht : enable_sensor_type 3 = SENSOR_TYPE_ACCELEROMETER := by decide
          have hc0 : ¬ ((en ≠ 0) ↔ bitSet s.mEnabled SignificantMotion) := hc
          have hbm : bitSet ((s.mEnabled &&& not32 (1 <<< 3)) |||
              ((if en ≠ 0 then 1 else 0) <<< 3)) SignificantMotion ↔ en ≠ 0 := by
            have h := commit_bit s.mEnabled 3 SignificantMotion en (by omega) (by decide)
            rwa [if_pos (by decide : SignificantMotion = 3)] at h
          have hbo : bitSet ((s.mEnabled &&& not32 (1 <<< 3)) |||
              ((if en ≠ 0 then 1 else 0) <<< 3)) Accelerometer ↔
              bitSet s.mEnabled Accelerometer := by
            have h := commit_bit s.mEnabled 3 Accelerometer en (by omega) (by decide)
            rwa [if_neg (by decide : ¬ Accelerometer = 3)] at h
          unfold accelUsers
          rw [ite_of_iff hbm, ite_of_iff hbo, ht, if_pos rfl]
          refine ⟨?_, fun _ => by split <;> omega,
            fun hn => absurd ⟨⟨Or.inr rfl, hc⟩, trivial⟩ hn⟩
          by_cases hen : en ≠ 0 <;> by_cases h0 : bitSet s.mEnabled Accelerometer <;>
            by_cases h3 : bitSet s.mEnabled SignificantMotion <;>
            simp only [hen, h0, h3, if_true, if_false, not_true_eq_false, not_false_eq_true,
              ne_eq, iff_true, iff_false, true_iff, false_iff] at href hc0 ⊢ <;>
            omega
      · rw [if_neg herr]
        refine ⟨href, fun h => absurd h.2 herr, fun _ => rfl⟩

/-- Witness of claim C18: Accelerometer enabled with reference count 1, and
SignificantMotion is enabled on top. -/
theorem enable_refcount_invariant_witness :
    (maskState 1 0 1).mAccRefCount = accelUsers (maskState 1 0 1).mEnabled ∧
    ((enable exampleConfig okEnv (maskState 1 0 1) exampleConfig.ID_SM 1).2.mAccRefCount =
      accelUsers (enable exampleConfig okEnv (maskState 1 0 1) exampleConfig.ID_SM 1).2.mEnabled ∧
    ((accelTransition exampleConfig (maskState 1 0 1) exampleConfig.ID_SM 1 ∧
        (enable exampleConfig okEnv (maskState 1 0 1) exampleConfig.ID_SM 1).1 = 0) →
      (enable exampleConfig okEnv (maskState 1 0 1) exampleConfig.ID_SM 1).2.mAccRefCount =
        (maskState 1 0 1).mAccRefCount + (if (1 : Int) ≠ 0 then 1 else -1)) ∧
    (¬ (accelTransition exampleConfig (maskState 1 0 1) exampleConfig.ID_SM 1 ∧
        (enable exampleConfig okEnv (maskState 1 0 1) exampleConfig.ID_SM 1).1 = 0) →
      (enable exampleConfig okEnv (maskState 1 0 1) exampleConfig.ID_SM 1).2.mAccRefCount =
        (maskState 1 0 1).mAccRefCount)) ∧
    accelTransition exampleConfig (maskState 1 0 1) exampleConfig.ID_SM 1 ∧
    (enable exampleConfig okEnv (maskState 1 0 1) exampleConfig.ID_SM 1).2.mAccRefCount = 2 :=
  ⟨by decide,
    enable_refcount_invariant exampleConfig okEnv (maskState 1 0 1) exampleConfig.ID_SM 1
      (by decide),
    by decide, by decide⟩

/-! ## Claim C15: the conversion to milliseconds in update_delay -/

/-- The loop of `update_delay` ends with the delay of any enabled sensor that has the
least delay, as long as that delay fits a `uint64_t`. -/
theorem update_delay_loop_min (s : AkmSensor) (i : Nat) (hi : i < numSensors)
    (hb : bitSet s.mEnabled i)
    (hmin : ∀ k, k < numSensors → bitSet s.mEnabled k → s.mDelays (i : Int) ≤ s.mDelays (k : Int))
    (hm : s.mDelays (i : Int) ≤ 18446744073709551615) :
    update_delay_loop s numSensors 0 18446744073709551615 = s.mDelays (i : Int) := by
  obtain ⟨h1, h2, h3⟩ := update_delay_loop_spec s numSensors 0 18446744073709551615
  have hle := h2 i (Nat.zero_le _) (by omega) hb
  rcases h3 with h3 | ⟨k, _, hk2, hbk, hk3⟩
  · omega
  · have := hmin k (by omega) hbk
    omega

/-- The value handed to the delay ioctl in terms of the least delay `m` of an enabled
sensor, for `m` below `2 ^ 63`: the whole milliseconds of `m`, converted to `short`. -/
theorem update_delay_value_of_min (s : AkmSensor) (i : Nat) (hi : i < numSensors)
    (hb : bitSet s.mEnabled i)
    (hmin : ∀ k, k < numSensors → bitSet s.mEnabled k → s.mDelays (i : Int) ≤ s.mDelays (k : Int))
    (hm : s.mDelays (i : Int) < 9223372036854775808) :
    update_delay_value s = toShort ((s.mDelays (i : Int) / 1000000 : Nat) : Int) := by
  unfold update_delay_value
  rw [update_delay_loop_min s i hi hb hmin (by omega), int64_t_small _ hm]
  rfl

/-- Counterexample to claim C15 as stated: with the accelerometer enabled at a period of
40 s, whose whole milliseconds are 40000, `update_delay` hands -25536 to the device. -/
theorem update_delay_short_wraps :
    bitSet longDelayState.mEnabled Accelerometer ∧
    longDelayState.mDelays (Accelerometer : Int) = 40000000000 ∧
    (40000000000 : Nat) / 1000000 = 40000 ∧
    (update_delay okEnv longDelayState).2.calls =
      longDelayState.calls ++ [Call.ioctl_set_delay (-25536)] := by
  refine ⟨by decide, by decide, by decide, by decide⟩

/-- Claim C15 as amended: when the least delay `m` among the enabled sensors is below
32768 ms, `update_delay` hands the whole milliseconds `m / 1000000` to the device. -/
theorem update_delay_milliseconds (env : Env) (s : AkmSensor) (i : Nat)
    (hi : i < numSensors) (hb : bitSet s.mEnabled i)
    (hmin : ∀ k, k < numSensors → bitSet s.mEnabled k → s.mDelays (i : Int) ≤ s.mDelays (k : Int))
    (hm : s.mDelays (i : Int) < 32768000000) :
    (update_delay env s).2.calls =
      s.calls ++ [Call.ioctl_set_delay ((s.mDelays (i : Int) / 1000000 : Nat) : Int)] := by
  rw [update_delay_eq env s (mEnabled_ne_zero_of_bitSet _ i hb),
    update_delay_value_of_min s i hi hb hmin (by omega)]
  have h1 : s.mDelays (i : Int) / 1000000 ≤ 32767 := by omega
  rw [toShort_small _ (by omega) (by omega)]

/-- Witness of claim C15 as amended: Accelerometer (20 ms) and MagneticField (50 ms)
enabled. -/
theorem update_delay_milliseconds_witness :
    Accelerometer < numSensors ∧ bitSet (delayState 3 1).mEnabled Accelerometer ∧
    (∀ k, k < numSensors → bitSet (delayState 3 1).mEnabled k →
      (delayState 3 1).mDelays (Accelerometer : Int) ≤ (delayState 3 1).mDelays (k : Int)) ∧
    (delayState 3 1).mDelays (Accelerometer : Int) < 32768000000 ∧
    (update_delay okEnv (delayState 3 1)).2.calls = (delayState 3 1).calls ++
      [Call.ioctl_set_delay
        (((delayState 3 1).mDelays (Accelerometer : Int) / 1000000 : Nat) : Int)] := by
  have hmin : ∀ k, k < numSensors → bitSet (delayState 3 1).mEnabled k →
      (delayState 3 1).mDelays (Accelerometer : Int) ≤ (delayState 3 1).mDelays (k : Int) := by
    intro k hk hb
    have : k = 0 ∨ k = 1 ∨ k = 2 ∨ k = 3 := by unfold numSensors at hk; omega
    rcases this with h | h | h | h <;> subst h
    · decide
    · decide
    · exact absurd hb (by decide)
    · exact absurd hb (by decide)
  exact ⟨by decide, by decide, hmin, by decide,
    update_delay_milliseconds okEnv (delayState 3 1) Accelerometer (by decide) (by decide)
      hmin (by decide)⟩

/-! ## Claim C16: the motion heuristic -/

/-- The test of the heuristic on the difference cut to an `int`: it holds exactly when
the difference is at least 2 in absolute value. -/
theorem truncToInt_fires (q : ℚ) : (truncToInt q > 1 ∨ truncToInt q < -1) ↔ 2 ≤ |q| := by
  unfold truncToInt
  by_cases h : 0 ≤ q
  · rw [if_pos h, abs_of_nonneg h]
    have hf : (0 : Int) ≤ ⌊q⌋ := Int.floor_nonneg.mpr h
    constructor
    · rintro (h1 | h1)
      · have h2 : (2 : Int) ≤ ⌊q⌋ := by omega
        have := Int.le_floor.mp h2
        simpa using this
      · omega
    · intro h2
      left
      have : (2 : Int) ≤ ⌊q⌋ := Int.le_floor.mpr (by simpa using h2)
      omega
  · rw [if_neg h]
    have hq : q < 0 := lt_of_not_ge h
    rw [abs_of_neg hq]
    have hc : ⌈q⌉ ≤ (0 : Int) := Int.ceil_le.mpr (by simpa using le_of_lt hq)
    constructor
    · rintro (h1 | h1)
      · omega
      · have h2 : ⌈q⌉ ≤ (-2 : Int) := by omega
        have := Int.ceil_le.mp h2
        have h3 : q ≤ -2 := by simpa using this
        linarith
    · intro h2
      right
      have : ⌈q⌉ ≤ (-2 : Int) := Int.ceil_le.mpr (by push_cast; linarith)
      omega

/-- A `float` below `2 ^ 31` in absolute value is cut to a value that fits an `int`. -/
theorem truncToInt_range (q : ℚ) (h : |q| < 2147483648) :
    -2147483648 < truncToInt q ∧ truncToInt q < 2147483648 := by
  obtain ⟨h1, h2⟩ := abs_lt.mp h
  unfold truncToInt
  by_cases h0 : 0 ≤ q
  · rw [if_pos h0]
    have hf : (0 : Int) ≤ ⌊q⌋ := Int.floor_nonneg.mpr h0
    have hlt : ⌊q⌋ < (2147483648 : Int) := Int.floor_lt.mpr (by push_cast; exact h2)
    omega
  · rw [if_neg h0]
    have hq : q < 0 := lt_of_not_ge h0
    have hc : ⌈q⌉ ≤ (0 : Int) := Int.ceil_le.mpr (by simpa using le_of_lt hq)
    have hgt : (-2147483648 : Int) < ⌈q⌉ := Int.lt_ceil.mpr (by push_cast; exact h1)
    omega

theorem axisUpdate_fields (s : AkmSensor) (j : Nat) (e : sensors_event_t) :
    (axisUpdate s j e).mPendingMask = s.mPendingMask ||| (1 <<< j) ∧
    (axisUpdate s j e).mPendingEvents j = e ∧
    (∀ i, i ≠ j → (axisUpdate s j e).mPendingEvents i = s.mPendingEvents i) ∧
    (axisUpdate s j e).mMotionValue = s.mMotionValue ∧
    (axisUpdate s j e).mEnabled = s.mEnabled := by
  refine ⟨rfl, ?_, ?_, rfl, rfl⟩
  · unfold axisUpdate setEvent; simp
  · intro i hi; unfold axisUpdate setEvent; simp [Function.update_noteq hi]

/-- What the motion heuristic does to an object whose accelerometer record holds the new
z value. -/
theorem motionHeuristic_spec (cfg : Config) (s1 : AkmSensor) :
    (motionHeuristic cfg s1).mMotionValue =
      (if cfg.motionValueIsInt
        then (truncToInt (s1.mPendingEvents Accelerometer).data2 : ℚ)
        else (s1.mPendingEvents Accelerometer).data2) ∧
    (bitSet (motionHeuristic cfg s1).mPendingMask SignificantMotion ↔
      (bitSet s1.mPendingMask SignificantMotion ∨
        2 ≤ |motionDiff cfg s1 (s1.mPendingEvents Accelerometer).data2|)) ∧
    ((motionHeuristic cfg s1).mPendingEvents SignificantMotion).data0 =
      (if 2 ≤ |motionDiff cfg s1 (s1.mPendingEvents Accelerometer).data2| then 1
        else (s1.mPendingEvents SignificantMotion).data0) ∧
    (motionHeuristic cfg s1).mPendingEvents Accelerometer = s1.mPendingEvents Accelerometer ∧
    (motionHeuristic cfg s1).mEnabled = s1.mEnabled := by
  unfold motionDiff
  have hf := truncToInt_fires
    (floatSub cfg (motionBaseline cfg s1) (s1.mPendingEvents Accelerometer).data2)
  unfold motionHeuristic
  simp only []
  by_cases hfire :
      truncToInt (floatSub cfg (motionBaseline cfg s1)
        (s1.mPendingEvents Accelerometer).data2) > 1 ∨
      truncToInt (floatSub cfg (motionBaseline cfg s1)
        (s1.mPendingEvents Accelerometer).data2) < -1
  · rw [if_pos (show _ from hfire), if_pos (hf.mp hfire)]
    obtain ⟨a1, a2, a3, a4, a5⟩ := axisUpdate_fields
      { s1 with mMotionValue := if cfg.motionValueIsInt
          then (truncToInt (s1.mPendingEvents Accelerometer).data2 : ℚ)
          else (s1.mPendingEvents Accelerometer).data2 }
      SignificantMotion
      { s1.mPendingEvents SignificantMotion with data0 := 1 }
    refine ⟨a4, ?_, ?_, ?_, a5⟩
    · rw [a1, bitSet_set]
      exact ⟨fun _ => Or.inr (hf.mp hfire), fun _ => Or.inr rfl⟩
    · rw [a2]
    · rw [a3 Accelerometer (by decide)]
  · rw [if_neg (show ¬ _ from hfire), if_neg (fun h => hfire (hf.mpr h))]
    refine ⟨rfl, ?_, rfl, rfl, rfl⟩
    exact ⟨fun h => Or.inl h, fun h => h.elim id (fun h2 => absurd (hf.mpr h2) hfire)⟩

/-- What `processEvent` does with a z value of the accelerometer. -/
theorem processEvent_accel_z (cfg : Config) (s : AkmSensor) (v : Int)
    (hX : cfg.EVENT_TYPE_ACCEL_Z ≠ cfg.EVENT_TYPE_ACCEL_X)
    (hY : cfg.EVENT_TYPE_ACCEL_Z ≠ cfg.EVENT_TYPE_ACCEL_Y) :
    ((processEvent cfg s cfg.EVENT_TYPE_ACCEL_Z v).mPendingEvents Accelerometer).data2 =
      accelZ cfg v ∧
    (processEvent cfg s cfg.EVENT_TYPE_ACCEL_Z v).mMotionValue =
      (if cfg.motionValueIsInt then (truncToInt (accelZ cfg v) : ℚ) else accelZ cfg v) ∧
    (bitSet (processEvent cfg s cfg.EVENT_TYPE_ACCEL_Z v).mPendingMask SignificantMotion ↔
      (bitSet s.mPendingMask SignificantMotion ∨
        2 ≤ |motionDiff cfg s (accelZ cfg v)|)) ∧
    ((processEvent cfg s cfg.EVENT_TYPE_ACCEL_Z v).mPendingEvents SignificantMotion).data0 =
      (if 2 ≤ |motionDiff cfg s (accelZ cfg v)| then 1
        else (s.mPendingEvents SignificantMotion).data0) ∧
    (processEvent cfg s cfg.EVENT_TYPE_ACCEL_Z v).mEnabled = s.mEnabled := by
  have hpe : processEvent cfg s cfg.EVENT_TYPE_ACCEL_Z v =
      motionHeuristic cfg (axisUpdate s Accelerometer
        { s.mPendingEvents Accelerometer with data2 := accelZ cfg v }) := by
    unfold processEvent
    rw [if_neg hX, if_neg hY, if_pos rfl]
    rfl
  obtain ⟨a1, a2, a3, a4, a5⟩ := axisUpdate_fields s Accelerometer
    { s.mPendingEvents Accelerometer with data2 := accelZ cfg v }
  obtain ⟨m1, m2, m3, m4, m5⟩ := motionHeuristic_spec cfg (axisUpdate s Accelerometer
    { s.mPendingEvents Accelerometer with data2 := accelZ cfg v })
  have hdiff : ∀ z, motionDiff cfg (axisUpdate s Accelerometer
      { s.mPendingEvents Accelerometer with data2 := accelZ cfg v }) z =
      motionDiff cfg s z := fun _ => rfl
  rw [a2] at m1 m2 m3
  rw [hdiff] at m2 m3
  rw [a3 SignificantMotion (by decide)] at m3
  rw [hpe]
  refine ⟨?_, m1, ?_, m3, m5.trans a5⟩
  · rw [m4, a2]
  · rw [m2, a1, bitSet_set]
    constructor
    · rintro ((h | h) | h)
      · exact Or.inl h
      · exact absurd h (by decide)
      · exact Or.inr h
    · rintro (h | h)
      · exact Or.inl (Or.inl h)
      · exact Or.inr h

/-- Counterexample to claim C16 as stated, in binary32 arithmetic with the calibration
factor 1/2: from the baseline 0 the raw value 3 stores the z value 3/2, which differs
from the baseline by more than 1, but SignificantMotion does not become pending and its
flag stays 0. -/
theorem motion_heuristic_misses_between_one_and_two :
    ((processEvent halfConfig exampleState halfConfig.EVENT_TYPE_ACCEL_Z 3).mPendingEvents
      Accelerometer).data2 = 3 / 2 ∧
    1 < |exampleState.mMotionValue - 3 / 2| ∧
    ¬ bitSet (processEvent halfConfig exampleState halfConfig.EVENT_TYPE_ACCEL_Z 3).mPendingMask
      SignificantMotion ∧
    ((processEvent halfConfig exampleState halfConfig.EVENT_TYPE_ACCEL_Z 3).mPendingEvents
      SignificantMotion).data0 = 0 := by
  have hz : accelZ halfConfig 3 = 3 / 2 := by decide!
  have hd : motionDiff halfConfig exampleState (3 / 2) = -(3 / 2) := by decide!
  have hm : ¬ bitSet exampleState.mPendingMask SignificantMotion := by decide
  have h0 : (exampleState.mPendingEvents SignificantMotion).data0 = 0 := rfl
  have hb : exampleState.mMotionValue = 0 := rfl
  obtain ⟨p1, _, p3, p4, _⟩ := processEvent_accel_z halfConfig exampleState 3
    (by decide) (by decide)
  rw [hz] at p1
  rw [hz, hd] at p3 p4
  have habs : ¬ (2 : ℚ) ≤ |(-(3 / 2) : ℚ)| := by
    rw [abs_neg, abs_of_nonneg (by norm_num)]; norm_num
  refine ⟨p1, ?_, ?_, ?_⟩
  · rw [hb, zero_sub, abs_neg, abs_of_nonneg (by norm_num)]; norm_num
  · rw [p3]
    rintro (h | h)
    · exact hm h
    · exact habs h
  · rw [p4, if_neg habs, h0]

/-- Claim C16 as amended: for every state and every raw z value `v` of the accelerometer,
as long as the `float` values involved are below `2 ^ 31` in absolute value (so that
their conversions to `int` are defined), `processEvent` stores the `float` product
`v * CONVERT_A_Z` as the z value; `mMotionValue` becomes that value (cut to an integer
when the member is an `int`); SignificantMotion becomes pending and its flag becomes 1
if and only if the `float` difference between the old baseline and the new z value is at
least 2 in absolute value, which is when that difference cut to an `int` is above 1 or
below -1; the enabled mask plays no part and stays as it is. -/
theorem motion_heuristic_threshold (cfg : Config) (s : AkmSensor) (v : Int)
    (hX : cfg.EVENT_TYPE_ACCEL_Z ≠ cfg.EVENT_TYPE_ACCEL_X)
    (hY : cfg.EVENT_TYPE_ACCEL_Z ≠ cfg.EVENT_TYPE_ACCEL_Y)
    (hz : |accelZ cfg v| < 2147483648)
    (hd : |motionDiff cfg s (accelZ cfg v)| < 2147483648) :
    ((processEvent cfg s cfg.EVENT_TYPE_ACCEL_Z v).mPendingEvents Accelerometer).data2 =
      accelZ cfg v ∧
    (processEvent cfg s cfg.EVENT_TYPE_ACCEL_Z v).mMotionValue =
      (if cfg.motionValueIsInt then (truncToInt (accelZ cfg v) : ℚ) else accelZ cfg v) ∧
    (bitSet (processEvent cfg s cfg.EVENT_TYPE_ACCEL_Z v).mPendingMask SignificantMotion ↔
      (bitSet s.mPendingMask SignificantMotion ∨
        2 ≤ |motionDiff cfg s (accelZ cfg v)|)) ∧
    ((processEvent cfg s cfg.EVENT_TYPE_ACCEL_Z v).mPendingEvents SignificantMotion).data0 =
      (if 2 ≤ |motionDiff cfg s (accelZ cfg v)| then 1
        else (s.mPendingEvents SignificantMotion).data0) ∧
    (2 ≤ |motionDiff cfg s (accelZ cfg v)| ↔
      (truncToInt (motionDiff cfg s (accelZ cfg v)) > 1 ∨
        truncToInt (motionDiff cfg s (accelZ cfg v)) < -1)) ∧
    (-2147483648 < truncToInt (motionDiff cfg s (accelZ cfg v)) ∧
      truncToInt (motionDiff cfg s (accelZ cfg v)) < 2147483648) ∧
    (-2147483648 < truncToInt (accelZ cfg v) ∧ truncToInt (accelZ cfg v) < 2147483648) ∧
    (processEvent cfg s cfg.EVENT_TYPE_ACCEL_Z v).mEnabled = s.mEnabled := by
  obtain ⟨p1, p2, p3, p4, p5⟩ := processEvent_accel_z cfg s v hX hY
  exact ⟨p1, p2, p3, p4, (truncToInt_fires _).symm, truncToInt_range _ hd,
    truncToInt_range _ hz, p5⟩

/-- Witness of claim C16 as amended, in binary32 arithmetic with the calibration factor
`0.01f`: the raw value 200 stores the z value 2 (the exact product is below 2), and from
the baseline 0 SignificantMotion becomes pending.  With the factor 1 the raw value
16777217 stores 16777216, the nearest `float`. -/
theorem motion_heuristic_threshold_witness :
    centiConfig.EVENT_TYPE_ACCEL_Z ≠ centiConfig.EVENT_TYPE_ACCEL_X ∧
    centiConfig.EVENT_TYPE_ACCEL_Z ≠ centiConfig.EVENT_TYPE_ACCEL_Y ∧
    |accelZ centiConfig 200| < 2147483648 ∧
    |motionDiff centiConfig exampleState (accelZ centiConfig 200)| < 2147483648 ∧
    (((processEvent centiConfig exampleState centiConfig.EVENT_TYPE_ACCEL_Z
        200).mPendingEvents Accelerometer).data2 = accelZ centiConfig 200 ∧
    (processEvent centiConfig exampleState centiConfig.EVENT_TYPE_ACCEL_Z 200).mMotionValue =
      (if centiConfig.motionValueIsInt then (truncToInt (accelZ centiConfig 200) : ℚ)
        else accelZ centiConfig 200) ∧
    (bitSet (processEvent centiConfig exampleState centiConfig.EVENT_TYPE_ACCEL_Z
        200).mPendingMask SignificantMotion ↔
      (bitSet exampleState.mPendingMask SignificantMotion ∨
        2 ≤ |motionDiff centiConfig exampleState (accelZ centiConfig 200)|)) ∧
    ((processEvent centiConfig exampleState centiConfig.EVENT_TYPE_ACCEL_Z
        200).mPendingEvents SignificantMotion).data0 =
      (if 2 ≤ |motionDiff centiConfig exampleState (accelZ centiConfig 200)| then 1
        else (exampleState.mPendingEvents SignificantMotion).data0) ∧
    (2 ≤ |motionDiff centiConfig exampleState (accelZ centiConfig 200)| ↔
      (truncToInt (motionDiff centiConfig exampleState (accelZ centiConfig 200)) > 1 ∨
        truncToInt (motionDiff centiConfig exampleState (accelZ centiConfig 200)) < -1)) ∧
    (-2147483648 < truncToInt (motionDiff centiConfig exampleState (accelZ centiConfig 200)) ∧
      truncToInt (motionDiff centiConfig exampleState (accelZ centiConfig 200)) <
        2147483648) ∧
    (-2147483648 < truncToInt (accelZ centiConfig 200) ∧
      truncToInt (accelZ centiConfig 200) < 2147483648) ∧
    (processEvent centiConfig exampleState centiConfig.EVENT_TYPE_ACCEL_Z 200).mEnabled =
      exampleState.mEnabled) ∧
    accelZ centiConfig 200 = 2 ∧
    (200 : ℚ) * centiConfig.CONVERT_A_Z < 2 ∧
    motionDiff centiConfig exampleState (accelZ centiConfig 200) = -2 ∧
    bitSet (processEvent centiConfig exampleState centiConfig.EVENT_TYPE_ACCEL_Z
      200).mPendingMask SignificantMotion ∧
    accelZ exampleConfig 16777217 = 16777216 :=
  ⟨by decide, by decide, by decide!, by decide!,
    motion_heuristic_threshold centiConfig exampleState 200 (by decide) (by decide)
      (by decide!) (by decide!),
    by decide!, by decide!, by decide!, by decide!, by decide!⟩

/-! ## The outer loop returns, and what it counts -/

theorem flushLoop_inRange (cfg : Config) (env : Env) (time : Int) (r : ReadState)
    (h : PendingInRange r.obj) :
    PendingInRange (flushLoop cfg env time numSensors 0 r).obj :=
  mask_lt_of_bits _ _ h (flushLoop_mask cfg env time numSensors 0 r (by simp)).1

/-- With no pending bit from `numSensors` on, the outer loop of `readEvents` ends. -/
theorem readLoop_total (cfg : Config) (env : Env) (q : List input_event) :
    ∀ r : ReadState, PendingInRange r.obj → ∃ r1, readLoop cfg env q r = some r1 := by
  induction q with
  | nil => intro r _; exact ⟨_, readLoop_nil cfg env r⟩
  | cons event rest ih =>
    intro r hm
    rw [readLoop_cons]
    split
    · exact ⟨_, rfl⟩
    · split
      · exact ih { r with obj := processEvent cfg r.obj event.code event.value }
          (processEvent_mask_lt cfg r.obj event.code event.value hm)
      · split
        · have hm1 := flushLoop_inRange cfg env (timevalToNano event.time) r hm
          obtain ⟨_, h2⟩ := flushLoop_mask cfg env (timevalToNano event.time) numSensors 0 r
            (by simp)
          split
          · exact ih _ hm1
          · rename_i hz
            split
            · exact ⟨_, rfl⟩
            · rename_i hc
              exfalso
              rcases h2 with h2 | h2
              · exact hc h2
              · exact hz (mask_eq_zero _ hm1 (fun i hi => h2 i (Nat.zero_le _) hi))
        · exact ih r hm

/-- The bookkeeping of the outer loop: the records written, the capacity used up and
the counter `numEventReceived` move by the same number, and the capacity does not drop
below zero. -/
theorem readLoop_counts (cfg : Config) (env : Env) (q : List input_event) :
    ∀ (r r1 : ReadState), 0 ≤ r.count → readLoop cfg env q r = some r1 →
      0 ≤ r1.count ∧ ∃ k : Nat, r1.data.length = r.data.length + k ∧
        r1.count = r.count - (k : Int) ∧
        r1.numEventReceived = r.numEventReceived + (k : Int) := by
  induction q with
  | nil =>
    intro r r1 hc h
    rw [readLoop_nil] at h
    injection h with h; subst h
    exact ⟨hc, 0, by simp, by simp, by simp⟩
  | cons event rest ih =>
    intro r r1 hc h
    rw [readLoop_cons] at h
    split at h
    · injection h with h; subst h
      exact ⟨hc, 0, by simp, by simp, by simp⟩
    · split at h
      · exact ih { r with obj := processEvent cfg r.obj event.code event.value } r1 hc h
      · split at h
        · obtain ⟨f1, f2, f3⟩ := flushLoop_out cfg env (timevalToNano event.time) numSensors 0 r
            (by simp) hc
          have hlen : ((pendingEnabled r.obj 0 numSensors).take r.count.toNat).length ≤
              r.count.toNat := List.length_take_le _ _
          have hc1 : 0 ≤ (flushLoop cfg env (timevalToNano event.time) numSensors 0 r).count := by
            rw [f2]; omega
          have hd1 : (flushLoop cfg env (timevalToNano event.time) numSensors 0 r).data.length =
              r.data.length + ((pendingEnabled r.obj 0 numSensors).take r.count.toNat).length := by
            rw [f1, List.length_append, List.length_map]
          split at h
          · obtain ⟨i1, k, i2, i3, i4⟩ := ih _ r1 hc1 h
            refine ⟨i1, ((pendingEnabled r.obj 0 numSensors).take r.count.toNat).length + k,
              ?_, ?_, ?_⟩
            · rw [i2, hd1]; omega
            · rw [i3, f2]; push_cast; omega
            · rw [i4, f3]; push_cast; omega
          · split at h
            · injection h with h; subst h
              exact ⟨hc1, _, hd1, f2, f3⟩
            · exact absurd h (by simp)
        · exact ih r r1 hc h

/-! ## Claim C20: capacity and return value of readEvents -/

/-- Claim C20: for a capacity `count ≥ 1`, whenever `readEvents` returns, it has written
at most `count` records, and a return value that is not negative is the number of records
written; and it does return when no pending bit from `numSensors` on is set. -/
theorem readEvents_within_capacity (cfg : Config) (env : Env) (s : AkmSensor) (count : Int)
    (fill : Int × List input_event) (hcount : 1 ≤ count) :
    (∀ n out s1, readEvents cfg env s count fill = some (n, out, s1) →
      (out.length : Int) ≤ count ∧ (0 ≤ n → n = (out.length : Int))) ∧
    (PendingInRange s → ∃ res, readEvents cfg env s count fill = some res) := by
  have h1 : ¬ count < 1 := by omega
  constructor
  · intro n out s1 h
    unfold readEvents at h
    rw [if_neg h1] at h
    by_cases h2 : fill.1 < 0
    · rw [if_pos h2] at h
      injection h with h
      injection h with ha hb
      injection hb with hb hc
      subst ha; subst hb
      exact ⟨by simp; omega, fun h0 => absurd h0 (by omega)⟩
    · rw [if_neg h2] at h
      cases hre : readLoop cfg env (fillQueue s.mInputReader fill)
          { obj := s, count := count, numEventReceived := 0, data := [] } with
      | none => rw [hre] at h; exact absurd h (by simp)
      | some r2 =>
        rw [hre] at h
        simp only [] at h
        injection h with h
        injection h with ha hb
        injection hb with hb hc
        subst ha; subst hb
        obtain ⟨i1, k, i2, i3, i4⟩ := readLoop_counts cfg env _ _ r2
          (by show (0 : Int) ≤ count; omega) hre
        simp only [List.length_nil, Nat.zero_add] at i2
        simp only [zero_add] at i4
        rw [i2, i4]
        refine ⟨?_, fun _ => rfl⟩
        have : r2.count = count - (k : Int) := i3
        omega
  · intro hm
    unfold readEvents
    rw [if_neg h1]
    by_cases h2 : fill.1 < 0
    · rw [if_pos h2]; exact ⟨_, rfl⟩
    · rw [if_neg h2]
      obtain ⟨r1, hr1⟩ := readLoop_total cfg env (fillQueue s.mInputReader fill)
        { obj := s, count := count, numEventReceived := 0, data := [] } hm
      rw [hr1]
      exact ⟨_, rfl⟩

/-- Witness of claim C20: two sensors pending and enabled, capacity 1. -/
theorem readEvents_within_capacity_witness :
    (1 : Int) ≤ 1 ∧
    ((∀ n out s1, readEvents exampleConfig okEnv (maskState 3 3 1) 1 (1, [synEvent]) =
        some (n, out, s1) → (out.length : Int) ≤ 1 ∧ (0 ≤ n → n = (out.length : Int))) ∧
    (PendingInRange (maskState 3 3 1) →
      ∃ res, readEvents exampleConfig okEnv (maskState 3 3 1) 1 (1, [synEvent]) = some res)) :=
  ⟨by decide,
    readEvents_within_capacity exampleConfig okEnv (maskState 3 3 1) 1 (1, [synEvent])
      (by decide)⟩

/-! ## Claims C13, C14: time stamps and order of one batch -/

/-- The records that a `readEvents` call writes for a queue of axis updates followed by
one synchronization record: the stamped pending records of the first `count` sensors
that are pending and enabled after the axis updates. -/
theorem readEvents_batch_out (cfg : Config) (env : Env) (s : AkmSensor) (count : Int)
    (fill : Int × List input_event) (pre : List input_event) (sy : input_event)
    (hmask : PendingInRange s) (hfill : 0 ≤ fill.1)
    (hq : s.mInputReader ++ fill.2 = pre ++ [sy])
    (hpre : ∀ e ∈ pre, e.type ≠ EV_SYN) (hsy : sy.type = EV_SYN) (hcount : 1 ≤ count) :
    ∃ n s1, readEvents cfg env s count fill =
      some (n,
        ((pendingEnabled (processRecords cfg s pre) 0 numSensors).take count.toNat).map
          (stamped (processRecords cfg s pre) (timevalToNano sy.time)), s1) := by
  obtain ⟨q, hq2⟩ := readEvents_batch cfg env s count fill pre sy hmask hfill hq hpre hsy hcount
  obtain ⟨hdata, _, _⟩ := flushLoop_out cfg env (timevalToNano sy.time) numSensors 0
    { obj := processRecords cfg s pre, count := count, numEventReceived := 0, data := [] }
    (by simp) (by show (0 : Int) ≤ count; omega)
  rw [hdata] at hq2
  simp only [List.nil_append] at hq2
  exact ⟨_, _, hq2⟩

/-- Claim C13: a `readEvents` call that flushes a synchronization record (after any axis
updates, with any capacity of at least 1) returns, and every record it writes carries the
time of that synchronization record in nanoseconds. -/
theorem readEvents_timestamp (cfg : Config) (env : Env) (s : AkmSensor) (count : Int)
    (fill : Int × List input_event) (pre : List input_event) (sy : input_event)
    (hmask : PendingInRange s) (hfill : 0 ≤ fill.1)
    (hq : s.mInputReader ++ fill.2 = pre ++ [sy])
    (hpre : ∀ e ∈ pre, e.type ≠ EV_SYN) (hsy : sy.type = EV_SYN) (hcount : 1 ≤ count) :
    ∃ n out s1, readEvents cfg env s count fill = some (n, out, s1) ∧
      ∀ e ∈ out, e.timestamp = timevalToNano sy.time := by
  obtain ⟨n, s1, h⟩ :=
    readEvents_batch_out cfg env s count fill pre sy hmask hfill hq hpre hsy hcount
  refine ⟨n, _, s1, h, ?_⟩
  intro e he
  rw [List.mem_map] at he
  obtain ⟨i, _, rfl⟩ := he
  rfl

/-- Witness of claim C13: Accelerometer and MagneticField enabled and updated, one
synchronization record at 5 s + 7 us. -/
theorem readEvents_timestamp_witness :
    PendingInRange (maskState 3 0 1) ∧ (0 : Int) ≤ 3 ∧
    (maskState 3 0 1).mInputReader ++
        [relEvent exampleConfig.EVENT_TYPE_MAGV_X 5, relEvent exampleConfig.EVENT_TYPE_ACCEL_X 100,
          synEvent] =
      [relEvent exampleConfig.EVENT_TYPE_MAGV_X 5,
        relEvent exampleConfig.EVENT_TYPE_ACCEL_X 100] ++ [synEvent] ∧
    (∀ e ∈ [relEvent exampleConfig.EVENT_TYPE_MAGV_X 5,
      relEvent exampleConfig.EVENT_TYPE_ACCEL_X 100], e.type ≠ EV_SYN) ∧
    synEvent.type = EV_SYN ∧ (1 : Int) ≤ 4 ∧
    (∃ n out s1, readEvents exampleConfig okEnv (maskState 3 0 1) 4
        (3, [relEvent exampleConfig.EVENT_TYPE_MAGV_X 5,
          relEvent exampleConfig.EVENT_TYPE_ACCEL_X 100, synEvent]) = some (n, out, s1) ∧
      ∀ e ∈ out, e.timestamp = timevalToNano synEvent.time) ∧
    timevalToNano synEvent.time = 5000007000 :=
  ⟨by decide, by decide, rfl, by decide, by decide, by decide,
    readEvents_timestamp exampleConfig okEnv (maskState 3 0 1) 4
      (3, [relEvent exampleConfig.EVENT_TYPE_MAGV_X 5,
        relEvent exampleConfig.EVENT_TYPE_ACCEL_X 100, synEvent])
      [relEvent exampleConfig.EVENT_TYPE_MAGV_X 5, relEvent exampleConfig.EVENT_TYPE_ACCEL_X 100]
      synEvent (by decide) (by decide) rfl (by decide) (by decide) (by decide),
    by decide⟩

theorem pendingEnabled_pairwise (s : AkmSensor) (j n : Nat) :
    (pendingEnabled s j n).Pairwise (· < ·) := by
  unfold pendingEnabled
  exact List.Pairwise.filter _ (List.pairwise_lt_range' j n)

/-- Claim C14: the records that a `readEvents` call writes for one synchronization record
are those of a strictly increasing list of logical sensors, whatever the order of the axis
updates in front of it; hence no handle occurs twice among them. -/
theorem readEvents_order (cfg : Config) (env : Env) (s : AkmSensor) (count : Int)
    (fill : Int × List input_event) (pre : List input_event) (sy : input_event)
    (hd : cfg.handlesDistinct) (htag : tagged cfg s)
    (hmask : PendingInRange s) (hfill : 0 ≤ fill.1)
    (hq : s.mInputReader ++ fill.2 = pre ++ [sy])
    (hpre : ∀ e ∈ pre, e.type ≠ EV_SYN) (hsy : sy.type = EV_SYN) (hcount : 1 ≤ count) :
    ∃ n out s1, readEvents cfg env s count fill = some (n, out, s1) ∧
      ∃ L : List Nat, L.Pairwise (· < ·) ∧ (∀ i ∈ L, i < numSensors) ∧
        out.map (fun e => e.sensor) = L.map (sensorHandle cfg) ∧
        (out.map (fun e => e.sensor)).Nodup := by
  obtain ⟨n, s1, h⟩ :=
    readEvents_batch_out cfg env s count fill pre sy hmask hfill hq hpre hsy hcount
  have htag2 := tagged_of_control cfg s _ htag (processRecords_control cfg pre s)
  have hpw : ((pendingEnabled (processRecords cfg s pre) 0 numSensors).take
      count.toNat).Pairwise (· < ·) :=
    List.Pairwise.sublist (List.take_sublist _ _) (pendingEnabled_pairwise _ _ _)
  have hlt : ∀ i ∈ (pendingEnabled (processRecords cfg s pre) 0 numSensors).take count.toNat,
      i < numSensors := by
    intro i hi
    have := (mem_pendingEnabled _ 0 numSensors i).mp (List.mem_of_mem_take hi)
    omega
  have hmap : (((pendingEnabled (processRecords cfg s pre) 0 numSensors).take count.toNat).map
      (stamped (processRecords cfg s pre) (timevalToNano sy.time))).map (fun e => e.sensor) =
      ((pendingEnabled (processRecords cfg s pre) 0 numSensors).take count.toNat).map
        (sensorHandle cfg) := by
    rw [List.map_map]
    apply List.map_congr_left
    intro i hi
    show (stamped (processRecords cfg s pre) (timevalToNano sy.time) i).sensor = _
    rw [stamped_sensor, htag2 i (hlt i hi)]
  refine ⟨n, _, s1, h, _, hpw, hlt, hmap, ?_⟩
  rw [hmap]
  apply List.Nodup.map_on
  · intro i hi k hk heq
    exact sensorHandle_inj cfg hd i k (hlt i hi) (hlt k hk) heq
  · exact hpw.imp (fun h => Nat.ne_of_lt h)

/-- Witness of claim C14: the magnetic field update arrives before the accelerometer
update. -/
theorem readEvents_order_witness :
    exampleConfig.handlesDistinct ∧ tagged exampleConfig (maskState 3 0 1) ∧
    PendingInRange (maskState 3 0 1) ∧ (0 : Int) ≤ 3 ∧
    (maskState 3 0 1).mInputReader ++
        [relEvent exampleConfig.EVENT_TYPE_MAGV_X 5, relEvent exampleConfig.EVENT_TYPE_ACCEL_X 100,
          synEvent] =
      [relEvent exampleConfig.EVENT_TYPE_MAGV_X 5,
        relEvent exampleConfig.EVENT_TYPE_ACCEL_X 100] ++ [synEvent] ∧
    (∀ e ∈ [relEvent exampleConfig.EVENT_TYPE_MAGV_X 5,
      relEvent exampleConfig.EVENT_TYPE_ACCEL_X 100], e.type ≠ EV_SYN) ∧
    synEvent.type = EV_SYN ∧ (1 : Int) ≤ 4 ∧
    ∃ n out s1, readEvents exampleConfig okEnv (maskState 3 0 1) 4
        (3, [relEvent exampleConfig.EVENT_TYPE_MAGV_X 5,
          relEvent exampleConfig.EVENT_TYPE_ACCEL_X 100, synEvent]) = some (n, out, s1) ∧
      ∃ L : List Nat, L.Pairwise (· < ·) ∧ (∀ i ∈ L, i < numSensors) ∧
        out.map (fun e => e.sensor) = L.map (sensorHandle exampleConfig) ∧
        (out.map (fun e => e.sensor)).Nodup :=
  ⟨by decide, by decide, by decide, by decide, rfl, by decide, by decide, by decide,
    readEvents_order exampleConfig okEnv (maskState 3 0 1) 4
      (3, [relEvent exampleConfig.EVENT_TYPE_MAGV_X 5,
        relEvent exampleConfig.EVENT_TYPE_ACCEL_X 100, synEvent])
      [relEvent exampleConfig.EVENT_TYPE_MAGV_X 5, relEvent exampleConfig.EVENT_TYPE_ACCEL_X 100]
      synEvent (by decide) (by decide) (by decide) (by decide) rfl (by decide) (by decide)
      (by decide)⟩

/-! ## Claim C17: nothing stays pending across a consumed synchronization record -/

theorem flushRound_quiet (cfg : Config) (env : Env) (time : Int) (i j : Nat) (r : ReadState)
    (hd : cfg.handlesDistinct) (hi : i < numSensors) (hj : j < numSensors)
    (htag : tagged cfg r.obj) (hq : ¬ bitSet r.obj.mPendingMask j) :
    tagged cfg (flushRound cfg env time i r).obj ∧
    ¬ bitSet (flushRound cfg env time i r).obj.mPendingMask j ∧
    (flushRound cfg env time i r).obj.mInputReader = r.obj.mInputReader ∧
    ∀ e ∈ (flushRound cfg env time i r).data, e ∈ r.data ∨ e.sensor ≠ sensorHandle cfg j := by
  obtain ⟨hdata, _, _, hm1, _, _, hsens, _, _, hrd⟩ :=
    flushRound_spec cfg env time i r (by unfold numSensors at hi; omega)
  refine ⟨?_, fun h => hq (hm1 j h).1, hrd, ?_⟩
  · intro k hk; rw [hsens k]; exact htag k hk
  · intro e he
    rw [hdata, List.mem_append] at he
    rcases he with he | he
    · exact Or.inl he
    · right
      split at he
      · rename_i hpe
        simp only [List.mem_singleton] at he
        subst he
        rw [stamped_sensor, htag i hi]
        intro heq
        have := sensorHandle_inj cfg hd i j hi hj heq
        subst this
        exact hq hpe.1
      · simp at he

theorem flushLoop_quiet (cfg : Config) (env : Env) (time : Int) (hd : cfg.handlesDistinct)
    (j : Nat) (hj : j < numSensors) (n : Nat) :
    ∀ (i : Nat) (r : ReadState), i + n = numSensors → tagged cfg r.obj →
      ¬ bitSet r.obj.mPendingMask j →
      tagged cfg (flushLoop cfg env time n i r).obj ∧
      ¬ bitSet (flushLoop cfg env time n i r).obj.mPendingMask j ∧
      (flushLoop cfg env time n i r).obj.mInputReader = r.obj.mInputReader ∧
      ∀ e ∈ (flushLoop cfg env time n i r).data,
        e ∈ r.data ∨ e.sensor ≠ sensorHandle cfg j := by
  induction n with
  | zero => intro i r _ htag hq; exact ⟨htag, hq, rfl, fun e he => Or.inl he⟩
  | succ n ih =>
    intro i r hi htag hq
    rw [flushLoop_succ]
    split
    · obtain ⟨h1, h2, h3, h4⟩ := flushRound_quiet cfg env time i j r hd (by omega) hj htag hq
      obtain ⟨i1, i2, i3, i4⟩ := ih (i + 1) (flushRound cfg env time i r) (by omega) h1 h2
      refine ⟨i1, i2, i3.trans h3, ?_⟩
      intro e he
      rcases i4 e he with h | h
      · exact h4 e h
      · exact Or.inr h
    · exact ⟨htag, hq, rfl, fun e he => Or.inl he⟩

theorem readLoop_quiet (cfg : Config) (env : Env) (hd : cfg.handlesDistinct)
    (j : Nat) (hj : j < numSensors) (q : List input_event) :
    ∀ (r r1 : ReadState), tagged cfg r.obj → ¬ bitSet r.obj.mPendingMask j →
      (∀ e ∈ q, ¬ updatesSensor cfg j e) →
      readLoop cfg env q r = some r1 →
      tagged cfg r1.obj ∧ ¬ bitSet r1.obj.mPendingMask j ∧
      (∀ e ∈ r1.obj.mInputReader, e ∈ q) ∧
      ∀ e ∈ r1.data, e ∈ r.data ∨ e.sensor ≠ sensorHandle cfg j := by
  induction q with
  | nil =>
    intro r r1 htag hq _ h
    rw [readLoop_nil] at h
    injection h with h
    subst h
    exact ⟨htag, hq, fun e he => he, fun e he => Or.inl he⟩
  | cons event rest ih =>
    intro r r1 htag hq hno h
    have hno2 : ∀ e ∈ rest, ¬ updatesSensor cfg j e :=
      fun e he => hno e (List.mem_cons_of_mem _ he)
    rw [readLoop_cons] at h
    split at h
    · injection h with h
      subst h
      exact ⟨htag, hq, fun e he => he, fun e he => Or.inl he⟩
    · split at h
      · rename_i hrel
        have hctl := processEvent_control cfg r.obj event.code event.value
        have hq2 : ¬ bitSet (processEvent cfg r.obj event.code event.value).mPendingMask j := by
          intro hb
          exact hno event (List.mem_cons_self _ _) ⟨hrel, r.obj, hq, hb⟩
        obtain ⟨i1, i2, i3, i4⟩ :=
          ih { r with obj := processEvent cfg r.obj event.code event.value } r1
            (tagged_of_control cfg _ _ htag hctl) hq2 hno2 h
        exact ⟨i1, i2, fun e he => List.mem_cons_of_mem _ (i3 e he), i4⟩
      · split at h
        · obtain ⟨f1, f2, _, f4⟩ := flushLoop_quiet cfg env (timevalToNano event.time) hd j hj
            numSensors 0 r (by simp) htag hq
          split at h
          · obtain ⟨i1, i2, i3, i4⟩ := ih _ r1 f1 f2 hno2 h
            refine ⟨i1, i2, fun e he => List.mem_cons_of_mem _ (i3 e he), ?_⟩
            intro e he
            rcases i4 e he with h' | h'
            · exact f4 e h'
            · exact Or.inr h'
          · split at h
            · injection h with h
              subst h
              exact ⟨f1, f2, fun e he => he, f4⟩
            · exact absurd h (by simp)
        · obtain ⟨i1, i2, i3, i4⟩ := ih r r1 htag hq hno2 h
          exact ⟨i1, i2, fun e he => List.mem_cons_of_mem _ (i3 e he), i4⟩

theorem setDelay_buffers (cfg : Config) (env : Env) (s : AkmSensor) (handle ns : Int) :
    (setDelay cfg env s handle ns).2.mPendingMask = s.mPendingMask ∧
    (setDelay cfg env s handle ns).2.mPendingEvents = s.mPendingEvents ∧
    (setDelay cfg env s handle ns).2.mInputReader = s.mInputReader := by
  have hu : ∀ s1 : AkmSensor, (update_delay env s1).2.mPendingMask = s1.mPendingMask ∧
      (update_delay env s1).2.mPendingEvents = s1.mPendingEvents ∧
      (update_delay env s1).2.mInputReader = s1.mInputReader := by
    intro s1; unfold update_delay; split
    · simp only []; split <;> exact ⟨rfl, rfl, rfl⟩
    · exact ⟨rfl, rfl, rfl⟩
  unfold setDelay
  simp only []
  split
  · exact ⟨rfl, rfl, rfl⟩
  · split
    · exact ⟨rfl, rfl, rfl⟩
    · split
      · exact ⟨rfl, rfl, rfl⟩
      · exact hu _

theorem step_quiet (cfg : Config) (env : Env) (hd : cfg.handlesDistinct)
    (j : Nat) (hj : j < numSensors) (s : AkmSensor)
    (op : Op) (s2 : AkmSensor) (out1 : List sensors_event_t)
    (htag : tagged cfg s) (hq : ¬ bitSet s.mPendingMask j)
    (hrd : ∀ e ∈ s.mInputReader, ¬ updatesSensor cfg j e)
    (hop : ¬ opUpdatesSensor cfg j op)
    (hs : step cfg env s op = some (s2, out1)) :
    tagged cfg s2 ∧ ¬ bitSet s2.mPendingMask j ∧
      (∀ e ∈ s2.mInputReader, ¬ updatesSensor cfg j e) ∧
      ∀ e ∈ out1, e.sensor ≠ sensorHandle cfg j := by
  cases op with
  | enable handle en =>
    have hs2 : some ((enable cfg env s handle en).2, ([] : List sensors_event_t)) =
        some (s2, out1) := hs
    injection hs2 with hs2
    injection hs2 with hs1 hs2
    subst hs1; subst hs2
    obtain ⟨f1, f2, _, f4, _⟩ := enable_frame cfg env s handle en
    refine ⟨enable_control_events cfg env s handle en htag, by rw [f1]; exact hq,
      by rw [f4]; exact hrd, by simp⟩
  | setDelay handle ns =>
    have hs2 : some ((setDelay cfg env s handle ns).2, ([] : List sensors_event_t)) =
        some (s2, out1) := hs
    injection hs2 with hs2
    injection hs2 with hs1 hs2
    subst hs1; subst hs2
    obtain ⟨c1, c2, c3⟩ := setDelay_buffers cfg env s handle ns
    refine ⟨?_, by rw [c1]; exact hq, by rw [c3]; exact hrd, by simp⟩
    intro k hk; rw [c2]; exact htag k hk
  | readEvents count fill =>
    have hop2 : ∀ e ∈ fill.2, ¬ updatesSensor cfg j e := by
      intro e he hu; exact hop ⟨e, he, hu⟩
    have hs2 : (match readEvents cfg env s count fill with
      | some r => some (r.2.2, r.2.1)
      | none => none) = some (s2, out1) := hs
    unfold readEvents at hs2
    by_cases h1 : count < 1
    · rw [if_pos h1] at hs2
      simp only [] at hs2
      injection hs2 with hs2
      injection hs2 with hs1 hs3
      subst hs1; subst hs3
      exact ⟨htag, hq, hrd, by simp⟩
    · rw [if_neg h1] at hs2
      by_cases h2 : fill.1 < 0
      · rw [if_pos h2] at hs2
        simp only [] at hs2
        injection hs2 with hs2
        injection hs2 with hs1 hs3
        subst hs1; subst hs3
        exact ⟨htag, hq, hrd, by simp⟩
      · rw [if_neg h2] at hs2
        cases hre : readLoop cfg env (fillQueue s.mInputReader fill)
            { obj := s, count := count, numEventReceived := 0, data := [] } with
        | none => rw [hre] at hs2; exact absurd hs2 (by simp)
        | some r2 =>
          rw [hre] at hs2
          simp only [] at hs2
          injection hs2 with hs2
          injection hs2 with hs1 hs3
          subst hs1; subst hs3
          have hall : ∀ e ∈ fillQueue s.mInputReader fill, ¬ updatesSensor cfg j e := by
            intro e he
            unfold fillQueue at he
            rw [List.mem_append] at he
            rcases he with he | he
            · exact hrd e he
            · exact hop2 e he
          obtain ⟨i1, i2, i3, i4⟩ := readLoop_quiet cfg env hd j hj _ _ r2 htag hq hall hre
          refine ⟨i1, i2, fun e he => hall e (i3 e he), ?_⟩
          intro e he
          rcases i4 e he with h' | h'
          · simp at h'
          · exact h'

/-- A sensor that is not pending is not written by any later call as long as no call
brings in an axis update for it. -/
theorem run_quiet (cfg : Config) (env : Env) (hd : cfg.handlesDistinct)
    (j : Nat) (hj : j < numSensors) (ops : List Op) :
    ∀ (s s1 : AkmSensor) (outs : List sensors_event_t),
      tagged cfg s → ¬ bitSet s.mPendingMask j →
      (∀ e ∈ s.mInputReader, ¬ updatesSensor cfg j e) →
      (∀ op ∈ ops, ¬ opUpdatesSensor cfg j op) →
      run cfg env s ops = some (s1, outs) →
      ∀ e ∈ outs, e.sensor ≠ sensorHandle cfg j := by
  induction ops with
  | nil =>
    intro s s1 outs _ _ _ _ h
    have h2 : some (s, ([] : List sensors_event_t)) = some (s1, outs) := h
    injection h2 with h2
    injection h2 with _ h2
    subst h2
    intro e he; simp at he
  | cons op ops ih =>
    intro s s1 outs htag hq hrd hops h
    have hops2 : ∀ op ∈ ops, ¬ opUpdatesSensor cfg j op :=
      fun o ho => hops o (List.mem_cons_of_mem _ ho)
    have hrun : run cfg env s (op :: ops) =
        match step cfg env s op with
        | some (s2, out1) =>
          match run cfg env s2 ops with
          | some (s3, out2) => some (s3, out1 ++ out2)
          | none => none
        | none => none := rfl
    rw [hrun] at h
    cases hs : step cfg env s op with
    | none => rw [hs] at h; exact absurd h (by simp)
    | some p =>
      obtain ⟨s2, out1⟩ := p
      rw [hs] at h
      simp only [] at h
      obtain ⟨t1, t2, t3, t4⟩ := step_quiet cfg env hd j hj s op s2 out1 htag hq hrd
        (hops op (List.mem_cons_self _ _)) hs
      cases hr : run cfg env s2 ops with
      | none => rw [hr] at h; exact absurd h (by simp)
      | some p2 =>
        obtain ⟨s3, out2⟩ := p2
        rw [hr] at h
        simp only [] at h
        injection h with h
        injection h with _ h2
        subst h2
        intro e he
        rw [List.mem_append] at he
        rcases he with he | he
        · exact t4 e he
        · exact ih s2 s3 out2 t1 t2 t3 hops2 hr e he

theorem flushLoop_tagged (cfg : Config) (env : Env) (time : Int) (n : Nat) :
    ∀ (i : Nat) (r : ReadState), i + n = numSensors → tagged cfg r.obj →
      tagged cfg (flushLoop cfg env time n i r).obj := by
  induction n with
  | zero => intro i r _ htag; exact htag
  | succ n ih =>
    intro i r hi htag
    rw [flushLoop_succ]
    split
    · apply ih (i + 1) _ (by omega)
      obtain ⟨_, _, _, _, _, _, hsens, _⟩ :=
        flushRound_spec cfg env time i r (by unfold numSensors at hi; omega)
      intro k hk; rw [hsens k]; exact htag k hk
    · exact htag

theorem readLoop_tagged (cfg : Config) (env : Env) (q : List input_event) :
    ∀ (r r1 : ReadState), tagged cfg r.obj → readLoop cfg env q r = some r1 →
      tagged cfg r1.obj := by
  induction q with
  | nil =>
    intro r r1 htag h
    rw [readLoop_nil] at h
    injection h with h
    subst h
    exact htag
  | cons event rest ih =>
    intro r r1 htag h
    rw [readLoop_cons] at h
    split at h
    · injection h with h
      subst h
      exact htag
    · split at h
      · exact ih _ r1 (tagged_of_control cfg _ _ htag
          (processEvent_control cfg r.obj event.code event.value)) h
      · split at h
        · have f1 := flushLoop_tagged cfg env (timevalToNano event.time) numSensors 0 r
            (by simp) htag
          split at h
          · exact ih _ r1 f1 h
          · split at h
            · injection h with h
              subst h
              exact f1
            · exact absurd h (by simp)
        · exact ih r r1 htag h

/-- When the outer loop has taken the synchronization record at the end of the queue off
the queue, no sensor is pending. -/
theorem readLoop_consumed (cfg : Config) (env : Env) (sy : input_event)
    (hsy : sy.type = EV_SYN) (pre : List input_event) :
    ∀ (r r1 : ReadState), readLoop cfg env (pre ++ [sy]) r = some r1 →
      r1.obj.mInputReader = [] → r1.obj.mPendingMask = 0 := by
  have hrel : ¬ sy.type = EV_REL := by rw [hsy]; decide
  induction pre with
  | nil =>
    intro r r1 h hrd
    rw [List.nil_append, readLoop_cons] at h
    by_cases hc : r.count = 0
    · rw [if_pos hc] at h
      injection h with h
      subst h
      exact absurd hrd (by simp)
    · rw [if_neg hc, if_neg hrel, if_pos hsy] at h
      split at h
      · rename_i hz
        rw [readLoop_nil] at h
        injection h with h
        subst h
        exact hz
      · split at h
        · injection h with h
          subst h
          exact absurd hrd (by simp)
        · exact absurd h (by simp)
  | cons event rest ih =>
    intro r r1 h hrd
    rw [List.cons_append, readLoop_cons] at h
    split at h
    · injection h with h
      subst h
      exact absurd hrd (by simp)
    · split at h
      · exact ih _ r1 h hrd
      · split at h
        · split at h
          · exact ih _ r1 h hrd
          · split at h
            · injection h with h
              subst h
              exact absurd hrd (by simp)
            · exact absurd h (by simp)
        · exact ih r r1 h hrd

/-- Claim C17: take any object, any capacity of at least 1 and a queue that ends with a
synchronization record. With no pending bit from `numSensors` on, `readEvents` returns.
Whenever it returns having taken that synchronization record off the queue, the pending
mask is empty, whatever the enabled mask; and from then on no later call writes a record
of a sensor `j` as long as no call brings in an axis update for `j`. -/
theorem pending_empty_after_sync (cfg : Config) (env : Env) (s : AkmSensor) (count : Int)
    (fill : Int × List input_event) (pre : List input_event) (sy : input_event)
    (hfill : 0 ≤ fill.1) (hq : s.mInputReader ++ fill.2 = pre ++ [sy])
    (hsy : sy.type = EV_SYN) (hcount : 1 ≤ count) :
    (PendingInRange s → ∃ res, readEvents cfg env s count fill = some res) ∧
    ∀ n out s1, readEvents cfg env s count fill = some (n, out, s1) →
      s1.mInputReader = [] →
      s1.mPendingMask = 0 ∧
      (cfg.handlesDistinct → tagged cfg s → ∀ j, j < numSensors →
        ∀ ops, (∀ op ∈ ops, ¬ opUpdatesSensor cfg j op) →
        ∀ s2 outs, run cfg env s1 ops = some (s2, outs) →
        ∀ e ∈ outs, e.sensor ≠ sensorHandle cfg j) := by
  have hc1 : ¬ count < 1 := by omega
  have hf1 : ¬ fill.1 < 0 := by omega
  have hre : readEvents cfg env s count fill =
      match readLoop cfg env (pre ++ [sy])
        { obj := s, count := count, numEventReceived := 0, data := [] } with
      | some r => some (r.numEventReceived, r.data, r.obj)
      | none => none := by
    unfold readEvents fillQueue
    rw [if_neg hc1, if_neg hf1, hq]
  constructor
  · intro hm
    obtain ⟨r1, h1⟩ := readLoop_total cfg env (pre ++ [sy])
      { obj := s, count := count, numEventReceived := 0, data := [] } hm
    rw [hre, h1]
    exact ⟨_, rfl⟩
  · intro n out s1 h hrd
    rw [hre] at h
    cases hl : readLoop cfg env (pre ++ [sy])
        { obj := s, count := count, numEventReceived := 0, data := [] } with
    | none => rw [hl] at h; exact absurd h (by simp)
    | some r1 =>
      rw [hl] at h
      simp only [] at h
      injection h with h
      injection h with _ h
      injection h with _ h
      subst h
      have hz := readLoop_consumed cfg env sy hsy pre _ r1 hl hrd
      refine ⟨hz, ?_⟩
      intro hd htag j hj ops hops s2 outs hrun
      refine run_quiet cfg env hd j hj ops r1.obj s2 outs
        (readLoop_tagged cfg env _ _ r1 htag hl) ?_ ?_ hops hrun
      · rw [hz]; exact bitSet_zero j
      · rw [hrd]; intro e he; simp at he

/-- Witness of claim C17: Accelerometer is enabled, Accelerometer and MagneticField are
pending. The first synchronization record writes the Accelerometer record only and leaves
nothing pending; MagneticField is then enabled, and the next synchronization record
writes nothing. -/
theorem pending_empty_after_sync_witness :
    (0 : Int) ≤ 1 ∧ (maskState 1 3 1).mInputReader ++ [synEvent] = [] ++ [synEvent] ∧
    synEvent.type = EV_SYN ∧ (1 : Int) ≤ 4 ∧
    ((PendingInRange (maskState 1 3 1) →
        ∃ res, readEvents exampleConfig okEnv (maskState 1 3 1) 4 (1, [synEvent]) = some res) ∧
      ∀ n out s1,
        readEvents exampleConfig okEnv (maskState 1 3 1) 4 (1, [synEvent]) = some (n, out, s1) →
        s1.mInputReader = [] →
        s1.mPendingMask = 0 ∧
        (exampleConfig.handlesDistinct → tagged exampleConfig (maskState 1 3 1) →
          ∀ j, j < numSensors →
          ∀ ops, (∀ op ∈ ops, ¬ opUpdatesSensor exampleConfig j op) →
          ∀ s2 outs, run exampleConfig okEnv s1 ops = some (s2, outs) →
          ∀ e ∈ outs, e.sensor ≠ sensorHandle exampleConfig j)) ∧
    (run exampleConfig okEnv (maskState 1 3 1)
      [Op.readEvents 4 (1, [synEvent]), Op.enable exampleConfig.ID_M 1,
        Op.readEvents 4 (1, [synEvent])]).map
      (fun p => (p.2.map (fun e => e.sensor), p.1.mPendingMask, p.1.mEnabled, p.1.mInputReader)) =
      some ([exampleConfig.ID_A], 0, 3, []) :=
  ⟨by decide, rfl, by decide, by decide,
    pending_empty_after_sync exampleConfig okEnv (maskState 1 3 1) 4 (1, [synEvent]) []
      synEvent (by decide) rfl (by decide) (by decide),
    rfl⟩

/-! ## Claim C19: a call with capacity `c1 + c2` against two calls in a row -/

/-! ### The loops do not look at the queue kept in the object -/

theorem enable_reader (cfg : Config) (env : Env) (s : AkmSensor) (handle en : Int)
    (x : List input_event) :
    enable cfg env { s with mInputReader := x } handle en =
      ((enable cfg env s handle en).1,
        { (enable cfg env s handle en).2 with mInputReader := x }) := by
  unfold enable
  simp only []
  by_cases h1 : uint32_t (enable_what cfg handle) ≥ numSensors
  · simp only [if_pos h1]
  · simp only [if_neg h1]
    by_cases h2 : ((if en ≠ 0 then 1 else 0) <<< (enable_what cfg handle).toNat) ≠
        (s.mEnabled &&& (1 <<< (enable_what cfg handle).toNat))
    · simp only [if_pos h2]
      have he : enable_err env { s with mInputReader := x } en
          (enable_sensor_type (enable_what cfg handle).toNat) =
          enable_err env s en (enable_sensor_type (enable_what cfg handle).toNat) := rfl
      rw [he]
      by_cases h3 : (enable_err env s en (enable_sensor_type (enable_what cfg handle).toNat)).1 = 0
      · simp only [if_pos h3]; rfl
      · simp only [if_neg h3]
    · simp only [if_neg h2]

theorem motionHeuristic_reader (cfg : Config) (s : AkmSensor) (x : List input_event) :
    motionHeuristic cfg { s with mInputReader := x } =
      { motionHeuristic cfg s with mInputReader := x } := by
  unfold motionHeuristic
  simp only []
  have hb : motionBaseline cfg { s with mInputReader := x } = motionBaseline cfg s := rfl
  rw [hb]
  by_cases h : truncToInt (floatSub cfg (motionBaseline cfg s)
        (s.mPendingEvents Accelerometer).data2) > 1 ∨
      truncToInt (floatSub cfg (motionBaseline cfg s)
        (s.mPendingEvents Accelerometer).data2) < -1
  · simp only [if_pos h]; rfl
  · simp only [if_neg h]

theorem processEvent_commute (cfg : Config) (f : AkmSensor → AkmSensor)
    (hev : ∀ s, (f s).mPendingEvents = s.mPendingEvents)
    (hax : ∀ s j e, axisUpdate (f s) j e = f (axisUpdate s j e))
    (hmh : ∀ s, motionHeuristic cfg (f s) = f (motionHeuristic cfg s))
    (s : AkmSensor) (code value : Int) :
    processEvent cfg (f s) code value = f (processEvent cfg s code value) := by
  unfold processEvent
  by_cases h0 : code = cfg.EVENT_TYPE_ACCEL_X
  · rw [if_pos h0, if_pos h0, hev, hax]
  rw [if_neg h0, if_neg h0]
  by_cases h1 : code = cfg.EVENT_TYPE_ACCEL_Y
  · rw [if_pos h1, if_pos h1, hev, hax]
  rw [if_neg h1, if_neg h1]
  by_cases h2 : code = cfg.EVENT_TYPE_ACCEL_Z
  · rw [if_pos h2, if_pos h2, hev, hax, hmh]
  rw [if_neg h2, if_neg h2]
  by_cases h3 : code = cfg.EVENT_TYPE_MAGV_X
  · rw [if_pos h3, if_pos h3, hev, hax]
  rw [if_neg h3, if_neg h3]
  by_cases h4 : code = cfg.EVENT_TYPE_MAGV_Y
  · rw [if_pos h4, if_pos h4, hev, hax]
  rw [if_neg h4, if_neg h4]
  by_cases h5 : code = cfg.EVENT_TYPE_MAGV_Z
  · rw [if_pos h5, if_pos h5, hev, hax]
  rw [if_neg h5, if_neg h5]
  by_cases h6 : code = cfg.EVENT_TYPE_YAW
  · rw [if_pos h6, if_pos h6, hev, hax]
  rw [if_neg h6, if_neg h6]
  by_cases h7 : code = cfg.EVENT_TYPE_PITCH
  · rw [if_pos h7, if_pos h7, hev, hax]
  rw [if_neg h7, if_neg h7]
  by_cases h8 : code = cfg.EVENT_TYPE_ROLL
  · rw [if_pos h8, if_pos h8, hev, hax]
  rw [if_neg h8, if_neg h8]
  by_cases h9 : code = cfg.EVENT_TYPE_ORIENT_STATUS
  · rw [if_pos h9, if_pos h9, hev, hax]
  rw [if_neg h9, if_neg h9]

theorem processEvent_reader (cfg : Config) (s : AkmSensor) (code value : Int)
    (x : List input_event) :
    processEvent cfg { s with mInputReader := x } code value =
      { processEvent cfg s code value with mInputReader := x } :=
  processEvent_commute cfg (fun t => { t with mInputReader := x }) (fun _ => rfl)
    (fun _ _ _ => rfl) (fun t => motionHeuristic_reader cfg t x) s code value

theorem flushRound_reader (cfg : Config) (env : Env) (time : Int) (j : Nat) (r : ReadState)
    (x : List input_event) :
    flushRound cfg env time j { r with obj := { r.obj with mInputReader := x } } =
      { flushRound cfg env time j r with
        obj := { (flushRound cfg env time j r).obj with mInputReader := x } } := by
  have hs : stampPending { r.obj with mInputReader := x } time j =
      { stampPending r.obj time j with mInputReader := x } := rfl
  unfold flushRound
  simp only []
  rw [hs, enable_reader]
  by_cases hp : r.obj.mPendingMask &&& (1 <<< j) ≠ 0
  · simp only [if_pos hp]
    by_cases he : (stampPending r.obj time j).mEnabled &&& (1 <<< j) ≠ 0
    · simp only [if_pos he]
      by_cases hj : j = SignificantMotion
      · simp only [if_pos hj]
      · simp only [if_neg hj]
    · simp only [if_neg he]
  · simp only [if_neg hp]

theorem flushLoop_reader (cfg : Config) (env : Env) (time : Int) (x : List input_event)
    (n : Nat) :
    ∀ (j : Nat) (r : ReadState),
      flushLoop cfg env time n j { r with obj := { r.obj with mInputReader := x } } =
        { flushLoop cfg env time n j r with
          obj := { (flushLoop cfg env time n j r).obj with mInputReader := x } } := by
  induction n with
  | zero => intro j r; rfl
  | succ n ih =>
    intro j r
    rw [flushLoop_succ, flushLoop_succ]
    by_cases hc : r.count ≠ 0 ∧ r.obj.mPendingMask ≠ 0
    · rw [if_pos hc, if_pos (show _ from hc), flushRound_reader]
      exact ih (j + 1) (flushRound cfg env time j r)
    · rw [if_neg hc, if_neg (show ¬ _ from hc)]

theorem readLoop_reader (cfg : Config) (env : Env) (x : List input_event)
    (q : List input_event) :
    ∀ r : ReadState,
      readLoop cfg env q { r with obj := { r.obj with mInputReader := x } } =
        readLoop cfg env q r := by
  induction q with
  | nil => intro r; rfl
  | cons event rest ih =>
    intro r
    rw [readLoop_cons, readLoop_cons]
    by_cases hc : r.count = 0
    · rw [if_pos hc, if_pos (show _ from hc)]
    · rw [if_neg hc, if_neg (show ¬ _ from hc)]
      by_cases hrel : event.type = EV_REL
      · rw [if_pos hrel, if_pos hrel]
        have hp := processEvent_reader cfg r.obj event.code event.value x
        have := ih { r with obj := processEvent cfg r.obj event.code event.value }
        simp only [] at this ⊢
        rw [hp]
        exact this
      · rw [if_neg hrel, if_neg hrel]
        by_cases hsy : event.type = EV_SYN
        · rw [if_pos hsy, if_pos hsy, flushLoop_reader]
          by_cases hz : (flushLoop cfg env (timevalToNano event.time) numSensors 0
              r).obj.mPendingMask = 0
          · rw [if_pos hz, if_pos (show _ from hz)]
            exact ih _
          · by_cases h0 : (flushLoop cfg env (timevalToNano event.time) numSensors 0
                r).count = 0
            · simp only [hz, h0, ↓reduceIte]
            · simp only [hz, h0, ↓reduceIte]
        · rw [if_neg hsy, if_neg hsy]
          exact ih r

/-! ### The inner loop and the capacity -/

theorem flushRound_count (cfg : Config) (env : Env) (time : Int) (j : Nat) (r : ReadState)
    (c : Int) :
    flushRound cfg env time j { r with count := r.count + c } =
      { flushRound cfg env time j r with
        count := (flushRound cfg env time j r).count + c } := by
  unfold flushRound
  by_cases hp : r.obj.mPendingMask &&& (1 <<< j) ≠ 0
  · by_cases he : (stampPending r.obj time j).mEnabled &&& (1 <<< j) ≠ 0
    · simp only [if_pos hp, if_pos he]
      rw [show r.count + c - 1 = r.count - 1 + c by omega]
    · simp only [if_pos hp, if_neg he]
  · simp only [if_neg hp]

theorem flushRound_acc (cfg : Config) (env : Env) (time : Int) (j : Nat) (r : ReadState)
    (a : Int) (d : List sensors_event_t) :
    flushRound cfg env time j
        { r with numEventReceived := a + r.numEventReceived, data := d ++ r.data } =
      { flushRound cfg env time j r with
        numEventReceived := a + (flushRound cfg env time j r).numEventReceived
        data := d ++ (flushRound cfg env time j r).data } := by
  unfold flushRound
  by_cases hp : r.obj.mPendingMask &&& (1 <<< j) ≠ 0
  · by_cases he : (stampPending r.obj time j).mEnabled &&& (1 <<< j) ≠ 0
    · simp only [if_pos hp, if_pos he]
      rw [add_assoc, List.append_assoc]
    · simp only [if_pos hp, if_neg he]
  · simp only [if_neg hp]

theorem flushLoop_acc (cfg : Config) (env : Env) (time : Int) (a : Int)
    (d : List sensors_event_t) (n : Nat) :
    ∀ (j : Nat) (r : ReadState),
      flushLoop cfg env time n j
          { r with numEventReceived := a + r.numEventReceived, data := d ++ r.data } =
        { flushLoop cfg env time n j r with
          numEventReceived := a + (flushLoop cfg env time n j r).numEventReceived
          data := d ++ (flushLoop cfg env time n j r).data } := by
  induction n with
  | zero => intro j r; rfl
  | succ n ih =>
    intro j r
    rw [flushLoop_succ, flushLoop_succ]
    by_cases hc : r.count ≠ 0 ∧ r.obj.mPendingMask ≠ 0
    · rw [if_pos hc, if_pos (show _ from hc), flushRound_acc]
      exact ih (j + 1) (flushRound cfg env time j r)
    · rw [if_neg hc, if_neg (show ¬ _ from hc)]

theorem flushRound_idle (cfg : Config) (env : Env) (time : Int) (j : Nat) (r : ReadState)
    (h : ¬ bitSet r.obj.mPendingMask j) : flushRound cfg env time j r = r := by
  unfold flushRound
  rw [if_neg (show ¬ (r.obj.mPendingMask &&& (1 <<< j) ≠ 0) from h)]

theorem flushLoop_maskZero (cfg : Config) (env : Env) (time : Int) (n j : Nat) (r : ReadState)
    (h : r.obj.mPendingMask = 0) : flushLoop cfg env time n j r = r := by
  cases n with
  | zero => rfl
  | succ n =>
    rw [flushLoop_succ, if_neg]
    intro hc
    exact hc.2 h

theorem flushLoop_clear (cfg : Config) (env : Env) (time : Int) (n : Nat) :
    ∀ (j : Nat) (r : ReadState), (∀ i, j ≤ i → i < j + n → ¬ bitSet r.obj.mPendingMask i) →
      flushLoop cfg env time n j r = r := by
  induction n with
  | zero => intro j r _; rfl
  | succ n ih =>
    intro j r h
    rw [flushLoop_succ]
    split
    · rw [flushRound_idle cfg env time j r (h j (le_refl _) (by omega))]
      exact ih (j + 1) r (fun i h1 h2 => h i (by omega) (by omega))
    · rfl

theorem flushLoop_nonneg (cfg : Config) (env : Env) (time : Int) (n j : Nat) (r : ReadState)
    (hj : j + n = numSensors) (hc : 0 ≤ r.count) :
    0 ≤ (flushLoop cfg env time n j r).count := by
  obtain ⟨_, h, _⟩ := flushLoop_out cfg env time n j r hj hc
  rw [h]
  have := List.length_take_le r.count.toNat (pendingEnabled r.obj j n)
  omega

/-- The inner loop with more capacity does what the inner loop does when it is entered
again, with the additional capacity, after it has stopped. -/
theorem flushLoop_resume (cfg : Config) (env : Env) (time : Int) (c2 : Int) (hc2 : 1 ≤ c2)
    (n : Nat) :
    ∀ (j : Nat) (r : ReadState), j + n = numSensors → 0 ≤ r.count →
      flushLoop cfg env time n j { r with count := r.count + c2 } =
        flushLoop cfg env time n j
          { flushLoop cfg env time n j r with
            count := (flushLoop cfg env time n j r).count + c2 } := by
  induction n with
  | zero => intro j r _ _; rfl
  | succ n ih =>
    intro j r hj hc
    by_cases hcond : r.count ≠ 0 ∧ r.obj.mPendingMask ≠ 0
    · have hj32 : j < 32 := by unfold numSensors at hj; omega
      have h1 : flushLoop cfg env time (n + 1) j r =
          flushLoop cfg env time n (j + 1) (flushRound cfg env time j r) := by
        rw [flushLoop_succ, if_pos hcond]
      have hcond2 : r.count + c2 ≠ 0 ∧ r.obj.mPendingMask ≠ 0 := ⟨by omega, hcond.2⟩
      have h2 : flushLoop cfg env time (n + 1) j { r with count := r.count + c2 } =
          flushLoop cfg env time n (j + 1)
            (flushRound cfg env time j { r with count := r.count + c2 }) := by
        rw [flushLoop_succ, if_pos (show _ from hcond2)]
      obtain ⟨_, hcnt, _, hm1, _⟩ := flushRound_spec cfg env time j r hj32
      have hfc : 0 ≤ (flushRound cfg env time j r).count := by
        rw [hcnt]; split <;> omega
      have hih := ih (j + 1) (flushRound cfg env time j r) (by omega) hfc
      rw [h2, flushRound_count, hih, h1]
      have hbit : ¬ bitSet (flushLoop cfg env time n (j + 1)
          (flushRound cfg env time j r)).obj.mPendingMask j := by
        intro hb
        have := (flushLoop_mask cfg env time n (j + 1) (flushRound cfg env time j r)
          (by omega)).1 j hb
        exact (hm1 j this).2 rfl
      have hnn := flushLoop_nonneg cfg env time n (j + 1) (flushRound cfg env time j r)
        (by omega) hfc
      rw [flushLoop_succ]
      by_cases hz : (flushLoop cfg env time n (j + 1)
          (flushRound cfg env time j r)).obj.mPendingMask = 0
      · rw [if_neg (show ¬ _ from fun hh => hh.2 hz)]
        exact flushLoop_maskZero cfg env time n (j + 1) _ hz
      · rw [if_pos (show _ from ⟨by show _ + c2 ≠ 0; omega, hz⟩)]
        rw [flushRound_idle cfg env time j
          { flushLoop cfg env time n (j + 1) (flushRound cfg env time j r) with
            count := (flushLoop cfg env time n (j + 1)
              (flushRound cfg env time j r)).count + c2 } hbit]
    · have h1 : flushLoop cfg env time (n + 1) j r = r := by
        rw [flushLoop_succ, if_neg hcond]
      rw [h1]

/-! ### The outer loop and the capacity -/

theorem readLoop_acc (cfg : Config) (env : Env) (a : Int) (d : List sensors_event_t)
    (q : List input_event) :
    ∀ r : ReadState,
      readLoop cfg env q
          { r with numEventReceived := a + r.numEventReceived, data := d ++ r.data } =
        (readLoop cfg env q r).map (fun t =>
          { t with numEventReceived := a + t.numEventReceived, data := d ++ t.data }) := by
  induction q with
  | nil => intro r; rfl
  | cons event rest ih =>
    intro r
    rw [readLoop_cons, readLoop_cons]
    by_cases hc : r.count = 0
    · rw [if_pos hc, if_pos (show _ from hc)]
      rfl
    · rw [if_neg hc, if_neg (show ¬ _ from hc)]
      by_cases hrel : event.type = EV_REL
      · rw [if_pos hrel, if_pos hrel]
        exact ih { r with obj := processEvent cfg r.obj event.code event.value }
      · rw [if_neg hrel, if_neg hrel]
        by_cases hsy : event.type = EV_SYN
        · rw [if_pos hsy, if_pos hsy, flushLoop_acc]
          by_cases hz : (flushLoop cfg env (timevalToNano event.time) numSensors 0
              r).obj.mPendingMask = 0
          · rw [if_pos hz, if_pos (show _ from hz)]
            exact ih _
          · by_cases h0 : (flushLoop cfg env (timevalToNano event.time) numSensors 0
                r).count = 0
            · simp only [hz, h0, ↓reduceIte, Option.map_some']
            · simp only [hz, h0, ↓reduceIte, Option.map_none']
        · rw [if_neg hsy, if_neg hsy]
          exact ih r

/-- The outer loop with capacity `count + c2` writes the records and reaches the object
that the outer loop with capacity `count`, followed by the outer loop with capacity `c2`
over the queue that the first has left, writes and reaches; one does not end exactly when
the other does not. -/
theorem readLoop_split (cfg : Config) (env : Env) (c2 : Int) (hc2 : 1 ≤ c2)
    (q : List input_event) :
    ∀ r : ReadState, 0 ≤ r.count →
      (readLoop cfg env q { r with count := r.count + c2 }).map
          (fun t => (t.numEventReceived, t.data, t.obj)) =
        (readLoop cfg env q r).bind (fun r1 =>
          (readLoop cfg env r1.obj.mInputReader { r1 with count := c2 }).map
            (fun t => (t.numEventReceived, t.data, t.obj))) := by
  induction q with
  | nil => intro r _; rfl
  | cons event rest ih =>
    intro r hr
    have hc2n : c2 ≠ 0 := by omega
    by_cases hc : r.count = 0
    · have h1 : readLoop cfg env (event :: rest) r =
          some { r with obj := { r.obj with mInputReader := event :: rest } } := by
        rw [readLoop_cons, if_pos hc]
      have h2 : ({ r with count := r.count + c2 } : ReadState) = { r with count := c2 } := by
        rw [hc, zero_add]
      rw [h1, h2]
      simp only [Option.some_bind]
      rw [readLoop_reader cfg env (event :: rest) (event :: rest) { r with count := c2 }]
    · have hcp : r.count + c2 ≠ 0 := by omega
      rw [readLoop_cons, readLoop_cons cfg env event rest r, if_neg hc,
        if_neg (show ¬ _ from hcp)]
      by_cases hrel : event.type = EV_REL
      · rw [if_pos hrel, if_pos hrel]
        exact ih { r with obj := processEvent cfg r.obj event.code event.value } hr
      · rw [if_neg hrel, if_neg hrel]
        by_cases hsy : event.type = EV_SYN
        · rw [if_pos hsy, if_pos hsy]
          have hres := flushLoop_resume cfg env (timevalToNano event.time) c2 hc2 numSensors
            0 r (by simp) hr
          have hnn := flushLoop_nonneg cfg env (timevalToNano event.time) numSensors 0 r
            (by simp) hr
          simp only [] at hres ⊢
          rw [hres]
          by_cases hz : (flushLoop cfg env (timevalToNano event.time) numSensors 0
              r).obj.mPendingMask = 0
          · rw [flushLoop_maskZero cfg env (timevalToNano event.time) numSensors 0
              { flushLoop cfg env (timevalToNano event.time) numSensors 0 r with
                count := (flushLoop cfg env (timevalToNano event.time) numSensors 0
                  r).count + c2 } hz]
            rw [if_pos hz, if_pos (show _ from hz)]
            exact ih (flushLoop cfg env (timevalToNano event.time) numSensors 0 r) hnn
          · rw [if_neg hz]
            by_cases h0 : (flushLoop cfg env (timevalToNano event.time) numSensors 0
                r).count = 0
            · rw [if_pos h0]
              simp only [Option.some_bind]
              rw [readLoop_reader cfg env (event :: rest) (event :: rest)
                { flushLoop cfg env (timevalToNano event.time) numSensors 0 r with
                  count := c2 }]
              rw [readLoop_cons, if_neg (show ¬ _ from hc2n), if_neg hrel, if_pos hsy]
              rw [h0, zero_add]
            · rw [if_neg h0]
              have hclear : ∀ i, 0 ≤ i → i < 0 + numSensors →
                  ¬ bitSet (flushLoop cfg env (timevalToNano event.time) numSensors 0
                    r).obj.mPendingMask i := by
                rcases (flushLoop_mask cfg env (timevalToNano event.time) numSensors 0 r
                  (by simp)).2 with h | h
                · exact absurd h h0
                · intro i h1 h2; exact h i h1 (by omega)
              rw [flushLoop_clear cfg env (timevalToNano event.time) numSensors 0
                { flushLoop cfg env (timevalToNano event.time) numSensors 0 r with
                  count := (flushLoop cfg env (timevalToNano event.time) numSensors 0
                    r).count + c2 } hclear]
              rw [if_neg (show ¬ _ from hz), if_neg (show ¬ _ from (by
                show ¬ ((flushLoop cfg env (timevalToNano event.time) numSensors 0
                  r).count + c2 = 0)
                omega))]
              rfl
        · rw [if_neg hsy, if_neg hsy]
          exact ih r hr

/-- Claim C19: for all capacities `c1, c2 ≥ 1`, a `readEvents` call with capacity
`c1 + c2` on one hand, and on the other a call with capacity `c1` followed, with no
control call in between and no new input, by a call with capacity `c2`: either both do
not return, or both return, the records of the two calls in a row are the records of the
single call, the counts add up, and the object at the end is the same. -/
theorem readEvents_split (cfg : Config) (env : Env) (s : AkmSensor) (c1 c2 n2 : Int)
    (fill : Int × List input_event)
    (hc1 : 1 ≤ c1) (hc2 : 1 ≤ c2) (hfill : 0 ≤ fill.1) (hn2 : 0 ≤ n2) :
    readEvents cfg env s (c1 + c2) fill =
      (readEvents cfg env s c1 fill).bind (fun p =>
        (readEvents cfg env p.2.2 c2 (n2, [])).map (fun p2 =>
          (p.1 + p2.1, p.2.1 ++ p2.2.1, p2.2.2))) := by
  have hsplit := readLoop_split cfg env c2 hc2 (fillQueue s.mInputReader fill)
    { obj := s, count := c1, numEventReceived := 0, data := [] } (by show (0 : Int) ≤ c1; omega)
  have hL : readEvents cfg env s (c1 + c2) fill =
      (readLoop cfg env (fillQueue s.mInputReader fill)
        { obj := s, count := c1 + c2, numEventReceived := 0, data := [] }).map
        (fun t => (t.numEventReceived, t.data, t.obj)) := by
    unfold readEvents
    rw [if_neg (by omega), if_neg (by omega)]
    cases readLoop cfg env (fillQueue s.mInputReader fill)
      { obj := s, count := c1 + c2, numEventReceived := 0, data := [] } <;> rfl
  have hR : readEvents cfg env s c1 fill =
      (readLoop cfg env (fillQueue s.mInputReader fill)
        { obj := s, count := c1, numEventReceived := 0, data := [] }).map
        (fun t => (t.numEventReceived, t.data, t.obj)) := by
    unfold readEvents
    rw [if_neg (by omega), if_neg (by omega)]
    cases readLoop cfg env (fillQueue s.mInputReader fill)
      { obj := s, count := c1, numEventReceived := 0, data := [] } <;> rfl
  have h2 : ∀ t : AkmSensor, readEvents cfg env t c2 (n2, []) =
      (readLoop cfg env t.mInputReader
        { obj := t, count := c2, numEventReceived := 0, data := [] }).map
        (fun t => (t.numEventReceived, t.data, t.obj)) := by
    intro t
    unfold readEvents fillQueue
    rw [if_neg (by omega), if_neg (by show ¬ n2 < 0; omega), List.append_nil]
    cases readLoop cfg env t.mInputReader
      { obj := t, count := c2, numEventReceived := 0, data := [] } <;> rfl
  rw [hL, hR]
  simp only [] at hsplit
  rw [hsplit]
  cases hl : readLoop cfg env (fillQueue s.mInputReader fill)
      { obj := s, count := c1, numEventReceived := 0, data := [] } with
  | none => rfl
  | some r1 =>
    simp only [Option.some_bind, Option.map_some']
    rw [h2 r1.obj]
    have hacc := readLoop_acc cfg env r1.numEventReceived r1.data r1.obj.mInputReader
      { obj := r1.obj, count := c2, numEventReceived := 0, data := [] }
    simp only [add_zero, List.append_nil] at hacc
    rw [hacc]
    cases readLoop cfg env r1.obj.mInputReader
      { obj := r1.obj, count := c2, numEventReceived := 0, data := [] } <;> rfl

/-- Witness of claim C19: three sensors are enabled and pending, and one synchronization
record arrives. With capacity 1 the flush stops after the Accelerometer record and the
synchronization record stays in the queue; the next call with capacity 2 writes the two
other records; the call with capacity 3 writes all three. -/
theorem readEvents_split_witness :
    (1 : Int) ≤ 1 ∧ (1 : Int) ≤ 2 ∧ (0 : Int) ≤ 1 ∧ (0 : Int) ≤ 0 ∧
    readEvents exampleConfig okEnv (maskState 7 7 1) (1 + 2) (1, [synEvent]) =
      (readEvents exampleConfig okEnv (maskState 7 7 1) 1 (1, [synEvent])).bind (fun p =>
        (readEvents exampleConfig okEnv p.2.2 2 (0, [])).map (fun p2 =>
          (p.1 + p2.1, p.2.1 ++ p2.2.1, p2.2.2))) ∧
    (readEvents exampleConfig okEnv (maskState 7 7 1) 1 (1, [synEvent])).map
        (fun p => (p.1, p.2.1.map (fun e => e.sensor), p.2.2.mInputReader,
          p.2.2.mPendingMask)) =
      some (1, [exampleConfig.ID_A], [synEvent], 6) ∧
    (readEvents exampleConfig okEnv (maskState 7 7 1) (1 + 2) (1, [synEvent])).map
        (fun p => (p.1, p.2.1.map (fun e => e.sensor), p.2.2.mInputReader,
          p.2.2.mPendingMask)) =
      some (3, [exampleConfig.ID_A, exampleConfig.ID_M, exampleConfig.ID_O], [], 0) :=
  ⟨by decide, by decide, by decide, by decide,
    readEvents_split exampleConfig okEnv (maskState 7 7 1) 1 2 0 (1, [synEvent])
      (by decide) (by decide) (by decide) (by decide),
    rfl, rfl⟩

/-! ## Claim C3: the pending bit and the axis updates -/

theorem axisUpdate_pending (s : AkmSensor) (k : Nat) (e : sensors_event_t) (j : Nat) :
    bitSet (axisUpdate s k e).mPendingMask j ↔ bitSet s.mPendingMask j ∨ j = k := by
  rw [(axisUpdate_fields s k e).1, bitSet_set]

theorem motionHeuristic_pending (cfg : Config) (s1 : AkmSensor) (j : Nat) :
    bitSet (motionHeuristic cfg s1).mPendingMask j ↔
      bitSet s1.mPendingMask j ∨
        (j = SignificantMotion ∧
          (truncToInt (motionDiff cfg s1 (s1.mPendingEvents Accelerometer).data2) > 1 ∨
            truncToInt (motionDiff cfg s1 (s1.mPendingEvents Accelerometer).data2) < -1)) := by
  unfold motionDiff motionHeuristic
  simp only []
  by_cases hfire :
      truncToInt (floatSub cfg (motionBaseline cfg s1)
        (s1.mPendingEvents Accelerometer).data2) > 1 ∨
      truncToInt (floatSub cfg (motionBaseline cfg s1)
        (s1.mPendingEvents Accelerometer).data2) < -1
  · rw [if_pos (show _ from hfire), axisUpdate_pending]
    constructor
    · rintro (h | h)
      · exact Or.inl h
      · exact Or.inr ⟨h, hfire⟩
    · rintro (h | h)
      · exact Or.inl h
      · exact Or.inr h.1
  · rw [if_neg (show ¬ _ from hfire)]
    constructor
    · intro h; exact Or.inl h
    · rintro (h | h)
      · exact h
      · exact absurd h.2 hfire

theorem pending_case (m j k : Nat) (t : Prop) (ht : ¬ t) :
    (bitSet m j ∨ j = k) ↔ (bitSet m j ∨ some k = some j ∨ (j = SignificantMotion ∧ t)) := by
  constructor
  · rintro (h | h)
    · exact Or.inl h
    · exact Or.inr (Or.inl (by rw [h]))
  · rintro (h | h | h)
    · exact Or.inl h
    · exact Or.inr (Option.some.inj h).symm
    · exact absurd h.2 ht

/-- The pending bits after `processEvent`: those set before, the bit of the sensor whose
case the code takes, and the bit of SignificantMotion when the heuristic triggers. -/
theorem processEvent_pending (cfg : Config) (s : AkmSensor) (code value : Int) (j : Nat) :
    bitSet (processEvent cfg s code value).mPendingMask j ↔
      bitSet s.mPendingMask j ∨ codeSensor cfg code = some j ∨
        (j = SignificantMotion ∧ motionTrigger cfg s code value) := by
  unfold processEvent codeSensor motionTrigger
  by_cases h0 : code = cfg.EVENT_TYPE_ACCEL_X
  · simp only [if_pos h0]
    rw [axisUpdate_pending]
    exact pending_case _ _ _ _ (fun t => t.1 h0)
  simp only [if_neg h0]
  by_cases h1 : code = cfg.EVENT_TYPE_ACCEL_Y
  · simp only [if_pos h1]
    rw [axisUpdate_pending]
    exact pending_case _ _ _ _ (fun t => t.2.1 h1)
  simp only [if_neg h1]
  by_cases h2 : code = cfg.EVENT_TYPE_ACCEL_Z
  · simp only [if_pos h2]
    rw [motionHeuristic_pending, axisUpdate_pending]
    have hz : ((axisUpdate s Accelerometer
        { s.mPendingEvents Accelerometer with
          data2 := floatMul cfg (intToFloat cfg value) cfg.CONVERT_A_Z }).mPendingEvents
        Accelerometer).data2 = accelZ cfg value := by
      rw [(axisUpdate_fields s Accelerometer _).2.1]
      rfl
    have hd : ∀ z, motionDiff cfg (axisUpdate s Accelerometer
        { s.mPendingEvents Accelerometer with
          data2 := floatMul cfg (intToFloat cfg value) cfg.CONVERT_A_Z }) z =
        motionDiff cfg s z := fun _ => rfl
    rw [hz, hd]
    constructor
    · rintro ((h | h) | h)
      · exact Or.inl h
      · exact Or.inr (Or.inl (by rw [h]))
      · exact Or.inr (Or.inr ⟨h.1, h0, h1, h2, h.2⟩)
    · rintro (h | h | h)
      · exact Or.inl (Or.inl h)
      · exact Or.inl (Or.inr (Option.some.inj h).symm)
      · exact Or.inr ⟨h.1, h.2.2.2.2⟩
  simp only [if_neg h2]
  by_cases h3 : code = cfg.EVENT_TYPE_MAGV_X
  · simp only [if_pos h3]
    rw [axisUpdate_pending]
    exact pending_case _ _ _ _ (fun t => h2 t.2.2.1)
  simp only [if_neg h3]
  by_cases h4 : code = cfg.EVENT_TYPE_MAGV_Y
  · simp only [if_pos h4]
    rw [axisUpdate_pending]
    exact pending_case _ _ _ _ (fun t => h2 t.2.2.1)
  simp only [if_neg h4]
  by_cases h5 : code = cfg.EVENT_TYPE_MAGV_Z
  · simp only [if_pos h5]
    rw [axisUpdate_pending]
    exact pending_case _ _ _ _ (fun t => h2 t.2.2.1)
  simp only [if_neg h5]
  by_cases h6 : code = cfg.EVENT_TYPE_YAW
  · simp only [if_pos h6]
    rw [axisUpdate_pending]
    exact pending_case _ _ _ _ (fun t => h2 t.2.2.1)
  simp only [if_neg h6]
  by_cases h7 : code = cfg.EVENT_TYPE_PITCH
  · simp only [if_pos h7]
    rw [axisUpdate_pending]
    exact pending_case _ _ _ _ (fun t => h2 t.2.2.1)
  simp only [if_neg h7]
  by_cases h8 : code = cfg.EVENT_TYPE_ROLL
  · simp only [if_pos h8]
    rw [axisUpdate_pending]
    exact pending_case _ _ _ _ (fun t => h2 t.2.2.1)
  simp only [if_neg h8]
  by_cases h9 : code = cfg.EVENT_TYPE_ORIENT_STATUS
  · simp only [if_pos h9]
    rw [axisUpdate_pending]
    exact pending_case _ _ _ _ (fun t => h2 t.2.2.1)
  simp only [if_neg h9]
  constructor
  · intro h; exact Or.inl h
  · rintro (h | h | h)
    · exact h
    · exact absurd h (by simp)
    · exact absurd h.2.2.2.1 h2

theorem processRecords_cons (cfg : Config) (s : AkmSensor) (e : input_event)
    (rest : List input_event) :
    processRecords cfg s (e :: rest) =
      processRecords cfg (if e.type = EV_REL then processEvent cfg s e.code e.value else s)
        rest := rfl

theorem updatedIn_cons (cfg : Config) (s : AkmSensor) (e : input_event)
    (rest : List input_event) (j : Nat) :
    updatedIn cfg s (e :: rest) j ↔
      recordUpdates cfg s e j ∨
        updatedIn cfg (if e.type = EV_REL then processEvent cfg s e.code e.value else s)
          rest j := by
  constructor
  · rintro ⟨pre1, x, pre2, hsplit, hu⟩
    cases pre1 with
    | nil =>
      simp only [List.nil_append, List.cons.injEq] at hsplit
      obtain ⟨rfl, _⟩ := hsplit
      exact Or.inl hu
    | cons y pre1 =>
      simp only [List.cons_append, List.cons.injEq] at hsplit
      obtain ⟨rfl, rfl⟩ := hsplit
      rw [processRecords_cons] at hu
      exact Or.inr ⟨pre1, x, pre2, rfl, hu⟩
  · rintro (hu | ⟨pre1, x, pre2, hsplit, hu⟩)
    · exact ⟨[], e, rest, rfl, hu⟩
    · refine ⟨e :: pre1, x, pre2, by rw [hsplit]; rfl, ?_⟩
      rw [processRecords_cons]
      exact hu

/-- The pending bit of a logical sensor after a run of queue records without a
synchronization record: it was set before, or one of the records is an axis update of
that sensor (for SignificantMotion: a heuristic trigger). -/
theorem processRecords_pending (cfg : Config) (j : Nat) (pre : List input_event) :
    ∀ s : AkmSensor, bitSet (processRecords cfg s pre).mPendingMask j ↔
      bitSet s.mPendingMask j ∨ updatedIn cfg s pre j := by
  induction pre with
  | nil =>
    intro s
    constructor
    · intro h; exact Or.inl h
    · rintro (h | ⟨pre1, x, pre2, hsplit, _⟩)
      · exact h
      · exact absurd hsplit (by simp)
  | cons e rest ih =>
    intro s
    rw [processRecords_cons, ih, updatedIn_cons]
    by_cases hrel : e.type = EV_REL
    · simp only [if_pos hrel]
      rw [processEvent_pending]
      unfold recordUpdates
      constructor
      · rintro ((h | h) | h)
        · exact Or.inl h
        · exact Or.inr (Or.inl ⟨hrel, h⟩)
        · exact Or.inr (Or.inr h)
      · rintro (h | h | h)
        · exact Or.inl (Or.inl h)
        · exact Or.inl (Or.inr h.2)
        · exact Or.inr h
    · simp only [if_neg hrel]
      constructor
      · rintro (h | h)
        · exact Or.inl h
        · exact Or.inr (Or.inr h)
      · rintro (h | h | h)
        · exact Or.inl h
        · exact absurd h.1 hrel
        · exact Or.inr h

/-- Claim C3: a `readEvents` call whose queue holds axis updates (and records of unknown
classes) followed by one synchronization record, with capacity for every sensor that is
pending and enabled at that record, returns, and the record of a logical sensor is among
the written ones if and only if its pending bit is set at the synchronization record and
its enabled bit is set; the pending bit is set there if and only if it was set when the
call began or one of the records in front of the synchronization record is an axis update
of that sensor, for SignificantMotion a trigger of the motion heuristic. -/
theorem readEvents_emits_iff (cfg : Config) (env : Env) (s : AkmSensor) (count : Int)
    (fill : Int × List input_event) (pre : List input_event) (sy : input_event) (j : Nat)
    (hd : cfg.handlesDistinct) (htag : tagged cfg s) (hmask : PendingInRange s)
    (hfill : 0 ≤ fill.1) (hq : s.mInputReader ++ fill.2 = pre ++ [sy])
    (hpre : ∀ e ∈ pre, e.type ≠ EV_SYN) (hsy : sy.type = EV_SYN) (hcount : 1 ≤ count)
    (hcap : ((pendingEnabled (processRecords cfg s pre) 0 numSensors).length : Int) ≤ count)
    (hj : j < numSensors) :
    ∃ n out s1, readEvents cfg env s count fill = some (n, out, s1) ∧
      ((∃ e ∈ out, e.sensor = sensorHandle cfg j) ↔
        (bitSet (processRecords cfg s pre).mPendingMask j ∧ bitSet s.mEnabled j)) ∧
      (bitSet (processRecords cfg s pre).mPendingMask j ↔
        (bitSet s.mPendingMask j ∨ updatedIn cfg s pre j)) ∧
      ((∃ e ∈ out, e.sensor = sensorHandle cfg j) ↔
        ((bitSet s.mPendingMask j ∨ updatedIn cfg s pre j) ∧ bitSet s.mEnabled j)) ∧
      (s.mPendingMask = 0 →
        ((∃ e ∈ out, e.sensor = sensorHandle cfg j) ↔
          (updatedIn cfg s pre j ∧ bitSet s.mEnabled j))) := by
  obtain ⟨n, out, s1, h1, h2⟩ := readEvents_emits_pending cfg env s count fill pre sy j
    hd htag hmask hfill hq hpre hsy hcount hcap hj
  have h3 := processRecords_pending cfg j pre s
  refine ⟨n, out, s1, h1, h2, h3, ?_, ?_⟩
  · rw [h2, h3]
  · intro h0
    have hb : ¬ bitSet s.mPendingMask j := by rw [h0]; exact bitSet_zero j
    rw [h2, h3]
    constructor
    · rintro ⟨h | h, he⟩
      · exact absurd h hb
      · exact ⟨h, he⟩
    · rintro ⟨h, he⟩
      exact ⟨Or.inr h, he⟩

/-- Witness of claim C3: only the accelerometer is enabled and nothing is pending; an x
axis update of the accelerometer, an x axis update of the magnetometer and a
synchronization record arrive, capacity 4.  The call writes the accelerometer record and
no other. -/
theorem readEvents_emits_iff_witness :
    exampleConfig.handlesDistinct ∧ tagged exampleConfig (maskState 1 0 1) ∧
    PendingInRange (maskState 1 0 1) ∧ (0 : Int) ≤ 3 ∧
    (maskState 1 0 1).mInputReader ++
        [relEvent exampleConfig.EVENT_TYPE_ACCEL_X 100,
          relEvent exampleConfig.EVENT_TYPE_MAGV_X 5, synEvent] =
      [relEvent exampleConfig.EVENT_TYPE_ACCEL_X 100,
        relEvent exampleConfig.EVENT_TYPE_MAGV_X 5] ++ [synEvent] ∧
    (∀ e ∈ [relEvent exampleConfig.EVENT_TYPE_ACCEL_X 100,
      relEvent exampleConfig.EVENT_TYPE_MAGV_X 5], e.type ≠ EV_SYN) ∧
    synEvent.type = EV_SYN ∧ (1 : Int) ≤ 4 ∧
    ((pendingEnabled (processRecords exampleConfig (maskState 1 0 1)
      [relEvent exampleConfig.EVENT_TYPE_ACCEL_X 100,
        relEvent exampleConfig.EVENT_TYPE_MAGV_X 5]) 0 numSensors).length : Int) ≤ 4 ∧
    Accelerometer < numSensors ∧
    (∃ n out s1, readEvents exampleConfig okEnv (maskState 1 0 1) 4
        (3, [relEvent exampleConfig.EVENT_TYPE_ACCEL_X 100,
          relEvent exampleConfig.EVENT_TYPE_MAGV_X 5, synEvent]) = some (n, out, s1) ∧
      ((∃ e ∈ out, e.sensor = sensorHandle exampleConfig Accelerometer) ↔
        (bitSet (processRecords exampleConfig (maskState 1 0 1)
          [relEvent exampleConfig.EVENT_TYPE_ACCEL_X 100,
            relEvent exampleConfig.EVENT_TYPE_MAGV_X 5]).mPendingMask Accelerometer ∧
          bitSet (maskState 1 0 1).mEnabled Accelerometer)) ∧
      (bitSet (processRecords exampleConfig (maskState 1 0 1)
          [relEvent exampleConfig.EVENT_TYPE_ACCEL_X 100,
            relEvent exampleConfig.EVENT_TYPE_MAGV_X 5]).mPendingMask Accelerometer ↔
        (bitSet (maskState 1 0 1).mPendingMask Accelerometer ∨
          updatedIn exampleConfig (maskState 1 0 1)
            [relEvent exampleConfig.EVENT_TYPE_ACCEL_X 100,
              relEvent exampleConfig.EVENT_TYPE_MAGV_X 5] Accelerometer)) ∧
      ((∃ e ∈ out, e.sensor = sensorHandle exampleConfig Accelerometer) ↔
        ((bitSet (maskState 1 0 1).mPendingMask Accelerometer ∨
          updatedIn exampleConfig (maskState 1 0 1)
            [relEvent exampleConfig.EVENT_TYPE_ACCEL_X 100,
              relEvent exampleConfig.EVENT_TYPE_MAGV_X 5] Accelerometer) ∧
          bitSet (maskState 1 0 1).mEnabled Accelerometer)) ∧
      ((maskState 1 0 1).mPendingMask = 0 →
        ((∃ e ∈ out, e.sensor = sensorHandle exampleConfig Accelerometer) ↔
          (updatedIn exampleConfig (maskState 1 0 1)
            [relEvent exampleConfig.EVENT_TYPE_ACCEL_X 100,
              relEvent exampleConfig.EVENT_TYPE_MAGV_X 5] Accelerometer ∧
            bitSet (maskState 1 0 1).mEnabled Accelerometer)))) ∧
    (readEvents exampleConfig okEnv (maskState 1 0 1) 4
        (3, [relEvent exampleConfig.EVENT_TYPE_ACCEL_X 100,
          relEvent exampleConfig.EVENT_TYPE_MAGV_X 5, synEvent])).map
        (fun p => (p.1, p.2.1.map (fun e => e.sensor), p.2.2.mPendingMask)) =
      some (1, [exampleConfig.ID_A], 0) ∧
    updatedIn exampleConfig (maskState 1 0 1)
      [relEvent exampleConfig.EVENT_TYPE_ACCEL_X 100,
        relEvent exampleConfig.EVENT_TYPE_MAGV_X 5] Accelerometer ∧
    ¬ updatedIn exampleConfig (maskState 1 0 1)
      [relEvent exampleConfig.EVENT_TYPE_ACCEL_X 100,
        relEvent exampleConfig.EVENT_TYPE_MAGV_X 5] Orientation :=
  ⟨by decide, by decide, by decide, by decide, rfl, by decide, by decide, by decide,
    by decide, by decide,
    readEvents_emits_iff exampleConfig okEnv (maskState 1 0 1) 4
      (3, [relEvent exampleConfig.EVENT_TYPE_ACCEL_X 100,
        relEvent exampleConfig.EVENT_TYPE_MAGV_X 5, synEvent])
      [relEvent exampleConfig.EVENT_TYPE_ACCEL_X 100,
        relEvent exampleConfig.EVENT_TYPE_MAGV_X 5] synEvent Accelerometer
      (by decide) (by decide) (by decide) (by decide) rfl (by decide) (by decide)
      (by decide) (by decide) (by decide),
    rfl,
    ⟨[], relEvent exampleConfig.EVENT_TYPE_ACCEL_X 100,
      [relEvent exampleConfig.EVENT_TYPE_MAGV_X 5], rfl, by decide, Or.inl (by decide)⟩,
    fun h => absurd
      ((processRecords_pending exampleConfig Orientation
        [relEvent exampleConfig.EVENT_TYPE_ACCEL_X 100,
          relEvent exampleConfig.EVENT_TYPE_MAGV_X 5] (maskState 1 0 1)).mpr (Or.inr h))
      (by decide)⟩

end AkmSensor
